import Mathlib

/-!
Verification of the MOQT endpoint library (varint codec, control-message
codec, data-stream codec, and session state machine) against its
natural-language specification.

Bytes are modelled as `List Nat` (each entry a value below 256 wherever the
source produces actual bytes).  Python functions that can raise are modelled
as `Except PyError` values; every `raise ValueError(...)` in the source
becomes `.error (.valueError ...)`, `IndexError` from out-of-range indexing
becomes `.error .indexError`, and `int.to_bytes` overflow becomes
`.error .overflowError`.  Python `str` values are represented by their UTF-8
byte sequences, so `.encode("utf-8")` and `.decode("utf-8")` are the
identity on this representation.
-/

/-- The Python exception classes raised by the modelled code. -/
inductive PyError where
  | valueError (msg : String)
  | indexError
  | overflowError
  | runtimeError (msg : String)
  | timeoutError
  deriving Repr, DecidableEq

/-- Python slice `data[a:b]` (for 0 ≤ a ≤ b, as used by the source). -/
def pySlice (data : List Nat) (a b : Nat) : List Nat :=
  (data.take b).drop a

/- ## Varint codec (src/moqt/varint.py) -/

/-- `encode_varint` from varint.py: QUIC RFC 9000 §16 variable-length
integer encoding.  Negative inputs cannot occur for `Nat`; the out-of-range
branch raises `ValueError` as in the source. -/
def encode_varint (value : Nat) : Except PyError (List Nat) :=
  if value < 0x40 then
    .ok [value]
  else if value < 0x4000 then
    .ok [0x40 ||| (value >>> 8), value &&& 0xFF]
  else if value < 0x40000000 then
    .ok [0x80 ||| (value >>> 24), (value >>> 16) &&& 0xFF,
         (value >>> 8) &&& 0xFF, value &&& 0xFF]
  else if value < 0x4000000000000000 then
    .ok [0xC0 ||| (value >>> 56), (value >>> 48) &&& 0xFF,
         (value >>> 40) &&& 0xFF, (value >>> 32) &&& 0xFF,
         (value >>> 24) &&& 0xFF, (value >>> 16) &&& 0xFF,
         (value >>> 8) &&& 0xFF, value &&& 0xFF]
  else
    .error (.valueError "varint cannot encode values above 2^62-1")

/-- `decode_varint` from varint.py.  Returns the decoded value and the
number of consumed bytes, or raises `ValueError` when the input is too
short. -/
def decode_varint (data : List Nat) (offset : Nat) : Except PyError (Nat × Nat) :=
  if data.length ≤ offset then
    .error (.valueError "not enough data to decode varint")
  else
    let first_byte := data.getD offset 0
    let pfx := first_byte >>> 6
    if pfx = 0 then
      .ok (first_byte, 1)
    else if pfx = 1 then
      if data.length < offset + 2 then
        .error (.valueError "not enough data to decode 2-byte varint")
      else
        .ok (((first_byte &&& 0x3F) <<< 8) ||| data.getD (offset + 1) 0, 2)
    else if pfx = 2 then
      if data.length < offset + 4 then
        .error (.valueError "not enough data to decode 4-byte varint")
      else
        .ok (((first_byte &&& 0x3F) <<< 24) |||
             (data.getD (offset + 1) 0 <<< 16) |||
             (data.getD (offset + 2) 0 <<< 8) |||
             data.getD (offset + 3) 0, 4)
    else
      if data.length < offset + 8 then
        .error (.valueError "not enough data to decode 8-byte varint")
      else
        .ok (((first_byte &&& 0x3F) <<< 56) |||
             (data.getD (offset + 1) 0 <<< 48) |||
             (data.getD (offset + 2) 0 <<< 40) |||
             (data.getD (offset + 3) 0 <<< 32) |||
             (data.getD (offset + 4) 0 <<< 24) |||
             (data.getD (offset + 5) 0 <<< 16) |||
             (data.getD (offset + 6) 0 <<< 8) |||
             data.getD (offset + 7) 0, 8)

/-- `varint_size` from varint.py. -/
def varint_size (value : Nat) : Except PyError Nat :=
  if value < 0x40 then .ok 1
  else if value < 0x4000 then .ok 2
  else if value < 0x40000000 then .ok 4
  else if value < 0x4000000000000000 then .ok 8
  else .error (.valueError "varint cannot encode values above 2^62-1")

/-- Arithmetic normal form of the bytes produced by `encode_varint` for an
in-range value (proved equal in `encode_varint_eq`); used to state and prove
the codec lemmas. -/
def vbytes (n : Nat) : List Nat :=
  if n < 0x40 then [n]
  else if n < 0x4000 then [64 + n / 2 ^ 8, n % 256]
  else if n < 0x40000000 then
    [128 + n / 2 ^ 24, n / 2 ^ 16 % 256, n / 2 ^ 8 % 256, n % 256]
  else
    [192 + n / 2 ^ 56, n / 2 ^ 48 % 256, n / 2 ^ 40 % 256, n / 2 ^ 32 % 256,
     n / 2 ^ 24 % 256, n / 2 ^ 16 % 256, n / 2 ^ 8 % 256, n % 256]

/-- Disjoint bitwise-or is addition. -/
theorem lor_add_of_lt (k a b : Nat) (ha : a % 2 ^ k = 0) (hb : b < 2 ^ k) :
    a ||| b = a + b := by
  have hmul : 2 ^ k * (a / 2 ^ k) = a := Nat.mul_div_cancel' (Nat.dvd_of_mod_eq_zero ha)
  have key : (2 ^ k * (a / 2 ^ k)) ||| b = 2 ^ k * (a / 2 ^ k) + b := by
    refine Nat.eq_of_testBit_eq fun j => ?_
    rw [Nat.testBit_lor, Nat.testBit_mul_pow_two_add (a / 2 ^ k) hb j]
    by_cases hj : j < k
    · have h0 : (2 ^ k * (a / 2 ^ k)).testBit j = false := by
        have := Nat.testBit_mul_pow_two_add (a / 2 ^ k)
          (Nat.pos_pow_of_pos k (by norm_num) |> fun h => h) j
        have h2 : (2 ^ k * (a / 2 ^ k) + 0).testBit j
            = if j < k then (0 : Nat).testBit j else (a / 2 ^ k).testBit (j - k) := by
          exact Nat.testBit_mul_pow_two_add (a / 2 ^ k) (Nat.pos_pow_of_pos k (by norm_num)) j
        simpa [hj, Nat.zero_testBit] using h2
      simp [hj, h0]
    · have hb2 : b < 2 ^ j := lt_of_lt_of_le hb (Nat.pow_le_pow_right (by norm_num) (by omega))
      have h2 : (2 ^ k * (a / 2 ^ k) + 0).testBit j
          = if j < k then (0 : Nat).testBit j else (a / 2 ^ k).testBit (j - k) := by
        exact Nat.testBit_mul_pow_two_add (a / 2 ^ k) (Nat.pos_pow_of_pos k (by norm_num)) j
      simp only [hj, if_false, Nat.add_zero] at h2
      simp [hj, Nat.testBit_lt_two_pow hb2, h2]
  calc a ||| b = (2 ^ k * (a / 2 ^ k)) ||| b := by rw [hmul]
    _ = 2 ^ k * (a / 2 ^ k) + b := key
    _ = a + b := by rw [hmul]

theorem and_255_eq (x : Nat) : x &&& 255 = x % 256 := by
  simpa using Nat.and_pow_two_sub_one_eq_mod x 8

theorem and_63_eq (x : Nat) : x &&& 63 = x % 64 := by
  simpa using Nat.and_pow_two_sub_one_eq_mod x 6

/-- For in-range values `encode_varint` succeeds and produces `vbytes`. -/
theorem encode_varint_eq (n : Nat) (h : n < 2 ^ 62) :
    encode_varint n = .ok (vbytes n) := by
  unfold encode_varint vbytes
  rcases Nat.lt_or_ge n 0x40 with h1 | h1
  · simp [h1]
  rcases Nat.lt_or_ge n 0x4000 with h2 | h2
  · have hb0 : 64 ||| (n >>> 8) = 64 + n / 2 ^ 8 := by
      rw [Nat.shiftRight_eq_div_pow]
      exact lor_add_of_lt 6 64 (n / 2 ^ 8) (by norm_num) (by omega)
    simp only [if_neg (by omega : ¬ n < 0x40), if_pos h2]
    rw [and_255_eq, hb0]
  rcases Nat.lt_or_ge n 0x40000000 with h3 | h3
  · have hb0 : 128 ||| n / 2 ^ 24 = 128 + n / 2 ^ 24 :=
      lor_add_of_lt 7 128 (n / 2 ^ 24) (by norm_num) (by omega)
    simp only [if_neg (by omega : ¬ n < 0x40), if_neg (by omega : ¬ n < 0x4000),
      if_pos h3]
    rw [Nat.shiftRight_eq_div_pow, Nat.shiftRight_eq_div_pow,
      Nat.shiftRight_eq_div_pow, and_255_eq, and_255_eq, and_255_eq, hb0]
  · have h4 : n < 0x4000000000000000 := by
      have : (2 : Nat) ^ 62 = 0x4000000000000000 := by norm_num
      omega
    have hb0 : 192 ||| n / 2 ^ 56 = 192 + n / 2 ^ 56 :=
      lor_add_of_lt 6 192 (n / 2 ^ 56) (by norm_num) (by omega)
    simp only [if_neg (by omega : ¬ n < 0x40), if_neg (by omega : ¬ n < 0x4000),
      if_neg (by omega : ¬ n < 0x40000000), if_pos h4]
    rw [Nat.shiftRight_eq_div_pow, Nat.shiftRight_eq_div_pow,
      Nat.shiftRight_eq_div_pow, Nat.shiftRight_eq_div_pow,
      Nat.shiftRight_eq_div_pow, Nat.shiftRight_eq_div_pow,
      Nat.shiftRight_eq_div_pow, and_255_eq, and_255_eq, and_255_eq,
      and_255_eq, and_255_eq, and_255_eq, and_255_eq, hb0]

theorem vbytes_length (n : Nat) :
    (vbytes n).length = if n < 0x40 then 1 else if n < 0x4000 then 2
      else if n < 0x40000000 then 4 else 8 := by
  unfold vbytes
  by_cases h1 : n < 0x40 <;> by_cases h2 : n < 0x4000 <;>
    by_cases h3 : n < 0x40000000 <;> simp [h1, h2, h3]

theorem lor_lt_two_pow {x y n : Nat} (hx : x < 2 ^ n) (hy : y < 2 ^ n) :
    x ||| y < 2 ^ n :=
  Nat.bitwise_lt hx hy

theorem lor2 (x b1 : Nat) (h1 : b1 < 256) :
    (x * 2 ^ 8) ||| b1 = x * 2 ^ 8 + b1 :=
  lor_add_of_lt 8 (x * 2 ^ 8) b1 (by omega) (by omega)

theorem lor4 (x b1 b2 b3 : Nat) (h1 : b1 < 256) (h2 : b2 < 256)
    (h3 : b3 < 256) :
    (x * 2 ^ 24) ||| (b1 * 2 ^ 16) ||| (b2 * 2 ^ 8) ||| b3
      = x * 2 ^ 24 + b1 * 2 ^ 16 + b2 * 2 ^ 8 + b3 := by
  rw [lor_add_of_lt 24 (x * 2 ^ 24) (b1 * 2 ^ 16) (by omega) (by omega),
    lor_add_of_lt 16 (x * 2 ^ 24 + b1 * 2 ^ 16) (b2 * 2 ^ 8) (by omega) (by omega),
    lor_add_of_lt 8 (x * 2 ^ 24 + b1 * 2 ^ 16 + b2 * 2 ^ 8) b3 (by omega) (by omega)]

theorem lor8 (x b1 b2 b3 b4 b5 b6 b7 : Nat) (h1 : b1 < 256)
    (h2 : b2 < 256) (h3 : b3 < 256) (h4 : b4 < 256) (h5 : b5 < 256)
    (h6 : b6 < 256) (h7 : b7 < 256) :
    (x * 2 ^ 56) ||| (b1 * 2 ^ 48) ||| (b2 * 2 ^ 40) ||| (b3 * 2 ^ 32) |||
      (b4 * 2 ^ 24) ||| (b5 * 2 ^ 16) ||| (b6 * 2 ^ 8) ||| b7
      = x * 2 ^ 56 + b1 * 2 ^ 48 + b2 * 2 ^ 40 + b3 * 2 ^ 32 + b4 * 2 ^ 24 +
        b5 * 2 ^ 16 + b6 * 2 ^ 8 + b7 := by
  rw [lor_add_of_lt 56 (x * 2 ^ 56) (b1 * 2 ^ 48) (by omega) (by omega),
    lor_add_of_lt 48 (x * 2 ^ 56 + b1 * 2 ^ 48) (b2 * 2 ^ 40) (by omega) (by omega),
    lor_add_of_lt 40 (x * 2 ^ 56 + b1 * 2 ^ 48 + b2 * 2 ^ 40) (b3 * 2 ^ 32)
      (by omega) (by omega),
    lor_add_of_lt 32 (x * 2 ^ 56 + b1 * 2 ^ 48 + b2 * 2 ^ 40 + b3 * 2 ^ 32)
      (b4 * 2 ^ 24) (by omega) (by omega),
    lor_add_of_lt 24 (x * 2 ^ 56 + b1 * 2 ^ 48 + b2 * 2 ^ 40 + b3 * 2 ^ 32 +
      b4 * 2 ^ 24) (b5 * 2 ^ 16) (by omega) (by omega),
    lor_add_of_lt 16 (x * 2 ^ 56 + b1 * 2 ^ 48 + b2 * 2 ^ 40 + b3 * 2 ^ 32 +
      b4 * 2 ^ 24 + b5 * 2 ^ 16) (b6 * 2 ^ 8) (by omega) (by omega),
    lor_add_of_lt 8 (x * 2 ^ 56 + b1 * 2 ^ 48 + b2 * 2 ^ 40 + b3 * 2 ^ 32 +
      b4 * 2 ^ 24 + b5 * 2 ^ 16 + b6 * 2 ^ 8) b7 (by omega) (by omega)]

theorem getD_middle (pre l rest : List Nat) (i : Nat) (hi : i < l.length) :
    (pre ++ (l ++ rest)).getD (pre.length + i) 0 = l.getD i 0 := by
  rw [List.getD_append_right pre (l ++ rest) 0 (pre.length + i) (by omega)]
  have h2 : pre.length + i - pre.length = i := by omega
  rw [h2, List.getD_append l rest 0 i hi]

/-- Decoding at the start of an embedded canonical varint recovers the value
and its size, for any surrounding bytes. -/
theorem decode_varint_at (pre rest : List Nat) (n : Nat) (h : n < 2 ^ 62) :
    decode_varint (pre ++ (vbytes n ++ rest)) pre.length
      = .ok (n, (vbytes n).length) := by
  rcases Nat.lt_or_ge n 0x40 with h1 | h1
  · have hv : vbytes n = [n] := by simp [vbytes, h1]
    rw [hv]
    have hlen : (pre ++ ([n] ++ rest)).length = pre.length + 1 + rest.length := by
      simp; omega
    have g0 : (pre ++ ([n] ++ rest)).getD (pre.length + 0) 0 = n := by
      rw [getD_middle pre [n] rest 0 (by simp)]; rfl
    simp only [Nat.add_zero] at g0
    unfold decode_varint
    rw [if_neg (by omega), g0,
      if_pos (by rw [Nat.shiftRight_eq_div_pow]; omega)]
    rfl
  rcases Nat.lt_or_ge n 0x4000 with h2 | h2
  · have hv : vbytes n = [64 + n / 2 ^ 8, n % 256] := by
      unfold vbytes; rw [if_neg (by omega), if_pos h2]
    rw [hv]
    set l : List Nat := [64 + n / 2 ^ 8, n % 256] with hl
    have hlen : (pre ++ (l ++ rest)).length = pre.length + 2 + rest.length := by
      simp [hl]; omega
    have g0 : (pre ++ (l ++ rest)).getD (pre.length + 0) 0 = 64 + n / 2 ^ 8 := by
      rw [getD_middle pre l rest 0 (by simp [hl])]; rfl
    have g1 : (pre ++ (l ++ rest)).getD (pre.length + 1) 0 = n % 256 := by
      rw [getD_middle pre l rest 1 (by simp [hl])]; rfl
    simp only [Nat.add_zero] at g0
    unfold decode_varint
    rw [if_neg (by omega), g0, g1,
      if_neg (by rw [Nat.shiftRight_eq_div_pow]; omega),
      if_pos (by rw [Nat.shiftRight_eq_div_pow]; omega),
      if_neg (by omega), and_63_eq, Nat.shiftLeft_eq,
      lor2 ((64 + n / 2 ^ 8) % 64) (n % 256) (by omega)]
    have hval : (64 + n / 2 ^ 8) % 64 * 2 ^ 8 + n % 256 = n := by omega
    rw [hval]
    simp [hl]
  rcases Nat.lt_or_ge n 0x40000000 with h3 | h3
  · have hv : vbytes n
        = [128 + n / 2 ^ 24, n / 2 ^ 16 % 256, n / 2 ^ 8 % 256, n % 256] := by
      unfold vbytes; rw [if_neg (by omega), if_neg (by omega), if_pos h3]
    rw [hv]
    set l : List Nat := [128 + n / 2 ^ 24, n / 2 ^ 16 % 256, n / 2 ^ 8 % 256, n % 256]
      with hl
    have hlen : (pre ++ (l ++ rest)).length = pre.length + 4 + rest.length := by
      simp [hl]; omega
    have g0 : (pre ++ (l ++ rest)).getD (pre.length + 0) 0 = 128 + n / 2 ^ 24 := by
      rw [getD_middle pre l rest 0 (by simp [hl])]; rfl
    have g1 : (pre ++ (l ++ rest)).getD (pre.length + 1) 0 = n / 2 ^ 16 % 256 := by
      rw [getD_middle pre l rest 1 (by simp [hl])]; rfl
    have g2 : (pre ++ (l ++ rest)).getD (pre.length + 2) 0 = n / 2 ^ 8 % 256 := by
      rw [getD_middle pre l rest 2 (by simp [hl])]; rfl
    have g3 : (pre ++ (l ++ rest)).getD (pre.length + 3) 0 = n % 256 := by
      rw [getD_middle pre l rest 3 (by simp [hl])]; rfl
    simp only [Nat.add_zero] at g0
    unfold decode_varint
    rw [if_neg (by omega), g0, g1, g2, g3,
      if_neg (by rw [Nat.shiftRight_eq_div_pow]; omega),
      if_neg (by rw [Nat.shiftRight_eq_div_pow]; omega),
      if_pos (by rw [Nat.shiftRight_eq_div_pow]; omega),
      if_neg (by omega), and_63_eq, Nat.shiftLeft_eq, Nat.shiftLeft_eq,
      Nat.shiftLeft_eq,
      lor4 ((128 + n / 2 ^ 24) % 64) (n / 2 ^ 16 % 256) (n / 2 ^ 8 % 256) (n % 256)
        (by omega) (by omega) (by omega)]
    have hval : (128 + n / 2 ^ 24) % 64 * 2 ^ 24 + n / 2 ^ 16 % 256 * 2 ^ 16 +
        n / 2 ^ 8 % 256 * 2 ^ 8 + n % 256 = n := by omega
    rw [hval]
    simp [hl]
  · have h4 : n < 0x4000000000000000 := by
      have he : (2 : Nat) ^ 62 = 0x4000000000000000 := by norm_num
      omega
    have hv : vbytes n
        = [192 + n / 2 ^ 56, n / 2 ^ 48 % 256, n / 2 ^ 40 % 256, n / 2 ^ 32 % 256,
           n / 2 ^ 24 % 256, n / 2 ^ 16 % 256, n / 2 ^ 8 % 256, n % 256] := by
      unfold vbytes; rw [if_neg (by omega), if_neg (by omega), if_neg (by omega)]
    rw [hv]
    set l : List Nat := [192 + n / 2 ^ 56, n / 2 ^ 48 % 256, n / 2 ^ 40 % 256,
      n / 2 ^ 32 % 256, n / 2 ^ 24 % 256, n / 2 ^ 16 % 256, n / 2 ^ 8 % 256, n % 256]
      with hl
    have hlen : (pre ++ (l ++ rest)).length = pre.length + 8 + rest.length := by
      simp [hl]; omega
    have g0 : (pre ++ (l ++ rest)).getD (pre.length + 0) 0 = 192 + n / 2 ^ 56 := by
      rw [getD_middle pre l rest 0 (by simp [hl])]; rfl
    have g1 : (pre ++ (l ++ rest)).getD (pre.length + 1) 0 = n / 2 ^ 48 % 256 := by
      rw [getD_middle pre l rest 1 (by simp [hl])]; rfl
    have g2 : (pre ++ (l ++ rest)).getD (pre.length + 2) 0 = n / 2 ^ 40 % 256 := by
      rw [getD_middle pre l rest 2 (by simp [hl])]; rfl
    have g3 : (pre ++ (l ++ rest)).getD (pre.length + 3) 0 = n / 2 ^ 32 % 256 := by
      rw [getD_middle pre l rest 3 (by simp [hl])]; rfl
    have g4 : (pre ++ (l ++ rest)).getD (pre.length + 4) 0 = n / 2 ^ 24 % 256 := by
      rw [getD_middle pre l rest 4 (by simp [hl])]; rfl
    have g5 : (pre ++ (l ++ rest)).getD (pre.length + 5) 0 = n / 2 ^ 16 % 256 := by
      rw [getD_middle pre l rest 5 (by simp [hl])]; rfl
    have g6 : (pre ++ (l ++ rest)).getD (pre.length + 6) 0 = n / 2 ^ 8 % 256 := by
      rw [getD_middle pre l rest 6 (by simp [hl])]; rfl
    have g7 : (pre ++ (l ++ rest)).getD (pre.length + 7) 0 = n % 256 := by
      rw [getD_middle pre l rest 7 (by simp [hl])]; rfl
    simp only [Nat.add_zero] at g0
    unfold decode_varint
    rw [if_neg (by omega), g0, g1, g2, g3, g4, g5, g6, g7,
      if_neg (by rw [Nat.shiftRight_eq_div_pow]; omega),
      if_neg (by rw [Nat.shiftRight_eq_div_pow]; omega),
      if_neg (by rw [Nat.shiftRight_eq_div_pow]; omega),
      if_neg (by omega), and_63_eq, Nat.shiftLeft_eq, Nat.shiftLeft_eq,
      Nat.shiftLeft_eq, Nat.shiftLeft_eq, Nat.shiftLeft_eq, Nat.shiftLeft_eq,
      Nat.shiftLeft_eq,
      lor8 ((192 + n / 2 ^ 56) % 64) (n / 2 ^ 48 % 256) (n / 2 ^ 40 % 256)
        (n / 2 ^ 32 % 256) (n / 2 ^ 24 % 256) (n / 2 ^ 16 % 256) (n / 2 ^ 8 % 256)
        (n % 256) (by omega) (by omega) (by omega) (by omega) (by omega)
        (by omega) (by omega)]
    have hval : (192 + n / 2 ^ 56) % 64 * 2 ^ 56 + n / 2 ^ 48 % 256 * 2 ^ 48 +
        n / 2 ^ 40 % 256 * 2 ^ 40 + n / 2 ^ 32 % 256 * 2 ^ 32 +
        n / 2 ^ 24 % 256 * 2 ^ 24 + n / 2 ^ 16 % 256 * 2 ^ 16 +
        n / 2 ^ 8 % 256 * 2 ^ 8 + n % 256 = n := by omega
    rw [hval]
    simp [hl]

/-- Specialization to a whole buffer consisting of one canonical varint. -/
theorem decode_varint_prefix (rest : List Nat) (n : Nat) (h : n < 2 ^ 62) :
    decode_varint (vbytes n ++ rest) 0 = .ok (n, (vbytes n).length) :=
  decode_varint_at [] rest n h

/-- `varint_size` succeeds on in-range values and matches the encoded
length. -/
theorem varint_size_eq (n : Nat) (h : n < 2 ^ 62) :
    varint_size n = .ok (vbytes n).length := by
  unfold varint_size
  rw [vbytes_length]
  by_cases h1 : n < 0x40 <;> by_cases h2 : n < 0x4000 <;>
    by_cases h3 : n < 0x40000000 <;>
      simp [h1, h2, h3] <;> omega

/-- A decodable byte string encoding value `n` is at least as long as the
canonical encoding: decode length classes bound the value ranges. -/
theorem vbytes_shortest (b2 : List Nat) (hb : ∀ x ∈ b2, x < 256) (n : Nat)
    (hd : decode_varint b2 0 = .ok (n, b2.length)) :
    (vbytes n).length ≤ b2.length := by
  have hmem : ∀ i, i < b2.length → b2.getD i 0 < 256 := by
    intro i hi
    rw [List.getD_eq_getElem?_getD, List.getElem?_eq_getElem hi]
    exact hb _ (List.getElem_mem hi)
  unfold decode_varint at hd
  by_cases h0 : b2.length ≤ 0
  · rw [if_pos h0] at hd; simp at hd
  rw [if_neg h0] at hd
  by_cases h1 : b2.getD 0 0 >>> 6 = 0
  · rw [if_pos h1] at hd
    simp only [Except.ok.injEq, Prod.mk.injEq] at hd
    obtain ⟨hn, hlen⟩ := hd
    have hfb : b2.getD 0 0 < 256 := hmem 0 (by omega)
    have hsmall : n < 64 := by
      rw [← hn]
      rw [Nat.shiftRight_eq_div_pow] at h1
      omega
    rw [vbytes_length]
    simp [hsmall]
    omega
  rw [if_neg h1] at hd
  by_cases h2 : b2.getD 0 0 >>> 6 = 1
  · rw [if_pos h2] at hd
    by_cases hg : b2.length < 0 + 2
    · rw [if_pos hg] at hd; simp at hd
    rw [if_neg hg] at hd
    simp only [Except.ok.injEq, Prod.mk.injEq] at hd
    obtain ⟨hn, hlen⟩ := hd
    have hb1 : b2.getD (0 + 1) 0 < 256 := hmem 1 (by omega)
    have hsmall : n < 16384 := by
      rw [← hn]
      have e1 : (b2.getD 0 0 &&& 63) <<< 8 < 2 ^ 14 := by
        rw [and_63_eq, Nat.shiftLeft_eq]; omega
      have e2 : b2.getD (0 + 1) 0 < 2 ^ 14 := by omega
      exact lor_lt_two_pow e1 e2
    rw [vbytes_length]
    by_cases hs1 : n < 0x40 <;> simp [hs1, hsmall] <;> omega
  rw [if_neg h2] at hd
  by_cases h3 : b2.getD 0 0 >>> 6 = 2
  · rw [if_pos h3] at hd
    by_cases hg : b2.length < 0 + 4
    · rw [if_pos hg] at hd; simp at hd
    rw [if_neg hg] at hd
    simp only [Except.ok.injEq, Prod.mk.injEq] at hd
    obtain ⟨hn, hlen⟩ := hd
    have hb1 : b2.getD (0 + 1) 0 < 256 := hmem 1 (by omega)
    have hb2' : b2.getD (0 + 2) 0 < 256 := hmem 2 (by omega)
    have hb3 : b2.getD (0 + 3) 0 < 256 := hmem 3 (by omega)
    have hsmall : n < 2 ^ 30 := by
      rw [← hn]
      have e1 : (b2.getD 0 0 &&& 63) <<< 24 < 2 ^ 30 := by
        rw [and_63_eq, Nat.shiftLeft_eq]; omega
      have e2 : b2.getD (0 + 1) 0 <<< 16 < 2 ^ 30 := by
        rw [Nat.shiftLeft_eq]; omega
      have e3 : b2.getD (0 + 2) 0 <<< 8 < 2 ^ 30 := by
        rw [Nat.shiftLeft_eq]; omega
      have e4 : b2.getD (0 + 3) 0 < 2 ^ 30 := by omega
      exact lor_lt_two_pow (lor_lt_two_pow (lor_lt_two_pow e1 e2) e3) e4
    rw [vbytes_length]
    by_cases hs1 : n < 0x40 <;> by_cases hs2 : n < 0x4000 <;>
      simp [hs1, hs2, (by omega : n < 0x40000000)] <;> omega
  · rw [if_neg h3] at hd
    by_cases hg : b2.length < 0 + 8
    · rw [if_pos hg] at hd; simp at hd
    rw [if_neg hg] at hd
    simp only [Except.ok.injEq, Prod.mk.injEq] at hd
    obtain ⟨hn, hlen⟩ := hd
    rw [vbytes_length]
    by_cases hs1 : n < 0x40 <;> by_cases hs2 : n < 0x4000 <;>
      by_cases hs3 : n < 0x40000000 <;> simp [hs1, hs2, hs3] <;> omega

/-- C2: for every `n` in `[0, 2^62 - 1]`, `encode_varint` succeeds,
`decode_varint` of the encoding returns `(n, varint_size n)` where
`varint_size n` is the encoded length, the eight boundary values encode to
1, 1, 2, 2, 4, 4, 8, 8 bytes respectively, and the encoding is the shortest
among all byte strings that decode to `n`. -/
theorem C2_varint_roundtrip (n : Nat) (h : n < 2 ^ 62) :
    ∃ b sz, encode_varint n = .ok b ∧ varint_size n = .ok sz ∧
      b.length = sz ∧ decode_varint b 0 = .ok (n, sz) ∧
      (∀ b2, (∀ x ∈ b2, x < 256) → decode_varint b2 0 = .ok (n, b2.length) →
        b.length ≤ b2.length) ∧
      (∀ p ∈ ([(0, 1), (63, 1), (64, 2), (16383, 2), (16384, 4),
          (2 ^ 30 - 1, 4), (2 ^ 30, 8), (2 ^ 62 - 1, 8)] : List (Nat × Nat)),
        ∃ eb, encode_varint p.1 = .ok eb ∧ eb.length = p.2) := by
  refine ⟨vbytes n, (vbytes n).length, encode_varint_eq n h, varint_size_eq n h,
    rfl, by simpa using decode_varint_prefix [] n h,
    fun b2 hb hd => vbytes_shortest b2 hb n hd, ?_⟩
  intro p hp
  fin_cases hp <;> exact ⟨_, rfl, rfl⟩

/-- Witness for C2 at `n = 16384`. -/
theorem C2_varint_roundtrip_witness :
    (16384 : Nat) < 2 ^ 62 ∧
    ∃ b sz, encode_varint 16384 = .ok b ∧ varint_size 16384 = .ok sz ∧
      b.length = sz ∧ decode_varint b 0 = .ok (16384, sz) ∧
      (∀ b2, (∀ x ∈ b2, x < 256) → decode_varint b2 0 = .ok (16384, b2.length) →
        b.length ≤ b2.length) ∧
      (∀ p ∈ ([(0, 1), (63, 1), (64, 2), (16383, 2), (16384, 4),
          (2 ^ 30 - 1, 4), (2 ^ 30, 8), (2 ^ 62 - 1, 8)] : List (Nat × Nat)),
        ∃ eb, encode_varint p.1 = .ok eb ∧ eb.length = p.2) :=
  ⟨by norm_num, C2_varint_roundtrip 16384 (by norm_num)⟩

/- ## Control-message codec (src/moqt/message.py) -/

theorem except_ok_bind {ε α β : Type} (a : α) (f : α → Except ε β) :
    (Except.ok a : Except ε α) >>= f = f a := rfl

theorem pySlice_at (pre l rest : List Nat) :
    pySlice (pre ++ (l ++ rest)) pre.length (pre.length + l.length) = l := by
  unfold pySlice
  rw [List.take_append l.length,
    show List.take l.length (l ++ rest) = l from List.take_left l rest]
  exact List.drop_left pre l

/-- MOQT `Parameter` (type, value). -/
structure Parameter where
  type : Nat
  value : List Nat
  deriving Repr, DecidableEq

/-- `Parameter.encode`: even types carry the raw value inline, odd types add
a varint length prefix. -/
def Parameter.encode (p : Parameter) : Except PyError (List Nat) := do
  let tb ← encode_varint p.type
  if p.type % 2 = 1 then
    let lb ← encode_varint p.value.length
    .ok (tb ++ lb ++ p.value)
  else
    .ok (tb ++ p.value)

/-- `Parameter.decode` from message.py. -/
def Parameter.decode (data : List Nat) (offset : Nat) :
    Except PyError (Parameter × Nat) := do
  let (param_type, consumed) ← decode_varint data offset
  if param_type % 2 = 1 then
    let (length, c2) ← decode_varint data (offset + consumed)
    .ok (⟨param_type,
          pySlice data (offset + (consumed + c2))
            (offset + (consumed + c2) + length)⟩,
         consumed + c2 + length)
  else
    let (v, c2) ← decode_varint data (offset + consumed)
    let value ← encode_varint v
    .ok (⟨param_type, value⟩, consumed + c2)

/-- Canonical bytes of an encoded parameter. -/
def Parameter.encB (p : Parameter) : List Nat :=
  vbytes p.type ++
    ((if p.type % 2 = 1 then vbytes p.value.length else []) ++ p.value)

/-- Validity of a parameter: type in varint range; odd types carry bytes of
an encodable length, even types carry a canonically encoded varint value
(the decoder re-encodes the decoded varint, so only canonical values round
trip). -/
def Parameter.valid (p : Parameter) : Prop :=
  p.type < 2 ^ 62 ∧
    (if p.type % 2 = 1 then p.value.length < 2 ^ 62
     else ∃ v, v < 2 ^ 62 ∧ p.value = vbytes v)

theorem Parameter_encode_eq (p : Parameter) (hp : p.valid) :
    p.encode = .ok p.encB := by
  obtain ⟨ht, hv⟩ := hp
  unfold Parameter.encode Parameter.encB
  rw [encode_varint_eq p.type ht]
  simp only [except_ok_bind]
  by_cases hodd : p.type % 2 = 1
  · rw [if_pos hodd] at hv ⊢
    rw [encode_varint_eq p.value.length hv]
    simp only [except_ok_bind]
    simp only [if_pos hodd]
    simp [List.append_assoc]
  · rw [if_neg hodd] at hv ⊢
    simp [hodd]

theorem Parameter_decode_at (pre rest : List Nat) (p : Parameter)
    (hp : p.valid) :
    Parameter.decode (pre ++ (p.encB ++ rest)) pre.length
      = .ok (p, p.encB.length) := by
  obtain ⟨ht, hv⟩ := hp
  by_cases hodd : p.type % 2 = 1
  · rw [if_pos hodd] at hv
    have hshape : p.encB ++ rest
        = vbytes p.type ++ (vbytes p.value.length ++ (p.value ++ rest)) := by
      unfold Parameter.encB
      rw [if_pos hodd]
      simp [List.append_assoc]
    rw [hshape]
    unfold Parameter.decode
    rw [decode_varint_at pre (vbytes p.value.length ++ (p.value ++ rest))
      p.type ht]
    simp only [except_ok_bind]
    rw [if_pos hodd]
    have h2 := decode_varint_at (pre ++ vbytes p.type) (p.value ++ rest)
      p.value.length hv
    simp only [List.append_assoc, List.length_append] at h2
    rw [h2]
    simp only [except_ok_bind]
    have h3 := pySlice_at (pre ++ (vbytes p.type ++ vbytes p.value.length))
      p.value rest
    simp only [List.append_assoc, List.length_append] at h3
    simp only [← Nat.add_assoc] at h3 ⊢
    rw [h3]
    unfold Parameter.encB
    rw [if_pos hodd]
    simp [List.length_append]
    omega
  · rw [if_neg hodd] at hv
    obtain ⟨v, hvr, hveq⟩ := hv
    have hshape : p.encB ++ rest = vbytes p.type ++ (vbytes v ++ rest) := by
      unfold Parameter.encB
      rw [if_neg hodd, hveq]
      simp
    rw [hshape]
    unfold Parameter.decode
    rw [decode_varint_at pre (vbytes v ++ rest) p.type ht]
    simp only [except_ok_bind]
    rw [if_neg hodd]
    have h2 := decode_varint_at (pre ++ vbytes p.type) rest v hvr
    simp only [List.append_assoc, List.length_append] at h2
    rw [h2]
    simp only [except_ok_bind]
    rw [encode_varint_eq v hvr]
    simp only [except_ok_bind]
    unfold Parameter.encB
    rw [if_neg hodd, hveq]
    have hpeq : p = ⟨p.type, vbytes v⟩ := by
      cases p with
      | mk t val =>
        simp only at hveq
        simp [hveq]
    rw [← hpeq]
    simp

/-- Bytes of a list of encoded parameters (without the count prefix). -/
def paramsB (ps : List Parameter) : List Nat :=
  (ps.map Parameter.encB).flatten

/-- The `for _ in range(num_params)` decoding loop shared by every
parameter-bearing control message. -/
def decode_params_loop (data : List Nat) (offset : Nat) :
    Nat → Except PyError (List Parameter × Nat)
  | 0 => .ok ([], 0)
  | n + 1 => do
      let (param, consumed) ← Parameter.decode data offset
      let (ps, total) ← decode_params_loop data (offset + consumed) n
      .ok (param :: ps, consumed + total)

theorem decode_params_loop_at (ps : List Parameter) (pre rest : List Nat)
    (hps : ∀ p ∈ ps, p.valid) :
    decode_params_loop (pre ++ (paramsB ps ++ rest)) pre.length ps.length
      = .ok (ps, (paramsB ps).length) := by
  induction ps generalizing pre with
  | nil =>
    simp [decode_params_loop, paramsB]
  | cons p ps ih =>
    have hshape : paramsB (p :: ps) ++ rest = p.encB ++ (paramsB ps ++ rest) := by
      simp [paramsB, List.append_assoc]
    rw [show (p :: ps).length = ps.length + 1 from rfl, hshape]
    unfold decode_params_loop
    rw [Parameter_decode_at pre (paramsB ps ++ rest) p (hps p (by simp))]
    simp only [except_ok_bind]
    have h2 := ih (pre ++ p.encB) (fun q hq => hps q (by simp [hq]))
    simp only [List.append_assoc, List.length_append] at h2
    rw [h2]
    simp only [except_ok_bind]
    simp [paramsB, List.length_append]

/-- `TrackNamespace`: ordered list of opaque byte tuples. -/
structure TrackNamespace where
  tuple : List (List Nat)
  deriving Repr, DecidableEq

/-- Encoding loop over namespace elements (`for element in self.tuple`). -/
def ns_elems_encode (elems : List (List Nat)) : Except PyError (List Nat) :=
  match elems with
  | [] => .ok []
  | e :: es => do
      let lb ← encode_varint e.length
      let restb ← ns_elems_encode es
      .ok (lb ++ e ++ restb)

/-- `TrackNamespace.encode`. -/
def TrackNamespace.encode (ns : TrackNamespace) : Except PyError (List Nat) := do
  let cb ← encode_varint ns.tuple.length
  let eb ← ns_elems_encode ns.tuple
  .ok (cb ++ eb)

/-- Decoding loop over namespace elements. -/
def decode_ns_loop (data : List Nat) (offset : Nat) :
    Nat → Except PyError (List (List Nat) × Nat)
  | 0 => .ok ([], 0)
  | n + 1 => do
      let (elem_len, c1) ← decode_varint data offset
      let elem := pySlice data (offset + c1) (offset + c1 + elem_len)
      let (es, total) ← decode_ns_loop data (offset + c1 + elem_len) n
      .ok (elem :: es, c1 + elem_len + total)

/-- `TrackNamespace.decode`. -/
def TrackNamespace.decode (data : List Nat) (offset : Nat) :
    Except PyError (TrackNamespace × Nat) := do
  let (num_elements, c) ← decode_varint data offset
  let (elems, total) ← decode_ns_loop data (offset + c) num_elements
  .ok (⟨elems⟩, c + total)

/-- Canonical bytes of the namespace elements. -/
def nsElemsB (elems : List (List Nat)) : List Nat :=
  (elems.map (fun e => vbytes e.length ++ e)).flatten

/-- Canonical bytes of an encoded namespace. -/
def TrackNamespace.encB (ns : TrackNamespace) : List Nat :=
  vbytes ns.tuple.length ++ nsElemsB ns.tuple

def TrackNamespace.valid (ns : TrackNamespace) : Prop :=
  ns.tuple.length < 2 ^ 62 ∧ ∀ e ∈ ns.tuple, e.length < 2 ^ 62

theorem ns_elems_encode_eq (elems : List (List Nat))
    (h : ∀ e ∈ elems, e.length < 2 ^ 62) :
    ns_elems_encode elems = .ok (nsElemsB elems) := by
  induction elems with
  | nil => simp [ns_elems_encode, nsElemsB]
  | cons e es ih =>
    unfold ns_elems_encode
    rw [encode_varint_eq e.length (h e (by simp))]
    simp only [except_ok_bind]
    rw [ih (fun q hq => h q (by simp [hq]))]
    simp only [except_ok_bind]
    simp [nsElemsB, List.append_assoc]

theorem TrackNamespace_encode_eq (ns : TrackNamespace) (h : ns.valid) :
    ns.encode = .ok ns.encB := by
  obtain ⟨hc, he⟩ := h
  unfold TrackNamespace.encode TrackNamespace.encB
  rw [encode_varint_eq ns.tuple.length hc]
  simp only [except_ok_bind]
  rw [ns_elems_encode_eq ns.tuple he]
  simp only [except_ok_bind]

theorem decode_ns_loop_at (elems : List (List Nat)) (pre rest : List Nat)
    (h : ∀ e ∈ elems, e.length < 2 ^ 62) :
    decode_ns_loop (pre ++ (nsElemsB elems ++ rest)) pre.length elems.length
      = .ok (elems, (nsElemsB elems).length) := by
  induction elems generalizing pre with
  | nil => simp [decode_ns_loop, nsElemsB]
  | cons e es ih =>
    have hshape : nsElemsB (e :: es) ++ rest
        = vbytes e.length ++ (e ++ (nsElemsB es ++ rest)) := by
      simp [nsElemsB, List.append_assoc]
    rw [show (e :: es).length = es.length + 1 from rfl, hshape]
    unfold decode_ns_loop
    rw [decode_varint_at pre (e ++ (nsElemsB es ++ rest)) e.length
      (h e (by simp))]
    simp only [except_ok_bind]
    have hsl := pySlice_at (pre ++ vbytes e.length) e (nsElemsB es ++ rest)
    simp only [List.append_assoc, List.length_append] at hsl
    try simp only [← Nat.add_assoc] at hsl
    try simp only [← Nat.add_assoc]
    rw [hsl]
    have h2 := ih (pre ++ vbytes e.length ++ e) (fun q hq => h q (by simp [hq]))
    simp only [List.append_assoc, List.length_append] at h2
    simp only [← Nat.add_assoc] at h2
    rw [h2]
    simp only [except_ok_bind]
    simp [nsElemsB, List.length_append]
    omega

theorem TrackNamespace_decode_at (pre rest : List Nat) (ns : TrackNamespace)
    (h : ns.valid) :
    TrackNamespace.decode (pre ++ (ns.encB ++ rest)) pre.length
      = .ok (ns, ns.encB.length) := by
  obtain ⟨hc, he⟩ := h
  have hshape : ns.encB ++ rest
      = vbytes ns.tuple.length ++ (nsElemsB ns.tuple ++ rest) := by
    simp [TrackNamespace.encB, List.append_assoc]
  rw [hshape]
  unfold TrackNamespace.decode
  rw [decode_varint_at pre (nsElemsB ns.tuple ++ rest) ns.tuple.length hc]
  simp only [except_ok_bind]
  have h2 := decode_ns_loop_at ns.tuple (pre ++ vbytes ns.tuple.length) rest he
  simp only [List.append_assoc, List.length_append] at h2
  rw [h2]
  simp only [except_ok_bind]
  simp [TrackNamespace.encB, List.length_append]

/-- `Location` (group, object). -/
structure Location where
  group : Nat
  object : Nat
  deriving Repr, DecidableEq

/-- `Location.encode`. -/
def Location.encode (loc : Location) : Except PyError (List Nat) := do
  let gb ← encode_varint loc.group
  let ob ← encode_varint loc.object
  .ok (gb ++ ob)

/-- `Location.decode`. -/
def Location.decode (data : List Nat) (offset : Nat) :
    Except PyError (Location × Nat) := do
  let (group, consumed1) ← decode_varint data offset
  let (obj, consumed2) ← decode_varint data (offset + consumed1)
  .ok (⟨group, obj⟩, consumed1 + consumed2)

def Location.encB (loc : Location) : List Nat :=
  vbytes loc.group ++ vbytes loc.object

def Location.valid (loc : Location) : Prop :=
  loc.group < 2 ^ 62 ∧ loc.object < 2 ^ 62

theorem Location_encode_eq (loc : Location) (h : loc.valid) :
    loc.encode = .ok loc.encB := by
  obtain ⟨hg, ho⟩ := h
  unfold Location.encode Location.encB
  rw [encode_varint_eq loc.group hg]
  simp only [except_ok_bind]
  rw [encode_varint_eq loc.object ho]
  simp only [except_ok_bind]

theorem Location_decode_at (pre rest : List Nat) (loc : Location)
    (h : loc.valid) :
    Location.decode (pre ++ (loc.encB ++ rest)) pre.length
      = .ok (loc, loc.encB.length) := by
  obtain ⟨hg, ho⟩ := h
  have hshape : loc.encB ++ rest = vbytes loc.group ++ (vbytes loc.object ++ rest) := by
    simp [Location.encB, List.append_assoc]
  rw [hshape]
  unfold Location.decode
  rw [decode_varint_at pre (vbytes loc.object ++ rest) loc.group hg]
  simp only [except_ok_bind]
  have h2 := decode_varint_at (pre ++ vbytes loc.group) rest loc.object ho
  simp only [List.append_assoc, List.length_append] at h2
  rw [h2]
  simp only [except_ok_bind]
  simp [Location.encB, List.length_append]

/-- `for param in self.parameters: result += param.encode()` loop shared by
every parameter-bearing message. -/
def params_encode_loop (ps : List Parameter) : Except PyError (List Nat) :=
  match ps with
  | [] => .ok []
  | p :: rest => do
      let pb ← p.encode
      let restb ← params_encode_loop rest
      .ok (pb ++ restb)

/-- Parameter-count varint followed by the encoded parameters, as emitted by
every message's `encode_payload`. -/
def encode_params_section (ps : List Parameter) : Except PyError (List Nat) := do
  let cb ← encode_varint ps.length
  let pb ← params_encode_loop ps
  .ok (cb ++ pb)

/-- Length-prefixed byte string (track names, reason phrases, URIs). -/
def encode_lp_bytes (b : List Nat) : Except PyError (List Nat) := do
  let lb ← encode_varint b.length
  .ok (lb ++ b)

def paramsSectionB (ps : List Parameter) : List Nat :=
  vbytes ps.length ++ paramsB ps

def lpB (b : List Nat) : List Nat :=
  vbytes b.length ++ b

def paramsValid (ps : List Parameter) : Prop :=
  ps.length < 2 ^ 62 ∧ ∀ p ∈ ps, p.valid

theorem params_encode_loop_eq (ps : List Parameter) (h : ∀ p ∈ ps, p.valid) :
    params_encode_loop ps = .ok (paramsB ps) := by
  induction ps with
  | nil => simp [params_encode_loop, paramsB]
  | cons p rest ih =>
    unfold params_encode_loop
    rw [Parameter_encode_eq p (h p (by simp))]
    simp only [except_ok_bind]
    rw [ih (fun q hq => h q (by simp [hq]))]
    simp only [except_ok_bind]
    simp [paramsB]

theorem encode_params_section_eq (ps : List Parameter) (h : paramsValid ps) :
    encode_params_section ps = .ok (paramsSectionB ps) := by
  obtain ⟨hc, hp⟩ := h
  unfold encode_params_section paramsSectionB
  rw [encode_varint_eq ps.length hc]
  simp only [except_ok_bind]
  rw [params_encode_loop_eq ps hp]
  simp only [except_ok_bind]

theorem encode_lp_bytes_eq (b : List Nat) (h : b.length < 2 ^ 62) :
    encode_lp_bytes b = .ok (lpB b) := by
  unfold encode_lp_bytes lpB
  rw [encode_varint_eq b.length h]
  simp only [except_ok_bind]

/-- Varint count followed by the parameter loop, as read by every message's
`decode_payload`. -/
def decode_params_section (data : List Nat) (offset : Nat) :
    Except PyError (List Parameter × Nat) := do
  let (num_params, c) ← decode_varint data offset
  let (ps, total) ← decode_params_loop data (offset + c) num_params
  .ok (ps, c + total)

/-- Varint length followed by that many raw bytes. -/
def decode_lp_bytes (data : List Nat) (offset : Nat) :
    Except PyError (List Nat × Nat) := do
  let (blen, c) ← decode_varint data offset
  .ok (pySlice data (offset + c) (offset + c + blen), c + blen)

theorem decode_params_section_at (pre rest : List Nat) (ps : List Parameter)
    (h : paramsValid ps) :
    decode_params_section (pre ++ (paramsSectionB ps ++ rest)) pre.length
      = .ok (ps, (paramsSectionB ps).length) := by
  obtain ⟨hc, hp⟩ := h
  have hshape : paramsSectionB ps ++ rest
      = vbytes ps.length ++ (paramsB ps ++ rest) := by
    simp [paramsSectionB, List.append_assoc]
  rw [hshape]
  unfold decode_params_section
  rw [decode_varint_at pre (paramsB ps ++ rest) ps.length hc]
  simp only [except_ok_bind]
  have h2 := decode_params_loop_at ps (pre ++ vbytes ps.length) rest hp
  simp only [List.append_assoc, List.length_append] at h2
  rw [h2]
  simp only [except_ok_bind]
  simp [paramsSectionB, List.length_append]

theorem decode_lp_bytes_at (pre rest b : List Nat) (h : b.length < 2 ^ 62) :
    decode_lp_bytes (pre ++ (lpB b ++ rest)) pre.length
      = .ok (b, (lpB b).length) := by
  have hshape : lpB b ++ rest = vbytes b.length ++ (b ++ rest) := by
    simp [lpB, List.append_assoc]
  rw [hshape]
  unfold decode_lp_bytes
  rw [decode_varint_at pre (b ++ rest) b.length h]
  simp only [except_ok_bind]
  have hsl := pySlice_at (pre ++ vbytes b.length) b rest
  simp only [List.append_assoc, List.length_append] at hsl
  try simp only [← Nat.add_assoc] at hsl
  try simp only [← Nat.add_assoc]
  rw [hsl]
  simp [lpB, List.length_append]

/-- The 23 control-message kinds handled by the dispatcher
(`MESSAGE_CLASSES` in message.py), one constructor per dataclass. -/
inductive ControlMessage where
  | clientSetup (parameters : List Parameter)
  | serverSetup (parameters : List Parameter)
  | goaway (new_session_uri : List Nat)
  | maxRequestId (request_id : Nat)
  | requestsBlocked (maximum_request_id : Nat)
  | requestOk (request_id : Nat) (parameters : List Parameter)
  | requestError (request_id : Nat) (error_code : Nat) (reason_phrase : List Nat)
  | subscribe (request_id : Nat) (track_alias : Nat)
      (track_namespace : TrackNamespace) (track_name : List Nat)
      (parameters : List Parameter)
  | subscribeOk (request_id : Nat) (parameters : List Parameter)
  | subscribeUpdate (request_id : Nat) (parameters : List Parameter)
  | unsubscribe (request_id : Nat)
  | publish (request_id : Nat) (track_alias : Nat)
      (track_namespace : TrackNamespace) (track_name : List Nat)
      (parameters : List Parameter)
  | publishOk (request_id : Nat) (parameters : List Parameter)
  | publishDone (request_id : Nat) (status_code : Nat)
      (reason_phrase : List Nat)
  | fetch (request_id : Nat) (track_namespace : TrackNamespace)
      (track_name : List Nat) (start : Location) (endLoc : Location)
      (parameters : List Parameter)
  | fetchOk (request_id : Nat) (parameters : List Parameter)
  | fetchCancel (request_id : Nat)
  | trackStatus (request_id : Nat) (track_namespace : TrackNamespace)
      (track_name : List Nat) (parameters : List Parameter)
  | publishNamespace (request_id : Nat) (track_namespace : TrackNamespace)
      (parameters : List Parameter)
  | publishNamespaceDone (request_id : Nat) (status_code : Nat)
      (reason_phrase : List Nat)
  | publishNamespaceCancel (request_id : Nat)
  | subscribeNamespace (request_id : Nat)
      (track_namespace_pfx : TrackNamespace) (parameters : List Parameter)
  | unsubscribeNamespace (request_id : Nat)
  deriving Repr, DecidableEq

/-- The `MESSAGE_TYPE` class variable of each message class. -/
def ControlMessage.messageType : ControlMessage → Nat
  | .clientSetup _ => 0x20
  | .serverSetup _ => 0x21
  | .goaway _ => 0x10
  | .maxRequestId _ => 0x15
  | .requestsBlocked _ => 0x1A
  | .requestOk _ _ => 0x07
  | .requestError _ _ _ => 0x05
  | .subscribe _ _ _ _ _ => 0x03
  | .subscribeOk _ _ => 0x04
  | .subscribeUpdate _ _ => 0x02
  | .unsubscribe _ => 0x0A
  | .publish _ _ _ _ _ => 0x1D
  | .publishOk _ _ => 0x1E
  | .publishDone _ _ _ => 0x0B
  | .fetch _ _ _ _ _ _ => 0x16
  | .fetchOk _ _ => 0x18
  | .fetchCancel _ => 0x17
  | .trackStatus _ _ _ _ => 0x0D
  | .publishNamespace _ _ _ => 0x06
  | .publishNamespaceDone _ _ _ => 0x09
  | .publishNamespaceCancel _ => 0x0C
  | .subscribeNamespace _ _ _ => 0x11
  | .unsubscribeNamespace _ => 0x14

/-- `encode_payload` of each message class. -/
def ControlMessage.encode_payload : ControlMessage → Except PyError (List Nat)
  | .clientSetup ps => encode_params_section ps
  | .serverSetup ps => encode_params_section ps
  | .goaway uri => encode_lp_bytes uri
  | .maxRequestId rid => encode_varint rid
  | .requestsBlocked mid => encode_varint mid
  | .requestOk rid ps => do
      let rb ← encode_varint rid
      let psb ← encode_params_section ps
      .ok (rb ++ psb)
  | .requestError rid ec reason => do
      let rb ← encode_varint rid
      let eb ← encode_varint ec
      let sb ← encode_lp_bytes reason
      .ok (rb ++ eb ++ sb)
  | .subscribe rid ta ns name ps => do
      let rb ← encode_varint rid
      let ab ← encode_varint ta
      let nsb ← ns.encode
      let nb ← encode_lp_bytes name
      let psb ← encode_params_section ps
      .ok (rb ++ ab ++ nsb ++ nb ++ psb)
  | .subscribeOk rid ps => do
      let rb ← encode_varint rid
      let psb ← encode_params_section ps
      .ok (rb ++ psb)
  | .subscribeUpdate rid ps => do
      let rb ← encode_varint rid
      let psb ← encode_params_section ps
      .ok (rb ++ psb)
  | .unsubscribe rid => encode_varint rid
  | .publish rid ta ns name ps => do
      let rb ← encode_varint rid
      let ab ← encode_varint ta
      let nsb ← ns.encode
      let nb ← encode_lp_bytes name
      let psb ← encode_params_section ps
      .ok (rb ++ ab ++ nsb ++ nb ++ psb)
  | .publishOk rid ps => do
      let rb ← encode_varint rid
      let psb ← encode_params_section ps
      .ok (rb ++ psb)
  | .publishDone rid sc reason => do
      let rb ← encode_varint rid
      let sb ← encode_varint sc
      let reasonb ← encode_lp_bytes reason
      .ok (rb ++ sb ++ reasonb)
  | .fetch rid ns name s e ps => do
      let rb ← encode_varint rid
      let nsb ← ns.encode
      let nb ← encode_lp_bytes name
      let startb ← s.encode
      let endb ← e.encode
      let psb ← encode_params_section ps
      .ok (rb ++ nsb ++ nb ++ startb ++ endb ++ psb)
  | .fetchOk rid ps => do
      let rb ← encode_varint rid
      let psb ← encode_params_section ps
      .ok (rb ++ psb)
  | .fetchCancel rid => encode_varint rid
  | .trackStatus rid ns name ps => do
      let rb ← encode_varint rid
      let nsb ← ns.encode
      let nb ← encode_lp_bytes name
      let psb ← encode_params_section ps
      .ok (rb ++ nsb ++ nb ++ psb)
  | .publishNamespace rid ns ps => do
      let rb ← encode_varint rid
      let nsb ← ns.encode
      let psb ← encode_params_section ps
      .ok (rb ++ nsb ++ psb)
  | .publishNamespaceDone rid sc reason => do
      let rb ← encode_varint rid
      let sb ← encode_varint sc
      let reasonb ← encode_lp_bytes reason
      .ok (rb ++ sb ++ reasonb)
  | .publishNamespaceCancel rid => encode_varint rid
  | .subscribeNamespace rid nsp ps => do
      let rb ← encode_varint rid
      let nsb ← nsp.encode
      let psb ← encode_params_section ps
      .ok (rb ++ nsb ++ psb)
  | .unsubscribeNamespace rid => encode_varint rid

/-- Canonical payload bytes of each message kind. -/
def ControlMessage.payloadB : ControlMessage → List Nat
  | .clientSetup ps => paramsSectionB ps
  | .serverSetup ps => paramsSectionB ps
  | .goaway uri => lpB uri
  | .maxRequestId rid => vbytes rid
  | .requestsBlocked mid => vbytes mid
  | .requestOk rid ps => vbytes rid ++ paramsSectionB ps
  | .requestError rid ec reason => vbytes rid ++ (vbytes ec ++ lpB reason)
  | .subscribe rid ta ns name ps =>
      vbytes rid ++ (vbytes ta ++ (ns.encB ++ (lpB name ++ paramsSectionB ps)))
  | .subscribeOk rid ps => vbytes rid ++ paramsSectionB ps
  | .subscribeUpdate rid ps => vbytes rid ++ paramsSectionB ps
  | .unsubscribe rid => vbytes rid
  | .publish rid ta ns name ps =>
      vbytes rid ++ (vbytes ta ++ (ns.encB ++ (lpB name ++ paramsSectionB ps)))
  | .publishOk rid ps => vbytes rid ++ paramsSectionB ps
  | .publishDone rid sc reason => vbytes rid ++ (vbytes sc ++ lpB reason)
  | .fetch rid ns name s e ps =>
      vbytes rid ++ (ns.encB ++ (lpB name ++ (s.encB ++ (e.encB ++ paramsSectionB ps))))
  | .fetchOk rid ps => vbytes rid ++ paramsSectionB ps
  | .fetchCancel rid => vbytes rid
  | .trackStatus rid ns name ps =>
      vbytes rid ++ (ns.encB ++ (lpB name ++ paramsSectionB ps))
  | .publishNamespace rid ns ps => vbytes rid ++ (ns.encB ++ paramsSectionB ps)
  | .publishNamespaceDone rid sc reason => vbytes rid ++ (vbytes sc ++ lpB reason)
  | .publishNamespaceCancel rid => vbytes rid
  | .subscribeNamespace rid nsp ps => vbytes rid ++ (nsp.encB ++ paramsSectionB ps)
  | .unsubscribeNamespace rid => vbytes rid

/-- Valid field values: every varint-encoded field is in range, nested
records are valid, and the payload fits the 16-bit frame length. -/
def ControlMessage.fieldsValid : ControlMessage → Prop
  | .clientSetup ps => paramsValid ps
  | .serverSetup ps => paramsValid ps
  | .goaway uri => uri.length < 2 ^ 62
  | .maxRequestId rid => rid < 2 ^ 62
  | .requestsBlocked mid => mid < 2 ^ 62
  | .requestOk rid ps => rid < 2 ^ 62 ∧ paramsValid ps
  | .requestError rid ec reason =>
      rid < 2 ^ 62 ∧ ec < 2 ^ 62 ∧ reason.length < 2 ^ 62
  | .subscribe rid ta ns name ps =>
      rid < 2 ^ 62 ∧ ta < 2 ^ 62 ∧ ns.valid ∧ name.length < 2 ^ 62 ∧
        paramsValid ps
  | .subscribeOk rid ps => rid < 2 ^ 62 ∧ paramsValid ps
  | .subscribeUpdate rid ps => rid < 2 ^ 62 ∧ paramsValid ps
  | .unsubscribe rid => rid < 2 ^ 62
  | .publish rid ta ns name ps =>
      rid < 2 ^ 62 ∧ ta < 2 ^ 62 ∧ ns.valid ∧ name.length < 2 ^ 62 ∧
        paramsValid ps
  | .publishOk rid ps => rid < 2 ^ 62 ∧ paramsValid ps
  | .publishDone rid sc reason =>
      rid < 2 ^ 62 ∧ sc < 2 ^ 62 ∧ reason.length < 2 ^ 62
  | .fetch rid ns name s e ps =>
      rid < 2 ^ 62 ∧ ns.valid ∧ name.length < 2 ^ 62 ∧ s.valid ∧ e.valid ∧
        paramsValid ps
  | .fetchOk rid ps => rid < 2 ^ 62 ∧ paramsValid ps
  | .fetchCancel rid => rid < 2 ^ 62
  | .trackStatus rid ns name ps =>
      rid < 2 ^ 62 ∧ ns.valid ∧ name.length < 2 ^ 62 ∧ paramsValid ps
  | .publishNamespace rid ns ps => rid < 2 ^ 62 ∧ ns.valid ∧ paramsValid ps
  | .publishNamespaceDone rid sc reason =>
      rid < 2 ^ 62 ∧ sc < 2 ^ 62 ∧ reason.length < 2 ^ 62
  | .publishNamespaceCancel rid => rid < 2 ^ 62
  | .subscribeNamespace rid nsp ps => rid < 2 ^ 62 ∧ nsp.valid ∧ paramsValid ps
  | .unsubscribeNamespace rid => rid < 2 ^ 62

def ControlMessage.valid (m : ControlMessage) : Prop :=
  m.fieldsValid ∧ m.payloadB.length < 65536

theorem encode_payload_eq (m : ControlMessage) (h : m.fieldsValid) :
    m.encode_payload = .ok m.payloadB := by
  cases m with
  | clientSetup ps => exact encode_params_section_eq ps h
  | serverSetup ps => exact encode_params_section_eq ps h
  | goaway uri => exact encode_lp_bytes_eq uri h
  | maxRequestId rid => exact encode_varint_eq rid h
  | requestsBlocked mid => exact encode_varint_eq mid h
  | requestOk rid ps =>
    obtain ⟨h1, h2⟩ := h
    simp only [ControlMessage.encode_payload, ControlMessage.payloadB]
    rw [encode_varint_eq rid h1]
    simp only [except_ok_bind]
    rw [encode_params_section_eq ps h2]
    simp only [except_ok_bind]
  | requestError rid ec reason =>
    obtain ⟨h1, h2, h3⟩ := h
    simp only [ControlMessage.encode_payload, ControlMessage.payloadB]
    rw [encode_varint_eq rid h1]
    simp only [except_ok_bind]
    rw [encode_varint_eq ec h2]
    simp only [except_ok_bind]
    rw [encode_lp_bytes_eq reason h3]
    simp only [except_ok_bind]
    simp [List.append_assoc]
  | subscribe rid ta ns name ps =>
    obtain ⟨h1, h2, h3, h4, h5⟩ := h
    simp only [ControlMessage.encode_payload, ControlMessage.payloadB]
    rw [encode_varint_eq rid h1]
    simp only [except_ok_bind]
    rw [encode_varint_eq ta h2]
    simp only [except_ok_bind]
    rw [TrackNamespace_encode_eq ns h3]
    simp only [except_ok_bind]
    rw [encode_lp_bytes_eq name h4]
    simp only [except_ok_bind]
    rw [encode_params_section_eq ps h5]
    simp only [except_ok_bind]
    simp [List.append_assoc]
  | subscribeOk rid ps =>
    obtain ⟨h1, h2⟩ := h
    simp only [ControlMessage.encode_payload, ControlMessage.payloadB]
    rw [encode_varint_eq rid h1]
    simp only [except_ok_bind]
    rw [encode_params_section_eq ps h2]
    simp only [except_ok_bind]
  | subscribeUpdate rid ps =>
    obtain ⟨h1, h2⟩ := h
    simp only [ControlMessage.encode_payload, ControlMessage.payloadB]
    rw [encode_varint_eq rid h1]
    simp only [except_ok_bind]
    rw [encode_params_section_eq ps h2]
    simp only [except_ok_bind]
  | unsubscribe rid => exact encode_varint_eq rid h
  | publish rid ta ns name ps =>
    obtain ⟨h1, h2, h3, h4, h5⟩ := h
    simp only [ControlMessage.encode_payload, ControlMessage.payloadB]
    rw [encode_varint_eq rid h1]
    simp only [except_ok_bind]
    rw [encode_varint_eq ta h2]
    simp only [except_ok_bind]
    rw [TrackNamespace_encode_eq ns h3]
    simp only [except_ok_bind]
    rw [encode_lp_bytes_eq name h4]
    simp only [except_ok_bind]
    rw [encode_params_section_eq ps h5]
    simp only [except_ok_bind]
    simp [List.append_assoc]
  | publishOk rid ps =>
    obtain ⟨h1, h2⟩ := h
    simp only [ControlMessage.encode_payload, ControlMessage.payloadB]
    rw [encode_varint_eq rid h1]
    simp only [except_ok_bind]
    rw [encode_params_section_eq ps h2]
    simp only [except_ok_bind]
  | publishDone rid sc reason =>
    obtain ⟨h1, h2, h3⟩ := h
    simp only [ControlMessage.encode_payload, ControlMessage.payloadB]
    rw [encode_varint_eq rid h1]
    simp only [except_ok_bind]
    rw [encode_varint_eq sc h2]
    simp only [except_ok_bind]
    rw [encode_lp_bytes_eq reason h3]
    simp only [except_ok_bind]
    simp [List.append_assoc]
  | fetch rid ns name s e ps =>
    obtain ⟨h1, h2, h3, h4, h5, h6⟩ := h
    simp only [ControlMessage.encode_payload, ControlMessage.payloadB]
    rw [encode_varint_eq rid h1]
    simp only [except_ok_bind]
    rw [TrackNamespace_encode_eq ns h2]
    simp only [except_ok_bind]
    rw [encode_lp_bytes_eq name h3]
    simp only [except_ok_bind]
    rw [Location_encode_eq s h4]
    simp only [except_ok_bind]
    rw [Location_encode_eq e h5]
    simp only [except_ok_bind]
    rw [encode_params_section_eq ps h6]
    simp only [except_ok_bind]
    simp [List.append_assoc]
  | fetchOk rid ps =>
    obtain ⟨h1, h2⟩ := h
    simp only [ControlMessage.encode_payload, ControlMessage.payloadB]
    rw [encode_varint_eq rid h1]
    simp only [except_ok_bind]
    rw [encode_params_section_eq ps h2]
    simp only [except_ok_bind]
  | fetchCancel rid => exact encode_varint_eq rid h
  | trackStatus rid ns name ps =>
    obtain ⟨h1, h2, h3, h4⟩ := h
    simp only [ControlMessage.encode_payload, ControlMessage.payloadB]
    rw [encode_varint_eq rid h1]
    simp only [except_ok_bind]
    rw [TrackNamespace_encode_eq ns h2]
    simp only [except_ok_bind]
    rw [encode_lp_bytes_eq name h3]
    simp only [except_ok_bind]
    rw [encode_params_section_eq ps h4]
    simp only [except_ok_bind]
    simp [List.append_assoc]
  | publishNamespace rid ns ps =>
    obtain ⟨h1, h2, h3⟩ := h
    simp only [ControlMessage.encode_payload, ControlMessage.payloadB]
    rw [encode_varint_eq rid h1]
    simp only [except_ok_bind]
    rw [TrackNamespace_encode_eq ns h2]
    simp only [except_ok_bind]
    rw [encode_params_section_eq ps h3]
    simp only [except_ok_bind]
    simp [List.append_assoc]
  | publishNamespaceDone rid sc reason =>
    obtain ⟨h1, h2, h3⟩ := h
    simp only [ControlMessage.encode_payload, ControlMessage.payloadB]
    rw [encode_varint_eq rid h1]
    simp only [except_ok_bind]
    rw [encode_varint_eq sc h2]
    simp only [except_ok_bind]
    rw [encode_lp_bytes_eq reason h3]
    simp only [except_ok_bind]
    simp [List.append_assoc]
  | publishNamespaceCancel rid => exact encode_varint_eq rid h
  | subscribeNamespace rid nsp ps =>
    obtain ⟨h1, h2, h3⟩ := h
    simp only [ControlMessage.encode_payload, ControlMessage.payloadB]
    rw [encode_varint_eq rid h1]
    simp only [except_ok_bind]
    rw [TrackNamespace_encode_eq nsp h2]
    simp only [except_ok_bind]
    rw [encode_params_section_eq ps h3]
    simp only [except_ok_bind]
    simp [List.append_assoc]
  | unsubscribeNamespace rid => exact encode_varint_eq rid h

/-- The decode dispatcher of `decode_control_message`: `MessageType(value)`
selects the message class (raising `ValueError` for an unknown code) and
`decode_payload` of that class parses the payload.  Each branch inlines the
corresponding class's `decode_payload`. -/
def decode_payload_for (msg_type : Nat) (data : List Nat) (offset : Nat) :
    Except PyError ControlMessage :=
  if msg_type = 0x20 then do
    let (ps, _) ← decode_params_section data offset
    .ok (.clientSetup ps)
  else if msg_type = 0x21 then do
    let (ps, _) ← decode_params_section data offset
    .ok (.serverSetup ps)
  else if msg_type = 0x10 then do
    let (uri, _) ← decode_lp_bytes data offset
    .ok (.goaway uri)
  else if msg_type = 0x15 then do
    let (rid, _) ← decode_varint data offset
    .ok (.maxRequestId rid)
  else if msg_type = 0x1A then do
    let (mid, _) ← decode_varint data offset
    .ok (.requestsBlocked mid)
  else if msg_type = 0x07 then do
    let (rid, c1) ← decode_varint data offset
    let (ps, _) ← decode_params_section data (offset + c1)
    .ok (.requestOk rid ps)
  else if msg_type = 0x05 then do
    let (rid, c1) ← decode_varint data offset
    let (ec, c2) ← decode_varint data (offset + c1)
    let (reason, _) ← decode_lp_bytes data (offset + c1 + c2)
    .ok (.requestError rid ec reason)
  else if msg_type = 0x03 then do
    let (rid, c1) ← decode_varint data offset
    let (ta, c2) ← decode_varint data (offset + c1)
    let (ns, c3) ← TrackNamespace.decode data (offset + c1 + c2)
    let (name, c4) ← decode_lp_bytes data (offset + c1 + c2 + c3)
    let (ps, _) ← decode_params_section data (offset + c1 + c2 + c3 + c4)
    .ok (.subscribe rid ta ns name ps)
  else if msg_type = 0x04 then do
    let (rid, c1) ← decode_varint data offset
    let (ps, _) ← decode_params_section data (offset + c1)
    .ok (.subscribeOk rid ps)
  else if msg_type = 0x02 then do
    let (rid, c1) ← decode_varint data offset
    let (ps, _) ← decode_params_section data (offset + c1)
    .ok (.subscribeUpdate rid ps)
  else if msg_type = 0x0A then do
    let (rid, _) ← decode_varint data offset
    .ok (.unsubscribe rid)
  else if msg_type = 0x1D then do
    let (rid, c1) ← decode_varint data offset
    let (ta, c2) ← decode_varint data (offset + c1)
    let (ns, c3) ← TrackNamespace.decode data (offset + c1 + c2)
    let (name, c4) ← decode_lp_bytes data (offset + c1 + c2 + c3)
    let (ps, _) ← decode_params_section data (offset + c1 + c2 + c3 + c4)
    .ok (.publish rid ta ns name ps)
  else if msg_type = 0x1E then do
    let (rid, c1) ← decode_varint data offset
    let (ps, _) ← decode_params_section data (offset + c1)
    .ok (.publishOk rid ps)
  else if msg_type = 0x0B then do
    let (rid, c1) ← decode_varint data offset
    let (sc, c2) ← decode_varint data (offset + c1)
    let (reason, _) ← decode_lp_bytes data (offset + c1 + c2)
    .ok (.publishDone rid sc reason)
  else if msg_type = 0x16 then do
    let (rid, c1) ← decode_varint data offset
    let (ns, c2) ← TrackNamespace.decode data (offset + c1)
    let (name, c3) ← decode_lp_bytes data (offset + c1 + c2)
    let (s, c4) ← Location.decode data (offset + c1 + c2 + c3)
    let (e, c5) ← Location.decode data (offset + c1 + c2 + c3 + c4)
    let (ps, _) ← decode_params_section data (offset + c1 + c2 + c3 + c4 + c5)
    .ok (.fetch rid ns name s e ps)
  else if msg_type = 0x18 then do
    let (rid, c1) ← decode_varint data offset
    let (ps, _) ← decode_params_section data (offset + c1)
    .ok (.fetchOk rid ps)
  else if msg_type = 0x17 then do
    let (rid, _) ← decode_varint data offset
    .ok (.fetchCancel rid)
  else if msg_type = 0x0D then do
    let (rid, c1) ← decode_varint data offset
    let (ns, c2) ← TrackNamespace.decode data (offset + c1)
    let (name, c3) ← decode_lp_bytes data (offset + c1 + c2)
    let (ps, _) ← decode_params_section data (offset + c1 + c2 + c3)
    .ok (.trackStatus rid ns name ps)
  else if msg_type = 0x06 then do
    let (rid, c1) ← decode_varint data offset
    let (ns, c2) ← TrackNamespace.decode data (offset + c1)
    let (ps, _) ← decode_params_section data (offset + c1 + c2)
    .ok (.publishNamespace rid ns ps)
  else if msg_type = 0x09 then do
    let (rid, c1) ← decode_varint data offset
    let (sc, c2) ← decode_varint data (offset + c1)
    let (reason, _) ← decode_lp_bytes data (offset + c1 + c2)
    .ok (.publishNamespaceDone rid sc reason)
  else if msg_type = 0x0C then do
    let (rid, _) ← decode_varint data offset
    .ok (.publishNamespaceCancel rid)
  else if msg_type = 0x11 then do
    let (rid, c1) ← decode_varint data offset
    let (nsp, c2) ← TrackNamespace.decode data (offset + c1)
    let (ps, _) ← decode_params_section data (offset + c1 + c2)
    .ok (.subscribeNamespace rid nsp ps)
  else if msg_type = 0x14 then do
    let (rid, _) ← decode_varint data offset
    .ok (.unsubscribeNamespace rid)
  else
    .error (.valueError ("unknown message type: " ++ toString msg_type))

theorem decode_payload_for_at (m : ControlMessage) (pre rest : List Nat)
    (h : m.fieldsValid) :
    decode_payload_for m.messageType (pre ++ (m.payloadB ++ rest)) pre.length
      = .ok m := by
  cases m with
  | clientSetup ps =>
    simp only [ControlMessage.messageType, ControlMessage.payloadB,
      List.append_assoc]
    unfold decode_payload_for
    simp only [Nat.reduceEqDiff, reduceIte]
    rw [decode_params_section_at pre rest ps h]
    simp only [except_ok_bind]
  | serverSetup ps =>
    simp only [ControlMessage.messageType, ControlMessage.payloadB,
      List.append_assoc]
    unfold decode_payload_for
    simp only [Nat.reduceEqDiff, reduceIte]
    rw [decode_params_section_at pre rest ps h]
    simp only [except_ok_bind]
  | goaway uri =>
    simp only [ControlMessage.messageType, ControlMessage.payloadB,
      List.append_assoc]
    unfold decode_payload_for
    simp only [Nat.reduceEqDiff, reduceIte]
    rw [decode_lp_bytes_at pre rest uri h]
    simp only [except_ok_bind]
  | maxRequestId rid =>
    simp only [ControlMessage.messageType, ControlMessage.payloadB,
      List.append_assoc]
    unfold decode_payload_for
    simp only [Nat.reduceEqDiff, reduceIte]
    rw [decode_varint_at pre rest rid h]
    simp only [except_ok_bind]
  | requestsBlocked mid =>
    simp only [ControlMessage.messageType, ControlMessage.payloadB,
      List.append_assoc]
    unfold decode_payload_for
    simp only [Nat.reduceEqDiff, reduceIte]
    rw [decode_varint_at pre rest mid h]
    simp only [except_ok_bind]
  | requestOk rid ps =>
    obtain ⟨h1, h2⟩ := h
    simp only [ControlMessage.messageType, ControlMessage.payloadB,
      List.append_assoc]
    unfold decode_payload_for
    simp only [Nat.reduceEqDiff, reduceIte]
    rw [decode_varint_at pre (paramsSectionB ps ++ rest) rid h1]
    simp only [except_ok_bind]
    have e2 := decode_params_section_at (pre ++ vbytes rid) rest ps h2
    simp only [List.append_assoc, List.length_append] at e2
    try simp only [← Nat.add_assoc] at e2
    try simp only [← Nat.add_assoc]
    rw [e2]
    simp only [except_ok_bind]
  | requestError rid ec reason =>
    obtain ⟨h1, h2, h3⟩ := h
    simp only [ControlMessage.messageType, ControlMessage.payloadB,
      List.append_assoc]
    unfold decode_payload_for
    simp only [Nat.reduceEqDiff, reduceIte]
    rw [decode_varint_at pre (vbytes ec ++ (lpB reason ++ rest)) rid h1]
    simp only [except_ok_bind]
    have e2 := decode_varint_at (pre ++ vbytes rid) (lpB reason ++ rest) ec h2
    simp only [List.append_assoc, List.length_append] at e2
    try simp only [← Nat.add_assoc] at e2
    try simp only [← Nat.add_assoc]
    rw [e2]
    simp only [except_ok_bind]
    have e3 := decode_lp_bytes_at (pre ++ vbytes rid ++ vbytes ec) rest reason h3
    simp only [List.append_assoc, List.length_append] at e3
    try simp only [← Nat.add_assoc] at e3
    try simp only [← Nat.add_assoc]
    rw [e3]
    simp only [except_ok_bind]
  | subscribe rid ta ns name ps =>
    obtain ⟨h1, h2, h3, h4, h5⟩ := h
    simp only [ControlMessage.messageType, ControlMessage.payloadB,
      List.append_assoc]
    unfold decode_payload_for
    simp only [Nat.reduceEqDiff, reduceIte]
    rw [decode_varint_at pre
      (vbytes ta ++ (TrackNamespace.encB ns ++ (lpB name ++ (paramsSectionB ps ++ rest))))
      rid h1]
    simp only [except_ok_bind]
    have e2 := decode_varint_at (pre ++ vbytes rid)
      (TrackNamespace.encB ns ++ (lpB name ++ (paramsSectionB ps ++ rest))) ta h2
    simp only [List.append_assoc, List.length_append] at e2
    try simp only [← Nat.add_assoc] at e2
    try simp only [← Nat.add_assoc]
    rw [e2]
    simp only [except_ok_bind]
    have e3 := TrackNamespace_decode_at (pre ++ vbytes rid ++ vbytes ta)
      (lpB name ++ (paramsSectionB ps ++ rest)) ns h3
    simp only [List.append_assoc, List.length_append] at e3
    try simp only [← Nat.add_assoc] at e3
    try simp only [← Nat.add_assoc]
    rw [e3]
    simp only [except_ok_bind]
    have e4 := decode_lp_bytes_at (pre ++ vbytes rid ++ vbytes ta ++ ns.encB)
      (paramsSectionB ps ++ rest) name h4
    simp only [List.append_assoc, List.length_append] at e4
    try simp only [← Nat.add_assoc] at e4
    try simp only [← Nat.add_assoc]
    rw [e4]
    simp only [except_ok_bind]
    have e5 := decode_params_section_at
      (pre ++ vbytes rid ++ vbytes ta ++ ns.encB ++ lpB name) rest ps h5
    simp only [List.append_assoc, List.length_append] at e5
    try simp only [← Nat.add_assoc] at e5
    try simp only [← Nat.add_assoc]
    rw [e5]
    simp only [except_ok_bind]
  | subscribeOk rid ps =>
    obtain ⟨h1, h2⟩ := h
    simp only [ControlMessage.messageType, ControlMessage.payloadB,
      List.append_assoc]
    unfold decode_payload_for
    simp only [Nat.reduceEqDiff, reduceIte]
    rw [decode_varint_at pre (paramsSectionB ps ++ rest) rid h1]
    simp only [except_ok_bind]
    have e2 := decode_params_section_at (pre ++ vbytes rid) rest ps h2
    simp only [List.append_assoc, List.length_append] at e2
    try simp only [← Nat.add_assoc] at e2
    try simp only [← Nat.add_assoc]
    rw [e2]
    simp only [except_ok_bind]
  | subscribeUpdate rid ps =>
    obtain ⟨h1, h2⟩ := h
    simp only [ControlMessage.messageType, ControlMessage.payloadB,
      List.append_assoc]
    unfold decode_payload_for
    simp only [Nat.reduceEqDiff, reduceIte]
    rw [decode_varint_at pre (paramsSectionB ps ++ rest) rid h1]
    simp only [except_ok_bind]
    have e2 := decode_params_section_at (pre ++ vbytes rid) rest ps h2
    simp only [List.append_assoc, List.length_append] at e2
    try simp only [← Nat.add_assoc] at e2
    try simp only [← Nat.add_assoc]
    rw [e2]
    simp only [except_ok_bind]
  | unsubscribe rid =>
    simp only [ControlMessage.messageType, ControlMessage.payloadB,
      List.append_assoc]
    unfold decode_payload_for
    simp only [Nat.reduceEqDiff, reduceIte]
    rw [decode_varint_at pre rest rid h]
    simp only [except_ok_bind]
  | publish rid ta ns name ps =>
    obtain ⟨h1, h2, h3, h4, h5⟩ := h
    simp only [ControlMessage.messageType, ControlMessage.payloadB,
      List.append_assoc]
    unfold decode_payload_for
    simp only [Nat.reduceEqDiff, reduceIte]
    rw [decode_varint_at pre
      (vbytes ta ++ (TrackNamespace.encB ns ++ (lpB name ++ (paramsSectionB ps ++ rest))))
      rid h1]
    simp only [except_ok_bind]
    have e2 := decode_varint_at (pre ++ vbytes rid)
      (TrackNamespace.encB ns ++ (lpB name ++ (paramsSectionB ps ++ rest))) ta h2
    simp only [List.append_assoc, List.length_append] at e2
    try simp only [← Nat.add_assoc] at e2
    try simp only [← Nat.add_assoc]
    rw [e2]
    simp only [except_ok_bind]
    have e3 := TrackNamespace_decode_at (pre ++ vbytes rid ++ vbytes ta)
      (lpB name ++ (paramsSectionB ps ++ rest)) ns h3
    simp only [List.append_assoc, List.length_append] at e3
    try simp only [← Nat.add_assoc] at e3
    try simp only [← Nat.add_assoc]
    rw [e3]
    simp only [except_ok_bind]
    have e4 := decode_lp_bytes_at (pre ++ vbytes rid ++ vbytes ta ++ ns.encB)
      (paramsSectionB ps ++ rest) name h4
    simp only [List.append_assoc, List.length_append] at e4
    try simp only [← Nat.add_assoc] at e4
    try simp only [← Nat.add_assoc]
    rw [e4]
    simp only [except_ok_bind]
    have e5 := decode_params_section_at
      (pre ++ vbytes rid ++ vbytes ta ++ ns.encB ++ lpB name) rest ps h5
    simp only [List.append_assoc, List.length_append] at e5
    try simp only [← Nat.add_assoc] at e5
    try simp only [← Nat.add_assoc]
    rw [e5]
    simp only [except_ok_bind]
  | publishOk rid ps =>
    obtain ⟨h1, h2⟩ := h
    simp only [ControlMessage.messageType, ControlMessage.payloadB,
      List.append_assoc]
    unfold decode_payload_for
    simp only [Nat.reduceEqDiff, reduceIte]
    rw [decode_varint_at pre (paramsSectionB ps ++ rest) rid h1]
    simp only [except_ok_bind]
    have e2 := decode_params_section_at (pre ++ vbytes rid) rest ps h2
    simp only [List.append_assoc, List.length_append] at e2
    try simp only [← Nat.add_assoc] at e2
    try simp only [← Nat.add_assoc]
    rw [e2]
    simp only [except_ok_bind]
  | publishDone rid sc reason =>
    obtain ⟨h1, h2, h3⟩ := h
    simp only [ControlMessage.messageType, ControlMessage.payloadB,
      List.append_assoc]
    unfold decode_payload_for
    simp only [Nat.reduceEqDiff, reduceIte]
    rw [decode_varint_at pre (vbytes sc ++ (lpB reason ++ rest)) rid h1]
    simp only [except_ok_bind]
    have e2 := decode_varint_at (pre ++ vbytes rid) (lpB reason ++ rest) sc h2
    simp only [List.append_assoc, List.length_append] at e2
    try simp only [← Nat.add_assoc] at e2
    try simp only [← Nat.add_assoc]
    rw [e2]
    simp only [except_ok_bind]
    have e3 := decode_lp_bytes_at (pre ++ vbytes rid ++ vbytes sc) rest reason h3
    simp only [List.append_assoc, List.length_append] at e3
    try simp only [← Nat.add_assoc] at e3
    try simp only [← Nat.add_assoc]
    rw [e3]
    simp only [except_ok_bind]
  | fetch rid ns name s e ps =>
    obtain ⟨h1, h2, h3, h4, h5, h6⟩ := h
    simp only [ControlMessage.messageType, ControlMessage.payloadB,
      List.append_assoc]
    unfold decode_payload_for
    simp only [Nat.reduceEqDiff, reduceIte]
    rw [decode_varint_at pre
      (TrackNamespace.encB ns ++ (lpB name ++ (Location.encB s ++
        (Location.encB e ++ (paramsSectionB ps ++ rest))))) rid h1]
    simp only [except_ok_bind]
    have e2 := TrackNamespace_decode_at (pre ++ vbytes rid)
      (lpB name ++ (Location.encB s ++ (Location.encB e ++
        (paramsSectionB ps ++ rest)))) ns h2
    simp only [List.append_assoc, List.length_append] at e2
    try simp only [← Nat.add_assoc] at e2
    try simp only [← Nat.add_assoc]
    rw [e2]
    simp only [except_ok_bind]
    have e3 := decode_lp_bytes_at (pre ++ vbytes rid ++ ns.encB)
      (Location.encB s ++ (Location.encB e ++ (paramsSectionB ps ++ rest)))
      name h3
    simp only [List.append_assoc, List.length_append] at e3
    try simp only [← Nat.add_assoc] at e3
    try simp only [← Nat.add_assoc]
    rw [e3]
    simp only [except_ok_bind]
    have e4 := Location_decode_at (pre ++ vbytes rid ++ ns.encB ++ lpB name)
      (Location.encB e ++ (paramsSectionB ps ++ rest)) s h4
    simp only [List.append_assoc, List.length_append] at e4
    try simp only [← Nat.add_assoc] at e4
    try simp only [← Nat.add_assoc]
    rw [e4]
    simp only [except_ok_bind]
    have e5 := Location_decode_at
      (pre ++ vbytes rid ++ ns.encB ++ lpB name ++ Location.encB s)
      (paramsSectionB ps ++ rest) e h5
    simp only [List.append_assoc, List.length_append] at e5
    try simp only [← Nat.add_assoc] at e5
    try simp only [← Nat.add_assoc]
    rw [e5]
    simp only [except_ok_bind]
    have e6 := decode_params_section_at
      (pre ++ vbytes rid ++ ns.encB ++ lpB name ++ Location.encB s ++
        Location.encB e) rest ps h6
    simp only [List.append_assoc, List.length_append] at e6
    try simp only [← Nat.add_assoc] at e6
    try simp only [← Nat.add_assoc]
    rw [e6]
    simp only [except_ok_bind]
  | fetchOk rid ps =>
    obtain ⟨h1, h2⟩ := h
    simp only [ControlMessage.messageType, ControlMessage.payloadB,
      List.append_assoc]
    unfold decode_payload_for
    simp only [Nat.reduceEqDiff, reduceIte]
    rw [decode_varint_at pre (paramsSectionB ps ++ rest) rid h1]
    simp only [except_ok_bind]
    have e2 := decode_params_section_at (pre ++ vbytes rid) rest ps h2
    simp only [List.append_assoc, List.length_append] at e2
    try simp only [← Nat.add_assoc] at e2
    try simp only [← Nat.add_assoc]
    rw [e2]
    simp only [except_ok_bind]
  | fetchCancel rid =>
    simp only [ControlMessage.messageType, ControlMessage.payloadB,
      List.append_assoc]
    unfold decode_payload_for
    simp only [Nat.reduceEqDiff, reduceIte]
    rw [decode_varint_at pre rest rid h]
    simp only [except_ok_bind]
  | trackStatus rid ns name ps =>
    obtain ⟨h1, h2, h3, h4⟩ := h
    simp only [ControlMessage.messageType, ControlMessage.payloadB,
      List.append_assoc]
    unfold decode_payload_for
    simp only [Nat.reduceEqDiff, reduceIte]
    rw [decode_varint_at pre
      (TrackNamespace.encB ns ++ (lpB name ++ (paramsSectionB ps ++ rest)))
      rid h1]
    simp only [except_ok_bind]
    have e2 := TrackNamespace_decode_at (pre ++ vbytes rid)
      (lpB name ++ (paramsSectionB ps ++ rest)) ns h2
    simp only [List.append_assoc, List.length_append] at e2
    try simp only [← Nat.add_assoc] at e2
    try simp only [← Nat.add_assoc]
    rw [e2]
    simp only [except_ok_bind]
    have e3 := decode_lp_bytes_at (pre ++ vbytes rid ++ ns.encB)
      (paramsSectionB ps ++ rest) name h3
    simp only [List.append_assoc, List.length_append] at e3
    try simp only [← Nat.add_assoc] at e3
    try simp only [← Nat.add_assoc]
    rw [e3]
    simp only [except_ok_bind]
    have e4 := decode_params_section_at
      (pre ++ vbytes rid ++ ns.encB ++ lpB name) rest ps h4
    simp only [List.append_assoc, List.length_append] at e4
    try simp only [← Nat.add_assoc] at e4
    try simp only [← Nat.add_assoc]
    rw [e4]
    simp only [except_ok_bind]
  | publishNamespace rid ns ps =>
    obtain ⟨h1, h2, h3⟩ := h
    simp only [ControlMessage.messageType, ControlMessage.payloadB,
      List.append_assoc]
    unfold decode_payload_for
    simp only [Nat.reduceEqDiff, reduceIte]
    rw [decode_varint_at pre
      (TrackNamespace.encB ns ++ (paramsSectionB ps ++ rest)) rid h1]
    simp only [except_ok_bind]
    have e2 := TrackNamespace_decode_at (pre ++ vbytes rid)
      (paramsSectionB ps ++ rest) ns h2
    simp only [List.append_assoc, List.length_append] at e2
    try simp only [← Nat.add_assoc] at e2
    try simp only [← Nat.add_assoc]
    rw [e2]
    simp only [except_ok_bind]
    have e3 := decode_params_section_at (pre ++ vbytes rid ++ ns.encB) rest ps h3
    simp only [List.append_assoc, List.length_append] at e3
    try simp only [← Nat.add_assoc] at e3
    try simp only [← Nat.add_assoc]
    rw [e3]
    simp only [except_ok_bind]
  | publishNamespaceDone rid sc reason =>
    obtain ⟨h1, h2, h3⟩ := h
    simp only [ControlMessage.messageType, ControlMessage.payloadB,
      List.append_assoc]
    unfold decode_payload_for
    simp only [Nat.reduceEqDiff, reduceIte]
    rw [decode_varint_at pre (vbytes sc ++ (lpB reason ++ rest)) rid h1]
    simp only [except_ok_bind]
    have e2 := decode_varint_at (pre ++ vbytes rid) (lpB reason ++ rest) sc h2
    simp only [List.append_assoc, List.length_append] at e2
    try simp only [← Nat.add_assoc] at e2
    try simp only [← Nat.add_assoc]
    rw [e2]
    simp only [except_ok_bind]
    have e3 := decode_lp_bytes_at (pre ++ vbytes rid ++ vbytes sc) rest reason h3
    simp only [List.append_assoc, List.length_append] at e3
    try simp only [← Nat.add_assoc] at e3
    try simp only [← Nat.add_assoc]
    rw [e3]
    simp only [except_ok_bind]
  | publishNamespaceCancel rid =>
    simp only [ControlMessage.messageType, ControlMessage.payloadB,
      List.append_assoc]
    unfold decode_payload_for
    simp only [Nat.reduceEqDiff, reduceIte]
    rw [decode_varint_at pre rest rid h]
    simp only [except_ok_bind]
  | subscribeNamespace rid nsp ps =>
    obtain ⟨h1, h2, h3⟩ := h
    simp only [ControlMessage.messageType, ControlMessage.payloadB,
      List.append_assoc]
    unfold decode_payload_for
    simp only [Nat.reduceEqDiff, reduceIte]
    rw [decode_varint_at pre
      (TrackNamespace.encB nsp ++ (paramsSectionB ps ++ rest)) rid h1]
    simp only [except_ok_bind]
    have e2 := TrackNamespace_decode_at (pre ++ vbytes rid)
      (paramsSectionB ps ++ rest) nsp h2
    simp only [List.append_assoc, List.length_append] at e2
    try simp only [← Nat.add_assoc] at e2
    try simp only [← Nat.add_assoc]
    rw [e2]
    simp only [except_ok_bind]
    have e3 := decode_params_section_at (pre ++ vbytes rid ++ nsp.encB) rest ps h3
    simp only [List.append_assoc, List.length_append] at e3
    try simp only [← Nat.add_assoc] at e3
    try simp only [← Nat.add_assoc]
    rw [e3]
    simp only [except_ok_bind]
  | unsubscribeNamespace rid =>
    simp only [ControlMessage.messageType, ControlMessage.payloadB,
      List.append_assoc]
    unfold decode_payload_for
    simp only [Nat.reduceEqDiff, reduceIte]
    rw [decode_varint_at pre rest rid h]
    simp only [except_ok_bind]

/-- Python `len(payload).to_bytes(2, "big")`: two big-endian bytes, raising
`OverflowError` at 65536 and above. -/
def int_to_bytes2 (n : Nat) : Except PyError (List Nat) :=
  if n < 65536 then .ok [n / 256, n % 256] else .error .overflowError

/-- `ControlMessage.encode`: varint type, 16-bit big-endian payload length,
payload. -/
def ControlMessage.encode (m : ControlMessage) : Except PyError (List Nat) := do
  let payload ← m.encode_payload
  let tb ← encode_varint m.messageType
  let lb ← int_to_bytes2 payload.length
  .ok (tb ++ lb ++ payload)

/-- Canonical bytes of a whole encoded control message. -/
def ControlMessage.encB (m : ControlMessage) : List Nat :=
  vbytes m.messageType ++
    ([m.payloadB.length / 256, m.payloadB.length % 256] ++ m.payloadB)

/-- `decode_control_message` from message.py: read the type varint, the
16-bit length, check the payload is complete, then dispatch on the type
(unknown types raise `ValueError`). -/
def decode_control_message (data : List Nat) (offset : Nat) :
    Except PyError (ControlMessage × Nat) := do
  let (msg_type_value, consumed) ← decode_varint data offset
  if data.length < offset + consumed + 2 then
    .error (.valueError "not enough data to read the message length")
  else
    let msg_length := 256 * data.getD (offset + consumed) 0 +
      data.getD (offset + consumed + 1) 0
    if data.length < offset + consumed + 2 + msg_length then
      .error (.valueError "not enough data to read the message payload")
    else do
      let message ← decode_payload_for msg_type_value data (offset + consumed + 2)
      .ok (message, consumed + 2 + msg_length)

theorem messageType_lt (m : ControlMessage) : m.messageType < 64 := by
  cases m <;> simp [ControlMessage.messageType]

theorem ControlMessage_encode_eq (m : ControlMessage) (h : m.valid) :
    m.encode = .ok m.encB := by
  obtain ⟨hf, hlen⟩ := h
  unfold ControlMessage.encode ControlMessage.encB
  rw [encode_payload_eq m hf]
  simp only [except_ok_bind]
  rw [encode_varint_eq m.messageType
    (lt_trans (messageType_lt m) (by norm_num))]
  simp only [except_ok_bind]
  unfold int_to_bytes2
  rw [if_pos hlen]
  simp only [except_ok_bind]
  simp [List.append_assoc]

theorem decode_control_message_encB (m : ControlMessage) (h : m.valid) :
    decode_control_message m.encB 0 = .ok (m, m.encB.length) := by
  obtain ⟨hf, hlen⟩ := h
  have hmt : m.messageType < 64 := messageType_lt m
  have hv : vbytes m.messageType = [m.messageType] := by simp [vbytes, hmt]
  have hshape : m.encB = m.messageType ::
      (m.payloadB.length / 256 :: (m.payloadB.length % 256 :: m.payloadB)) := by
    unfold ControlMessage.encB
    rw [hv]
    simp
  have hlenB : m.encB.length = 3 + m.payloadB.length := by
    rw [hshape]; simp; omega
  unfold decode_control_message
  have h1 : decode_varint m.encB 0 = .ok (m.messageType, 1) := by
    have := decode_varint_at [] ([m.payloadB.length / 256, m.payloadB.length % 256]
      ++ m.payloadB) m.messageType (by omega)
    simp only [List.nil_append, List.length_nil] at this
    rw [hv] at this
    simp only [List.cons_append, List.nil_append, List.length_cons,
      List.length_nil] at this
    rw [hshape]
    simpa using this
  rw [h1]
  simp only [except_ok_bind]
  rw [if_neg (by omega)]
  have g1 : m.encB.getD (0 + 1) 0 = m.payloadB.length / 256 := by
    rw [hshape]; rfl
  have g2 : m.encB.getD (0 + 1 + 1) 0 = m.payloadB.length % 256 := by
    rw [hshape]; rfl
  rw [g1, g2]
  have hml : 256 * (m.payloadB.length / 256) + m.payloadB.length % 256
      = m.payloadB.length := by omega
  rw [hml]
  rw [if_neg (by omega)]
  have hd := decode_payload_for_at m
    [m.messageType, m.payloadB.length / 256, m.payloadB.length % 256] [] hf
  simp only [List.cons_append, List.nil_append, List.append_nil,
    List.length_cons, List.length_nil] at hd
  rw [show (0 + 1 + 2 : Nat) = 3 from rfl]
  rw [show m.encB = m.messageType :: (m.payloadB.length / 256 ::
    (m.payloadB.length % 256 :: m.payloadB)) from hshape]
  rw [show (0 + 1 + 1 + 1 : Nat) = 3 from rfl] at hd
  rw [hd]
  simp only [except_ok_bind]
  have hl2 : (m.messageType :: (m.payloadB.length / 256 ::
      (m.payloadB.length % 256 :: m.payloadB))).length
      = 1 + 2 + m.payloadB.length := by
    simp
    omega
  rw [hl2]

/-- C3: for every control-message kind (all 23 kinds of the dispatcher)
with valid field values, `encode` produces exactly the framing
`varint(type) || u16-big-endian payload length || payload`, and
`decode_control_message` of the encoding returns the original message
field-for-field together with the full encoded length. -/
theorem C3_control_message_roundtrip (m : ControlMessage) (h : m.valid) :
    m.encode = .ok m.encB ∧
    m.encB = vbytes m.messageType ++
      ([m.payloadB.length / 256, m.payloadB.length % 256] ++ m.payloadB) ∧
    decode_control_message m.encB 0 = .ok (m, m.encB.length) :=
  ⟨ControlMessage_encode_eq m h, rfl, decode_control_message_encB m h⟩

/-- Concrete SUBSCRIBE message exercising namespaces, a track name, an
odd (length-prefixed) parameter and an even (varint) parameter. -/
def c3WitnessMsg : ControlMessage :=
  ControlMessage.subscribe 0 0 ⟨[[108, 105, 118, 101], [99, 97, 109, 49]]⟩
    [118, 105, 100, 101, 111] [⟨1, [47, 109]⟩, ⟨2, vbytes 100⟩]

/-- Witness for C3 at a concrete SUBSCRIBE message. -/
theorem C3_control_message_roundtrip_witness :
    c3WitnessMsg.valid ∧
    (c3WitnessMsg.encode = .ok c3WitnessMsg.encB ∧
     c3WitnessMsg.encB = vbytes c3WitnessMsg.messageType ++
       ([c3WitnessMsg.payloadB.length / 256,
         c3WitnessMsg.payloadB.length % 256] ++ c3WitnessMsg.payloadB) ∧
     decode_control_message c3WitnessMsg.encB 0
       = .ok (c3WitnessMsg, c3WitnessMsg.encB.length)) := by
  have hp1 : (⟨1, [47, 109]⟩ : Parameter).valid := by
    refine ⟨by norm_num, ?_⟩
    rw [if_pos (by norm_num : (1 : Nat) % 2 = 1)]
    norm_num
  have hp2 : (⟨2, vbytes 100⟩ : Parameter).valid := by
    refine ⟨by norm_num, ?_⟩
    rw [if_neg (by norm_num : ¬ (2 : Nat) % 2 = 1)]
    exact ⟨100, by norm_num, rfl⟩
  have hval : c3WitnessMsg.valid := by
    constructor
    · refine ⟨by norm_num, by norm_num, ⟨by norm_num, ?_⟩, by norm_num,
        by norm_num, ?_⟩
      · intro e he
        fin_cases he <;> norm_num
      · intro p hp
        fin_cases hp
        · exact hp1
        · exact hp2
    · decide
  exact ⟨hval, C3_control_message_roundtrip c3WitnessMsg hval⟩

/- ## Control-stream processing (MoqtSession._process_control_messages,
src/moqt/session.py) -/

/-- `MoqtSession._process_control_messages`: repeatedly decode one message
from the buffer and drop its bytes; on any `ValueError` stop and keep the
buffer for retry (every error `decode_control_message` raises is a
`ValueError`, so the `except ValueError` clause catches them all).  The
fuel argument only bounds the iteration count of the Python `while` loop;
any fuel at least the buffer length is enough, since a decoded message
consumes at least one byte.  Returns the remaining buffer and the decoded
messages in order. -/
def process_control_messages (fuel : Nat) (buffer : List Nat) :
    List Nat × List ControlMessage :=
  match fuel with
  | 0 => (buffer, [])
  | fuel + 1 =>
    if buffer.length = 0 then (buffer, [])
    else
      match decode_control_message buffer 0 with
      | .ok (m, consumed) =>
        let r := process_control_messages fuel (buffer.drop consumed)
        (r.1, m :: r.2)
      | .error _ => (buffer, [])

/-- C1 (code bug): a complete frame with an unknown type code (0x3F) makes
`decode_control_message` raise the same exception class (`ValueError`) as a
frame whose payload has not fully arrived, and
`_process_control_messages` therefore treats the unknown-type frame exactly
like an incomplete one: it catches the error, keeps the buffer unchanged,
handles no message, and never closes the session — instead of failing with
`UnknownMessageType` and closing with PROTOCOL_VIOLATION as the
specification requires. -/
theorem C1_unknown_message_type_code_bug :
    decode_control_message [0x3F, 0x00, 0x00] 0
      = .error (.valueError "unknown message type: 63") ∧
    decode_control_message [0x03, 0x00, 0x05, 0x01] 0
      = .error (.valueError "not enough data to read the message payload") ∧
    (∀ fuel, process_control_messages fuel [0x3F, 0x00, 0x00]
        = ([0x3F, 0x00, 0x00], [])) ∧
    (∀ fuel, process_control_messages fuel [0x03, 0x00, 0x05, 0x01]
        = ([0x03, 0x00, 0x05, 0x01], [])) := by
  refine ⟨rfl, rfl, fun fuel => ?_, fun fuel => ?_⟩
  · cases fuel <;> rfl
  · cases fuel <;> rfl

/- ## Session state machine (src/moqt/session.py) -/

/-- Insertion-ordered model of a Python `dict[int, α]`. -/
def dictContains {α : Type} (d : List (Nat × α)) (k : Nat) : Bool :=
  d.any (fun kv => kv.1 == k)

def dictGet {α : Type} (d : List (Nat × α)) (k : Nat) : Option α :=
  (d.find? (fun kv => kv.1 == k)).map (fun kv => kv.2)

def dictSet {α : Type} (d : List (Nat × α)) (k : Nat) (v : α) : List (Nat × α) :=
  if dictContains d k then
    d.map (fun kv => if kv.1 == k then (k, v) else kv)
  else
    d ++ [(k, v)]

def dictPop {α : Type} (d : List (Nat × α)) (k : Nat) : List (Nat × α) :=
  d.filter (fun kv => kv.1 != k)

/-- UTF-8 bytes of a Python string literal. -/
def strBytes (s : String) : List Nat :=
  s.toUTF8.toList.map (fun b => b.toNat)

/-- MOQT error codes (`ErrorCode` IntEnum). -/
def EC_PROTOCOL_VIOLATION : Nat := 0x3
def EC_DUPLICATE_TRACK_ALIAS : Nat := 0x4
def EC_INTERNAL_ERROR : Nat := 0x1

inductive Role where
  | client
  | server
  deriving Repr, DecidableEq

inductive SessionState where
  | idle
  | connecting
  | setup
  | established
  | goawayState
  | closed
  deriving Repr, DecidableEq

/-- `SubscriptionFilter` (only carried inside `TrackInfo` here). -/
structure SubscriptionFilter where
  filter_type : Nat
  start_group : Option Nat := none
  start_object : Option Nat := none
  end_group : Option Nat := none
  end_object : Option Nat := none
  deriving Repr, DecidableEq

/-- `TrackInfo` from session.py. -/
structure TrackInfo where
  request_id : Nat
  track_alias : Nat
  track_namespace : TrackNamespace
  track_name : List Nat
  subscription_filter : Option SubscriptionFilter := none
  group_order : Option Nat := none
  delivery_timeout : Option Nat := none
  deriving Repr, DecidableEq

/-- The state fields of `MoqtSession` relevant to the verified claims. -/
structure MoqtSession where
  role : Role
  state : SessionState
  next_request_id : Nat
  max_request_id : Nat
  peer_max_request_id : Nat
  next_track_alias : Nat
  subscriptions : List (Nat × TrackInfo)
  publications : List (Nat × TrackInfo)
  track_alias_map : List (Nat × Nat)
  pending_requests : List Nat
  deriving Repr, DecidableEq

/-- A fresh session after setup: `__post_init__` picks the request-id
parity from the role, and `peer_max_request_id` holds the value extracted
from the peer's setup message. -/
def MoqtSession.init (role : Role) (p0 : Nat) : MoqtSession :=
  { role := role
    state := SessionState.established
    next_request_id := match role with | .client => 0 | .server => 1
    max_request_id := 0
    peer_max_request_id := p0
    next_track_alias := 0
    subscriptions := []
    publications := []
    track_alias_map := []
    pending_requests := [] }

/-- `MoqtSession.close`: the session transitions to CLOSED (the QUIC
shutdown and callback are outside the model). -/
def MoqtSession.close (s : MoqtSession) (_error_code : Nat) : MoqtSession :=
  { s with state := SessionState.closed }

/-- `MoqtSession.allocate_request_id`: fails (RuntimeError) when the next
id would exceed the peer's limit. -/
def MoqtSession.allocate_request_id (s : MoqtSession) :
    Except PyError (Nat × MoqtSession) :=
  if s.peer_max_request_id < s.next_request_id then
    .error (.runtimeError "request id limit reached")
  else
    .ok (s.next_request_id, { s with next_request_id := s.next_request_id + 2 })

/-- `MoqtSession.allocate_track_alias`. -/
def MoqtSession.allocate_track_alias (s : MoqtSession) : Nat × MoqtSession :=
  (s.next_track_alias, { s with next_track_alias := s.next_track_alias + 1 })

/-- `MoqtSession._handle_max_request_id`: a non-increasing MAX_REQUEST_ID is
a protocol violation that closes the session and leaves the stored value
unchanged; otherwise the stored value is updated. -/
def MoqtSession.handle_max_request_id (s : MoqtSession) (request_id : Nat) :
    MoqtSession :=
  if request_id ≤ s.peer_max_request_id then
    s.close EC_PROTOCOL_VIOLATION
  else
    { s with peer_max_request_id := request_id }

/-- `MoqtSession._handle_subscribe`: reject a duplicate track alias with
REQUEST_ERROR(DUPLICATE_TRACK_ALIAS), let the application callback reject
with REQUEST_ERROR(INTERNAL_ERROR), otherwise record the TrackInfo in
`subscriptions`, index the alias, and send REQUEST_OK
(`send_subscribe_ok` sends a `RequestOk` message).  The callback is
modelled by its decision: `none` when no callback is registered, `some b`
when the registered callback returns `b`.  Returns the new session state
and the sent messages. -/
def MoqtSession.handle_subscribe (s : MoqtSession) (msg_request_id : Nat)
    (msg_track_alias : Nat) (msg_ns : TrackNamespace) (msg_name : List Nat)
    (on_subscribe : Option Bool) : MoqtSession × List ControlMessage :=
  if dictContains s.track_alias_map msg_track_alias then
    (s, [ControlMessage.requestError msg_request_id EC_DUPLICATE_TRACK_ALIAS
      (strBytes "Duplicate Track Alias")])
  else if on_subscribe = some false then
    (s, [ControlMessage.requestError msg_request_id EC_INTERNAL_ERROR
      (strBytes "Subscription rejected")])
  else
    ({ s with
        subscriptions := dictSet s.subscriptions msg_request_id
          { request_id := msg_request_id, track_alias := msg_track_alias,
            track_namespace := msg_ns, track_name := msg_name },
        track_alias_map := dictSet s.track_alias_map msg_track_alias
          msg_request_id },
     [ControlMessage.requestOk msg_request_id []])

/-- `MoqtSession._handle_publish` (symmetric, stores into
`publications` and sends REQUEST_OK via `send_publish_ok`). -/
def MoqtSession.handle_publish (s : MoqtSession) (msg_request_id : Nat)
    (msg_track_alias : Nat) (msg_ns : TrackNamespace) (msg_name : List Nat)
    (on_publish : Option Bool) : MoqtSession × List ControlMessage :=
  if dictContains s.track_alias_map msg_track_alias then
    (s, [ControlMessage.requestError msg_request_id EC_DUPLICATE_TRACK_ALIAS
      (strBytes "Duplicate Track Alias")])
  else if on_publish = some false then
    (s, [ControlMessage.requestError msg_request_id EC_INTERNAL_ERROR
      (strBytes "Publish rejected")])
  else
    ({ s with
        publications := dictSet s.publications msg_request_id
          { request_id := msg_request_id, track_alias := msg_track_alias,
            track_namespace := msg_ns, track_name := msg_name },
        track_alias_map := dictSet s.track_alias_map msg_track_alias
          msg_request_id },
     [ControlMessage.requestOk msg_request_id []])

/-- `MoqtSession._handle_unsubscribe`: remove the subscription and its
alias-index entry; idempotent on unknown request ids. -/
def MoqtSession.handle_unsubscribe (s : MoqtSession) (request_id : Nat) :
    MoqtSession :=
  match dictGet s.subscriptions request_id with
  | some track_info =>
      { s with
          subscriptions := dictPop s.subscriptions request_id,
          track_alias_map := dictPop s.track_alias_map track_info.track_alias }
  | none => s

/-- `MoqtSession.unsubscribe` (locally initiated): same removal, then send
UNSUBSCRIBE. -/
def MoqtSession.unsubscribe (s : MoqtSession) (request_id : Nat) :
    MoqtSession × List ControlMessage :=
  (s.handle_unsubscribe request_id, [ControlMessage.unsubscribe request_id])

/-- `MoqtSession.send_publish_done`: send PUBLISH_DONE, then remove the
publication and its alias-index entry. -/
def MoqtSession.send_publish_done (s : MoqtSession) (request_id : Nat)
    (status_code : Nat) (reason_phrase : List Nat) :
    MoqtSession × List ControlMessage :=
  (match dictGet s.publications request_id with
   | some track_info =>
       { s with
           publications := dictPop s.publications request_id,
           track_alias_map := dictPop s.track_alias_map track_info.track_alias }
   | none => s,
   [ControlMessage.publishDone request_id status_code reason_phrase])

/-- The table insertion performed by `MoqtSession.subscribe` after a
REQUEST_OK response. -/
def MoqtSession.record_subscription (s : MoqtSession) (request_id : Nat)
    (track_alias : Nat) (ns : TrackNamespace) (name : List Nat) : MoqtSession :=
  { s with
      subscriptions := dictSet s.subscriptions request_id
        { request_id := request_id, track_alias := track_alias,
          track_namespace := ns, track_name := name },
      track_alias_map := dictSet s.track_alias_map track_alias request_id }

/-- The table insertion performed by `MoqtSession.publish` after a
REQUEST_OK response. -/
def MoqtSession.record_publication (s : MoqtSession) (request_id : Nat)
    (track_alias : Nat) (ns : TrackNamespace) (name : List Nat) : MoqtSession :=
  { s with
      publications := dictSet s.publications request_id
        { request_id := request_id, track_alias := track_alias,
          track_namespace := ns, track_name := name },
      track_alias_map := dictSet s.track_alias_map track_alias request_id }

/-- Result of awaiting a request's response: REQUEST_OK with parameters,
REQUEST_ERROR, or a timeout elapsing. -/
inductive AwaitOutcome where
  | respOk (params : List Parameter)
  | respError (error_code : Nat) (reason : List Nat)
  | timeout
  deriving Repr, DecidableEq

/-- `MoqtSession.subscribe` as a function of the awaited outcome: allocate
a request id (raising when over the limit) and a track alias, register the
awaiter, send SUBSCRIBE, then on REQUEST_OK record the track info and
return SubscribeOk; on REQUEST_ERROR return it unchanged; on timeout pop
the awaiter and re-raise.  `parameters` stands for the parameter list the
method builds from its optional arguments.  The outer `Except` is the
allocation failure (state unchanged); the inner one is the coroutine's own
result while the returned state reflects the session's mutations. -/
def MoqtSession.subscribe_flow (s : MoqtSession) (ns : TrackNamespace)
    (name : List Nat) (parameters : List Parameter) (outcome : AwaitOutcome) :
    Except PyError
      (MoqtSession × List ControlMessage × Except PyError ControlMessage) :=
  match s.allocate_request_id with
  | .error e => .error e
  | .ok (request_id, s1) =>
    let (track_alias, s2) := s1.allocate_track_alias
    let s3 := { s2 with pending_requests := s2.pending_requests ++ [request_id] }
    let sent := [ControlMessage.subscribe request_id track_alias ns name
      parameters]
    match outcome with
    | .respOk params =>
        let s4 := { s3 with pending_requests :=
          s3.pending_requests.filter (fun r => r != request_id) }
        .ok (s4.record_subscription request_id track_alias ns name, sent,
          .ok (ControlMessage.subscribeOk request_id params))
    | .respError ec reason =>
        let s4 := { s3 with pending_requests :=
          s3.pending_requests.filter (fun r => r != request_id) }
        .ok (s4, sent, .ok (ControlMessage.requestError request_id ec reason))
    | .timeout =>
        let s4 := { s3 with pending_requests :=
          s3.pending_requests.filter (fun r => r != request_id) }
        .ok (s4, sent, .error .timeoutError)

/-- `MoqtSession.publish` as a function of the awaited outcome (symmetric,
records into `publications` and returns PublishOk). -/
def MoqtSession.publish_flow (s : MoqtSession) (ns : TrackNamespace)
    (name : List Nat) (parameters : List Parameter) (outcome : AwaitOutcome) :
    Except PyError
      (MoqtSession × List ControlMessage × Except PyError ControlMessage) :=
  match s.allocate_request_id with
  | .error e => .error e
  | .ok (request_id, s1) =>
    let (track_alias, s2) := s1.allocate_track_alias
    let s3 := { s2 with pending_requests := s2.pending_requests ++ [request_id] }
    let sent := [ControlMessage.publish request_id track_alias ns name
      parameters]
    match outcome with
    | .respOk params =>
        let s4 := { s3 with pending_requests :=
          s3.pending_requests.filter (fun r => r != request_id) }
        .ok (s4.record_publication request_id track_alias ns name, sent,
          .ok (ControlMessage.publishOk request_id params))
    | .respError ec reason =>
        let s4 := { s3 with pending_requests :=
          s3.pending_requests.filter (fun r => r != request_id) }
        .ok (s4, sent, .ok (ControlMessage.requestError request_id ec reason))
    | .timeout =>
        let s4 := { s3 with pending_requests :=
          s3.pending_requests.filter (fun r => r != request_id) }
        .ok (s4, sent, .error .timeoutError)

/-- Events driving the request-id portion of the session: a local
`allocate_request_id` call, or a received MAX_REQUEST_ID message. -/
inductive SessionEvent where
  | allocateRequest
  | recvMaxRequestId (k : Nat)
  deriving Repr, DecidableEq

/-- One event step: a failed allocation leaves the session unchanged (the
RuntimeError propagates to the caller); a received MAX_REQUEST_ID goes
through `_handle_max_request_id`. -/
def MoqtSession.step (s : MoqtSession) : SessionEvent → MoqtSession × Option Nat
  | .allocateRequest =>
      match s.allocate_request_id with
      | .ok (rid, s2) => (s2, some rid)
      | .error _ => (s, none)
  | .recvMaxRequestId k => (s.handle_max_request_id k, none)

/-- Run a sequence of events, collecting the successfully allocated request
ids in order. -/
def MoqtSession.run (s : MoqtSession) : List SessionEvent → MoqtSession × List Nat
  | [] => (s, [])
  | e :: es =>
      let r1 := s.step e
      let r2 := r1.1.run es
      (r2.1, r1.2.toList ++ r2.2)

theorem run_spec (es : List SessionEvent) (s : MoqtSession)
    (hinv : s.next_request_id ≤ s.peer_max_request_id + 2) :
    s.peer_max_request_id ≤ (s.run es).1.peer_max_request_id ∧
    (s.run es).1.next_request_id ≤ (s.run es).1.peer_max_request_id + 2 ∧
    (s.run es).1.next_request_id
      = s.next_request_id + 2 * (s.run es).2.length ∧
    (s.run es).2 = List.range' s.next_request_id (s.run es).2.length 2 := by
  induction es generalizing s with
  | nil =>
    simp [MoqtSession.run]
    omega
  | cons e es ih =>
    cases e with
    | allocateRequest =>
      by_cases h : s.peer_max_request_id < s.next_request_id
      · have hstep : s.step .allocateRequest = (s, none) := by
          simp [MoqtSession.step, MoqtSession.allocate_request_id, h]
        have hrun : s.run (.allocateRequest :: es)
            = ((s.run es).1, (s.run es).2) := by
          simp [MoqtSession.run, hstep]
        rw [hrun]
        exact ih s hinv
      · have hstep : s.step .allocateRequest
            = ({ s with next_request_id := s.next_request_id + 2 },
               some s.next_request_id) := by
          simp [MoqtSession.step, MoqtSession.allocate_request_id, h]
        set s2 : MoqtSession := { s with next_request_id := s.next_request_id + 2 }
          with hs2
        have hrun : s.run (.allocateRequest :: es)
            = ((s2.run es).1, s.next_request_id :: (s2.run es).2) := by
          simp [MoqtSession.run, hstep]
        rw [hrun]
        have hinv2 : s2.next_request_id ≤ s2.peer_max_request_id + 2 := by
          simp [hs2]; omega
        obtain ⟨ih1, ih2, ih3, ih4⟩ := ih s2 hinv2
        refine ⟨?_, ih2, ?_, ?_⟩
        · simpa [hs2] using ih1
        · simp only [List.length_cons]
          rw [ih3]
          simp [hs2]
          omega
        · simp only [List.length_cons]
          rw [show List.range' s.next_request_id ((s2.run es).2.length + 1) 2
            = s.next_request_id :: List.range' (s.next_request_id + 2)
              (s2.run es).2.length 2 from rfl]
          rw [show (s.next_request_id + 2 : Nat) = s2.next_request_id from by
            simp [hs2]]
          exact congrArg _ ih4
    | recvMaxRequestId k =>
      by_cases h : k ≤ s.peer_max_request_id
      · have hstep : s.step (.recvMaxRequestId k) = (s.close EC_PROTOCOL_VIOLATION, none) := by
          simp [MoqtSession.step, MoqtSession.handle_max_request_id, h]
        have hrun : s.run (.recvMaxRequestId k :: es)
            = (((s.close EC_PROTOCOL_VIOLATION).run es).1,
               ((s.close EC_PROTOCOL_VIOLATION).run es).2) := by
          simp [MoqtSession.run, hstep]
        rw [hrun]
        have hinv2 : (s.close EC_PROTOCOL_VIOLATION).next_request_id
            ≤ (s.close EC_PROTOCOL_VIOLATION).peer_max_request_id + 2 := hinv
        obtain ⟨ih1, ih2, ih3, ih4⟩ := ih (s.close EC_PROTOCOL_VIOLATION) hinv2
        exact ⟨ih1, ih2, ih3, ih4⟩
      · have hstep : s.step (.recvMaxRequestId k)
            = ({ s with peer_max_request_id := k }, none) := by
          simp [MoqtSession.step, MoqtSession.handle_max_request_id, h]
        set s2 : MoqtSession := { s with peer_max_request_id := k } with hs2
        have hrun : s.run (.recvMaxRequestId k :: es)
            = ((s2.run es).1, (s2.run es).2) := by
          simp [MoqtSession.run, hstep]
        rw [hrun]
        have hinv2 : s2.next_request_id ≤ s2.peer_max_request_id + 2 := by
          simp [hs2]; omega
        obtain ⟨ih1, ih2, ih3, ih4⟩ := ih s2 hinv2
        refine ⟨?_, ih2, ih3, ih4⟩
        have : s.peer_max_request_id ≤ s2.peer_max_request_id := by
          simp [hs2]; omega
        exact le_trans this ih1

theorem chain_range_two (n : Nat) : ∀ st : Nat,
    List.Chain' (fun a b => b = a + 2) (List.range' st n 2) := by
  induction n with
  | zero => intro st; simp
  | succ n ih =>
    intro st
    cases n with
    | zero => simp
    | succ m =>
      have h2 := ih (st + 2)
      rw [List.range'_succ] at h2
      rw [List.range'_succ, List.range'_succ]
      exact List.chain'_cons.mpr ⟨rfl, h2⟩

/-- C4: over any interleaving of `allocate_request_id` calls and received
MAX_REQUEST_ID messages, the successfully allocated ids form a strictly
increasing sequence with step exactly 2 and the side's fixed parity, none
exceeding the final (monotonically non-decreasing) `peer_max_request_id`;
allocation fails exactly when `next_request_id` exceeds
`peer_max_request_id`; and a received MAX_REQUEST_ID `k` at or below the
stored value closes the session with PROTOCOL_VIOLATION leaving the stored
value unchanged, while a larger `k` updates the stored value. -/
theorem C4_request_id_flow_control (role : Role) (p0 : Nat)
    (es : List SessionEvent) :
    List.Chain' (fun a b => b = a + 2) ((MoqtSession.init role p0).run es).2 ∧
    (∀ i ∈ ((MoqtSession.init role p0).run es).2,
      i % 2 = (match role with | .client => 0 | .server => 1)) ∧
    (∀ i ∈ ((MoqtSession.init role p0).run es).2,
      i ≤ ((MoqtSession.init role p0).run es).1.peer_max_request_id) ∧
    p0 ≤ ((MoqtSession.init role p0).run es).1.peer_max_request_id ∧
    (∀ s : MoqtSession, s.peer_max_request_id < s.next_request_id →
      s.step .allocateRequest = (s, none)) ∧
    (∀ s : MoqtSession, s.next_request_id ≤ s.peer_max_request_id →
      s.step .allocateRequest
        = ({ s with next_request_id := s.next_request_id + 2 },
           some s.next_request_id)) ∧
    (∀ (s : MoqtSession) (k : Nat), k ≤ s.peer_max_request_id →
      (s.handle_max_request_id k).state = SessionState.closed ∧
      (s.handle_max_request_id k).peer_max_request_id
        = s.peer_max_request_id) ∧
    (∀ (s : MoqtSession) (k : Nat), s.peer_max_request_id < k →
      (s.handle_max_request_id k).peer_max_request_id = k ∧
      (s.handle_max_request_id k).state = s.state) := by
  have hinv : (MoqtSession.init role p0).next_request_id
      ≤ (MoqtSession.init role p0).peer_max_request_id + 2 := by
    cases role <;> simp [MoqtSession.init]
  obtain ⟨h1, h2, h3, h4⟩ := run_spec es (MoqtSession.init role p0) hinv
  refine ⟨?_, ?_, ?_, ?_, ?_, ?_, ?_, ?_⟩
  · rw [h4]
    exact chain_range_two _ _
  · intro i hi
    rw [h4] at hi
    obtain ⟨j, hj, rfl⟩ := List.mem_range'.mp hi
    cases role <;> simp [MoqtSession.init] <;> omega
  · intro i hi
    rw [h4] at hi
    obtain ⟨j, hj, rfl⟩ := List.mem_range'.mp hi
    have hs : (MoqtSession.init role p0).peer_max_request_id = p0 := rfl
    omega
  · simpa using h1
  · intro s hs
    simp [MoqtSession.step, MoqtSession.allocate_request_id, hs]
  · intro s hs
    simp [MoqtSession.step, MoqtSession.allocate_request_id,
      Nat.not_lt.mpr hs]
  · intro s k hk
    constructor <;>
      simp [MoqtSession.handle_max_request_id, hk, MoqtSession.close]
  · intro s k hk
    constructor <;>
      simp [MoqtSession.handle_max_request_id, Nat.not_le.mpr hk,
        MoqtSession.close]

/-- Witness for C4: a client session with limit 10 allocates 0 and 2 in
order; MAX_REQUEST_ID(5) at stored 10 closes the session without changing
the stored value; MAX_REQUEST_ID(20) raises it to 20. -/
theorem C4_request_id_flow_control_witness :
    ((MoqtSession.init Role.client 10).run
        [SessionEvent.allocateRequest, SessionEvent.allocateRequest]).2
      = [0, 2] ∧
    (0 : Nat) % 2 = 0 ∧
    ((MoqtSession.init Role.client 10).handle_max_request_id 5).state
      = SessionState.closed ∧
    ((MoqtSession.init Role.client 10).handle_max_request_id 5).peer_max_request_id
      = 10 ∧
    ((MoqtSession.init Role.client 10).handle_max_request_id 20).peer_max_request_id
      = 20 := by
  have h := C4_request_id_flow_control Role.client 10
    [SessionEvent.allocateRequest, SessionEvent.allocateRequest]
  refine ⟨by decide, ?_, ?_, ?_, ?_⟩
  · exact h.2.1 0 (by decide)
  · exact (h.2.2.2.2.2.2.1 (MoqtSession.init Role.client 10) 5 (by decide)).1
  · exact (h.2.2.2.2.2.2.1 (MoqtSession.init Role.client 10) 5 (by decide)).2
  · exact (h.2.2.2.2.2.2.2 (MoqtSession.init Role.client 10) 20 (by decide)).1

/-- C5: receiving SUBSCRIBE with an already-indexed track alias replies
REQUEST_ERROR(DUPLICATE_TRACK_ALIAS, "Duplicate Track Alias") and leaves
the subscriptions table and alias index unchanged; with a fresh alias and
a non-rejecting application callback it records the TrackInfo, indexes the
alias, and sends REQUEST_OK with the request id. -/
theorem C5_subscribe_receiver (s : MoqtSession) (rid ta : Nat)
    (ns : TrackNamespace) (name : List Nat) (cb : Option Bool) :
    (dictContains s.track_alias_map ta = true →
      s.handle_subscribe rid ta ns name cb
        = (s, [ControlMessage.requestError rid EC_DUPLICATE_TRACK_ALIAS
            (strBytes "Duplicate Track Alias")])) ∧
    (dictContains s.track_alias_map ta = false → cb ≠ some false →
      s.handle_subscribe rid ta ns name cb
        = ({ s with
              subscriptions := dictSet s.subscriptions rid
                { request_id := rid, track_alias := ta,
                  track_namespace := ns, track_name := name },
              track_alias_map := dictSet s.track_alias_map ta rid },
           [ControlMessage.requestOk rid []])) := by
  constructor
  · intro hdup
    simp [MoqtSession.handle_subscribe, hdup]
  · intro hfresh hcb
    simp [MoqtSession.handle_subscribe, hfresh, hcb]

/-- Witness for C5: a session whose alias index holds alias 0 rejects a
second SUBSCRIBE with alias 0 without touching its tables, and a fresh
session accepts one. -/
theorem C5_subscribe_receiver_witness :
    (let s1 : MoqtSession :=
      { MoqtSession.init Role.server 100 with
          subscriptions :=
            [(0, { request_id := 0, track_alias := 0,
                   track_namespace := ⟨[]⟩, track_name := [] })],
          track_alias_map := [(0, 0)] }
     s1.handle_subscribe 2 0 ⟨[]⟩ [] none
        = (s1, [ControlMessage.requestError 2 EC_DUPLICATE_TRACK_ALIAS
            (strBytes "Duplicate Track Alias")])) ∧
    ((MoqtSession.init Role.server 100).handle_subscribe 0 0 ⟨[]⟩ [] none
        = ({ MoqtSession.init Role.server 100 with
              subscriptions := dictSet (MoqtSession.init Role.server 100).subscriptions 0
                { request_id := 0, track_alias := 0,
                  track_namespace := ⟨[]⟩, track_name := [] },
              track_alias_map :=
                dictSet (MoqtSession.init Role.server 100).track_alias_map 0 0 },
           [ControlMessage.requestOk 0 []])) := by
  constructor
  · exact (C5_subscribe_receiver _ 2 0 ⟨[]⟩ [] none).1 (by decide)
  · exact (C5_subscribe_receiver _ 0 0 ⟨[]⟩ [] none).2 (by decide) (by decide)

/-- C10: when allocation succeeds, the async subscribe/publish operations
mutate the tables only on a REQUEST_OK outcome; REQUEST_ERROR and timeout
leave `subscriptions`, `publications` and the alias index exactly as
before, while `next_request_id` and `next_track_alias` stay advanced in
every case (allocated ids are never reused). -/
theorem C10_requester_atomicity (s : MoqtSession) (ns : TrackNamespace)
    (name : List Nat) (parameters : List Parameter)
    (halloc : s.next_request_id ≤ s.peer_max_request_id) :
    (∀ params, s.subscribe_flow ns name parameters (.respOk params)
      = .ok (({ s with
            next_request_id := s.next_request_id + 2,
            next_track_alias := s.next_track_alias + 1,
            pending_requests := (s.pending_requests ++ [s.next_request_id]).filter
              (fun r => r != s.next_request_id)
          } : MoqtSession).record_subscription s.next_request_id
            s.next_track_alias ns name,
        [ControlMessage.subscribe s.next_request_id s.next_track_alias ns name
          parameters],
        .ok (ControlMessage.subscribeOk s.next_request_id params))) ∧
    (∀ ec reason, s.subscribe_flow ns name parameters (.respError ec reason)
      = .ok ({ s with
            next_request_id := s.next_request_id + 2,
            next_track_alias := s.next_track_alias + 1,
            pending_requests := (s.pending_requests ++ [s.next_request_id]).filter
              (fun r => r != s.next_request_id) },
        [ControlMessage.subscribe s.next_request_id s.next_track_alias ns name
          parameters],
        .ok (ControlMessage.requestError s.next_request_id ec reason))) ∧
    (s.subscribe_flow ns name parameters .timeout
      = .ok ({ s with
            next_request_id := s.next_request_id + 2,
            next_track_alias := s.next_track_alias + 1,
            pending_requests := (s.pending_requests ++ [s.next_request_id]).filter
              (fun r => r != s.next_request_id) },
        [ControlMessage.subscribe s.next_request_id s.next_track_alias ns name
          parameters],
        .error .timeoutError)) ∧
    (∀ params, s.publish_flow ns name parameters (.respOk params)
      = .ok (({ s with
            next_request_id := s.next_request_id + 2,
            next_track_alias := s.next_track_alias + 1,
            pending_requests := (s.pending_requests ++ [s.next_request_id]).filter
              (fun r => r != s.next_request_id)
          } : MoqtSession).record_publication s.next_request_id
            s.next_track_alias ns name,
        [ControlMessage.publish s.next_request_id s.next_track_alias ns name
          parameters],
        .ok (ControlMessage.publishOk s.next_request_id params))) ∧
    (∀ ec reason, s.publish_flow ns name parameters (.respError ec reason)
      = .ok ({ s with
            next_request_id := s.next_request_id + 2,
            next_track_alias := s.next_track_alias + 1,
            pending_requests := (s.pending_requests ++ [s.next_request_id]).filter
              (fun r => r != s.next_request_id) },
        [ControlMessage.publish s.next_request_id s.next_track_alias ns name
          parameters],
        .ok (ControlMessage.requestError s.next_request_id ec reason))) ∧
    (s.publish_flow ns name parameters .timeout
      = .ok ({ s with
            next_request_id := s.next_request_id + 2,
            next_track_alias := s.next_track_alias + 1,
            pending_requests := (s.pending_requests ++ [s.next_request_id]).filter
              (fun r => r != s.next_request_id) },
        [ControlMessage.publish s.next_request_id s.next_track_alias ns name
          parameters],
        .error .timeoutError)) := by
  have halloc2 : s.allocate_request_id
      = .ok (s.next_request_id,
        { s with next_request_id := s.next_request_id + 2 }) := by
    simp [MoqtSession.allocate_request_id, Nat.not_lt.mpr halloc]
  refine ⟨fun params => ?_, fun ec reason => ?_, ?_, fun params => ?_,
    fun ec reason => ?_, ?_⟩ <;>
    simp [MoqtSession.subscribe_flow, MoqtSession.publish_flow, halloc2,
      MoqtSession.allocate_track_alias]

/-- Witness for C10 on a fresh client session with limit 10: the error and
timeout outcomes leave the tables empty and advance the counters. -/
theorem C10_requester_atomicity_witness :
    (MoqtSession.init Role.client 10).next_request_id
      ≤ (MoqtSession.init Role.client 10).peer_max_request_id ∧
    (MoqtSession.init Role.client 10).subscribe_flow ⟨[]⟩ [] []
        (.respError 1 [])
      = .ok ({ MoqtSession.init Role.client 10 with
            next_request_id := 2, next_track_alias := 1,
            pending_requests := [] },
        [ControlMessage.subscribe 0 0 ⟨[]⟩ [] []],
        .ok (ControlMessage.requestError 0 1 [])) ∧
    (MoqtSession.init Role.client 10).publish_flow ⟨[]⟩ [] [] .timeout
      = .ok ({ MoqtSession.init Role.client 10 with
            next_request_id := 2, next_track_alias := 1,
            pending_requests := [] },
        [ControlMessage.publish 0 0 ⟨[]⟩ [] []],
        .error .timeoutError) := by
  have h := C10_requester_atomicity (MoqtSession.init Role.client 10) ⟨[]⟩ [] []
    (by decide)
  refine ⟨by decide, ?_, ?_⟩
  · have h2 := h.2.1 1 []
    simpa using h2
  · have h2 := h.2.2.2.2.2
    simpa using h2

/- ## Track-alias index invariant (C9) -/

/-- The operations that insert or remove a `TrackInfo`: receiver-side
SUBSCRIBE/PUBLISH handling, UNSUBSCRIBE handling, local unsubscribe,
sending PUBLISH_DONE, and the requester-side inserts after REQUEST_OK. -/
inductive TableOp where
  | recvSubscribe (rid ta : Nat) (ns : TrackNamespace) (name : List Nat)
      (accept : Option Bool)
  | recvPublish (rid ta : Nat) (ns : TrackNamespace) (name : List Nat)
      (accept : Option Bool)
  | recvUnsubscribe (rid : Nat)
  | localUnsubscribe (rid : Nat)
  | sendPublishDone (rid : Nat) (status_code : Nat) (reason : List Nat)
  | subscribeSuccess (rid ta : Nat) (ns : TrackNamespace) (name : List Nat)
  | publishSuccess (rid ta : Nat) (ns : TrackNamespace) (name : List Nat)
  deriving Repr, DecidableEq

def applyTableOp (s : MoqtSession) : TableOp → MoqtSession
  | .recvSubscribe rid ta ns name accept =>
      (s.handle_subscribe rid ta ns name accept).1
  | .recvPublish rid ta ns name accept =>
      (s.handle_publish rid ta ns name accept).1
  | .recvUnsubscribe rid => s.handle_unsubscribe rid
  | .localUnsubscribe rid => (s.unsubscribe rid).1
  | .sendPublishDone rid sc reason => (s.send_publish_done rid sc reason).1
  | .subscribeSuccess rid ta ns name => s.record_subscription rid ta ns name
  | .publishSuccess rid ta ns name => s.record_publication rid ta ns name

def runTableOps (s : MoqtSession) : List TableOp → MoqtSession
  | [] => s
  | op :: ops => runTableOps (applyTableOp s op) ops

/-- The claimed invariant: an alias is a key of the alias index iff a live
TrackInfo owning it sits in the subscriptions or publications table. -/
def aliasInvariant (s : MoqtSession) : Prop :=
  ∀ a : Nat, dictContains s.track_alias_map a = true ↔
    ((∃ kv ∈ s.subscriptions, kv.2.track_alias = a) ∨
     (∃ kv ∈ s.publications, kv.2.track_alias = a))

/-- C9 counterexample: two received SUBSCRIBEs with the same request id 2
but different aliases 5 then 7.  The second overwrites the subscriptions
entry, yet alias 5 stays in the alias index with no live owner, so the
claimed invariant fails in a reachable state. -/
theorem C9_alias_invariant_counterexample :
    ¬ aliasInvariant (runTableOps (MoqtSession.init Role.server 100)
      [TableOp.recvSubscribe 2 5 ⟨[]⟩ [] none,
       TableOp.recvSubscribe 2 7 ⟨[]⟩ [] none]) := by
  intro h
  have h5 := (h 5).mp (by decide)
  revert h5
  decide

theorem dictContains_iff {α : Type} (d : List (Nat × α)) (k : Nat) :
    dictContains d k = true ↔ ∃ v, (k, v) ∈ d := by
  unfold dictContains
  rw [List.any_eq_true]
  constructor
  · rintro ⟨⟨k2, v⟩, hm, hk⟩
    simp only [beq_iff_eq] at hk
    subst hk
    exact ⟨v, hm⟩
  · rintro ⟨v, hm⟩
    exact ⟨(k, v), hm, by simp⟩

theorem dictContains_false_not_mem {α : Type} (d : List (Nat × α)) (k : Nat)
    (h : dictContains d k = false) : ∀ v, (k, v) ∉ d := by
  intro v hm
  have : dictContains d k = true := (dictContains_iff d k).mpr ⟨v, hm⟩
  rw [h] at this
  exact Bool.false_ne_true this

theorem dictSet_append {α : Type} (d : List (Nat × α)) (k : Nat) (v : α)
    (h : dictContains d k = false) : dictSet d k v = d ++ [(k, v)] := by
  unfold dictSet
  rw [h]
  simp

theorem mem_dictPop {α : Type} (d : List (Nat × α)) (k : Nat) (x : Nat) (y : α) :
    (x, y) ∈ dictPop d k ↔ (x, y) ∈ d ∧ x ≠ k := by
  unfold dictPop
  rw [List.mem_filter]
  simp [bne_iff_ne]

theorem dictGet_some_mem {α : Type} (d : List (Nat × α)) (k : Nat) (v : α)
    (h : dictGet d k = some v) : (k, v) ∈ d := by
  unfold dictGet at h
  cases hf : d.find? (fun kv => kv.1 == k) with
  | none => rw [hf] at h; simp at h
  | some kv =>
    rw [hf] at h
    simp only [Option.map_some'] at h
    have hm := List.mem_of_find?_eq_some hf
    have hp := List.find?_some hf
    simp only [beq_iff_eq] at hp
    have hv : kv.2 = v := by
      simpa using h
    have : kv = (k, v) := by
      cases kv with
      | mk a b => simp_all
    rw [← this]
    exact hm

theorem dictPop_sublist {α : Type} (d : List (Nat × α)) (k : Nat) :
    (dictPop d k).Sublist d :=
  List.filter_sublist d

/-- Inductive invariant carried through the table operations: unique
request-id keys per table, globally unique track aliases, and the alias
index holding exactly the pairs (alias, request id) of the live entries. -/
def goodState (s : MoqtSession) : Prop :=
  (s.subscriptions.map Prod.fst).Nodup ∧
  (s.publications.map Prod.fst).Nodup ∧
  ((s.subscriptions ++ s.publications).map
    (fun kv => kv.2.track_alias)).Nodup ∧
  (∀ a r : Nat, (a, r) ∈ s.track_alias_map ↔
    ∃ kv ∈ s.subscriptions ++ s.publications,
      kv.2.track_alias = a ∧ kv.1 = r)

theorem goodState_aliasInvariant (s : MoqtSession) (hg : goodState s) :
    aliasInvariant s := by
  obtain ⟨_, _, _, hinv⟩ := hg
  intro a
  constructor
  · intro hc
    obtain ⟨r, hm⟩ := (dictContains_iff s.track_alias_map a).mp hc
    obtain ⟨kv, hkv, ha, _⟩ := (hinv a r).mp hm
    rcases List.mem_append.mp hkv with h | h
    · exact Or.inl ⟨kv, h, ha⟩
    · exact Or.inr ⟨kv, h, ha⟩
  · intro howner
    rcases howner with ⟨kv, hkv, ha⟩ | ⟨kv, hkv, ha⟩ <;>
      exact (dictContains_iff s.track_alias_map a).mpr
        ⟨kv.1, (hinv a kv.1).mpr ⟨kv, by simp [hkv], ha, rfl⟩⟩

theorem goodState_insert_subs (s : MoqtSession) (rid ta : Nat)
    (ns : TrackNamespace) (name : List Nat)
    (hg : goodState s)
    (hrid : dictContains s.subscriptions rid = false)
    (hta : dictContains s.track_alias_map ta = false) :
    goodState { s with
      subscriptions := dictSet s.subscriptions rid
        { request_id := rid, track_alias := ta,
          track_namespace := ns, track_name := name },
      track_alias_map := dictSet s.track_alias_map ta rid } := by
  obtain ⟨k1, k2, an, inv⟩ := hg
  set ti : TrackInfo :=
    ({ request_id := rid, track_alias := ta, track_namespace := ns, track_name := name } : TrackInfo)
    with hti
  have hnoowner : ∀ kv ∈ s.subscriptions ++ s.publications,
      kv.2.track_alias ≠ ta := by
    intro kv hkv heq
    exact dictContains_false_not_mem _ _ hta kv.1
      ((inv ta kv.1).mpr ⟨kv, hkv, heq, rfl⟩)
  have hsubs : dictSet s.subscriptions rid ti = s.subscriptions ++ [(rid, ti)] :=
    dictSet_append _ _ _ hrid
  have hmap : dictSet s.track_alias_map ta rid
      = s.track_alias_map ++ [(ta, rid)] := dictSet_append _ _ _ hta
  refine ⟨?_, k2, ?_, ?_⟩
  · simp only [hsubs, List.map_append]
    refine List.Nodup.append k1 (by simp) ?_
    intro x hx hy
    simp only [List.map_cons, List.map_nil, List.mem_singleton] at hy
    subst hy
    obtain ⟨⟨k, v⟩, hm, hk⟩ := List.mem_map.mp hx
    simp only at hk
    subst hk
    exact dictContains_false_not_mem _ _ hrid v hm
  · simp only [hsubs]
    have hsh : ((s.subscriptions ++ [(rid, ti)]) ++ s.publications).map
        (fun kv => kv.2.track_alias)
        = s.subscriptions.map (fun kv => kv.2.track_alias) ++ ta ::
          s.publications.map (fun kv => kv.2.track_alias) := by
      simp [hti]
    rw [hsh]
    have hcons : (ta :: (s.subscriptions.map (fun kv => kv.2.track_alias)
        ++ s.publications.map (fun kv => kv.2.track_alias))).Nodup := by
      rw [List.nodup_cons]
      refine ⟨?_, ?_⟩
      · intro hmem
        rw [← List.map_append] at hmem
        obtain ⟨kv, hkv, hk⟩ := List.mem_map.mp hmem
        exact hnoowner kv hkv hk
      · rw [← List.map_append]
        exact an
    exact (List.perm_middle.symm).nodup hcons
  · intro a r
    simp only [hsubs, hmap]
    constructor
    · intro hm
      rcases List.mem_append.mp hm with h | h
      · obtain ⟨kv, hkv, ha, hr⟩ := (inv a r).mp h
        rcases List.mem_append.mp hkv with h2 | h2
        · exact ⟨kv, by simp [h2], ha, hr⟩
        · exact ⟨kv, by simp [h2], ha, hr⟩
      · simp only [List.mem_singleton] at h
        have ha : a = ta := by
          have := congrArg Prod.fst h; simpa using this
        have hr : r = rid := by
          have := congrArg Prod.snd h; simpa using this
        exact ⟨(rid, ti), by simp, by simp [hti, ha], by simp [hr]⟩
    · rintro ⟨kv, hkv, ha, hr⟩
      have hkv2 : kv ∈ (s.subscriptions ++ s.publications) ∨ kv = (rid, ti) := by
        rcases List.mem_append.mp hkv with h2 | h2
        · rcases List.mem_append.mp h2 with h3 | h3
          · exact Or.inl (List.mem_append.mpr (Or.inl h3))
          · simp only [List.mem_singleton] at h3
            exact Or.inr h3
        · exact Or.inl (List.mem_append.mpr (Or.inr h2))
      rcases hkv2 with h2 | h2
      · exact List.mem_append.mpr (Or.inl ((inv a r).mpr ⟨kv, h2, ha, hr⟩))
      · subst h2
        simp only [hti] at ha
        refine List.mem_append.mpr (Or.inr ?_)
        simp [← ha, ← hr]

theorem goodState_insert_pubs (s : MoqtSession) (rid ta : Nat)
    (ns : TrackNamespace) (name : List Nat)
    (hg : goodState s)
    (hrid : dictContains s.publications rid = false)
    (hta : dictContains s.track_alias_map ta = false) :
    goodState { s with
      publications := dictSet s.publications rid
        { request_id := rid, track_alias := ta,
          track_namespace := ns, track_name := name },
      track_alias_map := dictSet s.track_alias_map ta rid } := by
  obtain ⟨k1, k2, an, inv⟩ := hg
  set ti : TrackInfo :=
    ({ request_id := rid, track_alias := ta, track_namespace := ns, track_name := name } : TrackInfo)
    with hti
  have hnoowner : ∀ kv ∈ s.subscriptions ++ s.publications,
      kv.2.track_alias ≠ ta := by
    intro kv hkv heq
    exact dictContains_false_not_mem _ _ hta kv.1
      ((inv ta kv.1).mpr ⟨kv, hkv, heq, rfl⟩)
  have hpubs : dictSet s.publications rid ti = s.publications ++ [(rid, ti)] :=
    dictSet_append _ _ _ hrid
  have hmap : dictSet s.track_alias_map ta rid
      = s.track_alias_map ++ [(ta, rid)] := dictSet_append _ _ _ hta
  refine ⟨k1, ?_, ?_, ?_⟩
  · simp only [hpubs, List.map_append]
    refine List.Nodup.append k2 (by simp) ?_
    intro x hx hy
    simp only [List.map_cons, List.map_nil, List.mem_singleton] at hy
    subst hy
    obtain ⟨⟨k, v⟩, hm, hk⟩ := List.mem_map.mp hx
    simp only at hk
    subst hk
    exact dictContains_false_not_mem _ _ hrid v hm
  · simp only [hpubs]
    have hsh : (s.subscriptions ++ (s.publications ++ [(rid, ti)])).map
        (fun kv => kv.2.track_alias)
        = (s.subscriptions ++ s.publications).map (fun kv => kv.2.track_alias)
          ++ [ta] := by
      simp [hti]
    rw [show s.subscriptions ++ (s.publications ++ [(rid, ti)])
      = s.subscriptions ++ (s.publications ++ [(rid, ti)]) from rfl]
    rw [hsh]
    have hcons : (ta :: (s.subscriptions ++ s.publications).map
        (fun kv => kv.2.track_alias)).Nodup := by
      rw [List.nodup_cons]
      refine ⟨?_, an⟩
      intro hmem
      obtain ⟨kv, hkv, hk⟩ := List.mem_map.mp hmem
      exact hnoowner kv hkv hk
    exact ((List.perm_append_singleton _ _).symm).nodup hcons
  · intro a r
    simp only [hpubs, hmap]
    constructor
    · intro hm
      rcases List.mem_append.mp hm with h | h
      · obtain ⟨kv, hkv, ha, hr⟩ := (inv a r).mp h
        rcases List.mem_append.mp hkv with h2 | h2
        · exact ⟨kv, by simp [h2], ha, hr⟩
        · exact ⟨kv, by simp [h2], ha, hr⟩
      · simp only [List.mem_singleton] at h
        have ha : a = ta := by
          have := congrArg Prod.fst h; simpa using this
        have hr : r = rid := by
          have := congrArg Prod.snd h; simpa using this
        exact ⟨(rid, ti), by simp, by simp [hti, ha], by simp [hr]⟩
    · rintro ⟨kv, hkv, ha, hr⟩
      have hkv2 : kv ∈ (s.subscriptions ++ s.publications) ∨ kv = (rid, ti) := by
        rcases List.mem_append.mp hkv with h2 | h2
        · exact Or.inl (List.mem_append.mpr (Or.inl h2))
        · rcases List.mem_append.mp h2 with h3 | h3
          · exact Or.inl (List.mem_append.mpr (Or.inr h3))
          · simp only [List.mem_singleton] at h3
            exact Or.inr h3
      rcases hkv2 with h2 | h2
      · exact List.mem_append.mpr (Or.inl ((inv a r).mpr ⟨kv, h2, ha, hr⟩))
      · subst h2
        simp only [hti] at ha
        refine List.mem_append.mpr (Or.inr ?_)
        simp [← ha, ← hr]

theorem goodState_remove_subs (s : MoqtSession) (rid : Nat) (ti : TrackInfo)
    (hget : dictGet s.subscriptions rid = some ti) (hg : goodState s) :
    goodState { s with
      subscriptions := dictPop s.subscriptions rid,
      track_alias_map := dictPop s.track_alias_map ti.track_alias } := by
  obtain ⟨k1, k2, an, inv⟩ := hg
  have hmem : (rid, ti) ∈ s.subscriptions := dictGet_some_mem _ _ _ hget
  have hkeyu : ∀ v : TrackInfo, (rid, v) ∈ s.subscriptions → v = ti := by
    intro v hv
    have := List.inj_on_of_nodup_map k1 hv hmem rfl
    exact congrArg Prod.snd this
  have haliasu : ∀ kv ∈ s.subscriptions ++ s.publications,
      kv.2.track_alias = ti.track_alias → kv = (rid, ti) := by
    intro kv hkv heq
    exact List.inj_on_of_nodup_map an hkv
      (List.mem_append.mpr (Or.inl hmem)) heq
  refine ⟨?_, k2, ?_, ?_⟩
  · exact k1.sublist ((dictPop_sublist s.subscriptions rid).map Prod.fst)
  · exact an.sublist
      (((dictPop_sublist s.subscriptions rid).append_right
        s.publications).map (fun kv => kv.2.track_alias))
  · intro a r
    constructor
    · intro hm
      obtain ⟨hmm, hne⟩ := (mem_dictPop _ _ _ _).mp hm
      obtain ⟨kv, hkv, ha, hr⟩ := (inv a r).mp hmm
      have hkne : kv ≠ (rid, ti) := by
        intro he
        rw [he] at ha
        exact hne (by simpa using ha.symm ▸ rfl)
      rcases List.mem_append.mp hkv with h2 | h2
      · have hk2 : kv.1 ≠ rid := by
          intro hk
          have h4 : kv = (rid, kv.2) := by
            cases kv; simp_all
          rw [h4] at h2
          have h5 := hkeyu kv.2 h2
          exact hkne (by rw [h4, h5])
        refine ⟨kv, List.mem_append.mpr (Or.inl ?_), ha, hr⟩
        cases kv with
        | mk x y => exact (mem_dictPop _ _ _ _).mpr ⟨h2, hk2⟩
      · exact ⟨kv, List.mem_append.mpr (Or.inr h2), ha, hr⟩
    · rintro ⟨kv, hkv, ha, hr⟩
      have hkv0 : kv ∈ s.subscriptions ++ s.publications := by
        rcases List.mem_append.mp hkv with h2 | h2
        · exact List.mem_append.mpr (Or.inl
            ((dictPop_sublist s.subscriptions rid).mem h2))
        · exact List.mem_append.mpr (Or.inr h2)
      have hane : a ≠ ti.track_alias := by
        intro haeq
        have hkveq : kv = (rid, ti) := haliasu kv hkv0 (by rw [ha, haeq])
        rcases List.mem_append.mp hkv with h2 | h2
        · rw [hkveq] at h2
          exact absurd ((mem_dictPop _ _ _ _).mp h2).2 (by simp)
        · rw [hkveq] at h2
          have hsubs_alias : ti.track_alias ∈ s.subscriptions.map
              (fun kv => kv.2.track_alias) :=
            List.mem_map.mpr ⟨(rid, ti), hmem, rfl⟩
          have hpubs_alias : ti.track_alias ∈ s.publications.map
              (fun kv => kv.2.track_alias) :=
            List.mem_map.mpr ⟨(rid, ti), h2, rfl⟩
          rw [List.map_append] at an
          exact (List.disjoint_of_nodup_append an) hsubs_alias hpubs_alias
      exact (mem_dictPop _ _ _ _).mpr ⟨(inv a r).mpr ⟨kv, hkv0, ha, hr⟩, hane⟩

theorem goodState_remove_pubs (s : MoqtSession) (rid : Nat) (ti : TrackInfo)
    (hget : dictGet s.publications rid = some ti) (hg : goodState s) :
    goodState { s with
      publications := dictPop s.publications rid,
      track_alias_map := dictPop s.track_alias_map ti.track_alias } := by
  obtain ⟨k1, k2, an, inv⟩ := hg
  have hmem : (rid, ti) ∈ s.publications := dictGet_some_mem _ _ _ hget
  have hkeyu : ∀ v : TrackInfo, (rid, v) ∈ s.publications → v = ti := by
    intro v hv
    have := List.inj_on_of_nodup_map k2 hv hmem rfl
    exact congrArg Prod.snd this
  have haliasu : ∀ kv ∈ s.subscriptions ++ s.publications,
      kv.2.track_alias = ti.track_alias → kv = (rid, ti) := by
    intro kv hkv heq
    exact List.inj_on_of_nodup_map an hkv
      (List.mem_append.mpr (Or.inr hmem)) heq
  refine ⟨k1, ?_, ?_, ?_⟩
  · exact k2.sublist ((dictPop_sublist s.publications rid).map Prod.fst)
  · exact an.sublist
      (((dictPop_sublist s.publications rid).append_left
        s.subscriptions).map (fun kv => kv.2.track_alias))
  · intro a r
    constructor
    · intro hm
      obtain ⟨hmm, hne⟩ := (mem_dictPop _ _ _ _).mp hm
      obtain ⟨kv, hkv, ha, hr⟩ := (inv a r).mp hmm
      have hkne : kv ≠ (rid, ti) := by
        intro he
        rw [he] at ha
        exact hne (by simpa using ha.symm ▸ rfl)
      rcases List.mem_append.mp hkv with h2 | h2
      · exact ⟨kv, List.mem_append.mpr (Or.inl h2), ha, hr⟩
      · have hk2 : kv.1 ≠ rid := by
          intro hk
          have h4 : kv = (rid, kv.2) := by
            cases kv; simp_all
          rw [h4] at h2
          have h5 := hkeyu kv.2 h2
          exact hkne (by rw [h4, h5])
        refine ⟨kv, List.mem_append.mpr (Or.inr ?_), ha, hr⟩
        cases kv with
        | mk x y => exact (mem_dictPop _ _ _ _).mpr ⟨h2, hk2⟩
    · rintro ⟨kv, hkv, ha, hr⟩
      have hkv0 : kv ∈ s.subscriptions ++ s.publications := by
        rcases List.mem_append.mp hkv with h2 | h2
        · exact List.mem_append.mpr (Or.inl h2)
        · exact List.mem_append.mpr (Or.inr
            ((dictPop_sublist s.publications rid).mem h2))
      have hane : a ≠ ti.track_alias := by
        intro haeq
        have hkveq : kv = (rid, ti) := haliasu kv hkv0 (by rw [ha, haeq])
        rcases List.mem_append.mp hkv with h2 | h2
        · rw [hkveq] at h2
          have hsubs_alias : ti.track_alias ∈ s.subscriptions.map
              (fun kv => kv.2.track_alias) :=
            List.mem_map.mpr ⟨(rid, ti), h2, rfl⟩
          have hpubs_alias : ti.track_alias ∈ s.publications.map
              (fun kv => kv.2.track_alias) :=
            List.mem_map.mpr ⟨(rid, ti), hmem, rfl⟩
          rw [List.map_append] at an
          exact (List.disjoint_of_nodup_append an) hsubs_alias hpubs_alias
        · rw [hkveq] at h2
          exact absurd ((mem_dictPop _ _ _ _).mp h2).2 (by simp)
      exact (mem_dictPop _ _ _ _).mpr ⟨(inv a r).mpr ⟨kv, hkv0, ha, hr⟩, hane⟩

/-- Freshness precondition under which an operation preserves the alias
invariant: received SUBSCRIBE/PUBLISH request ids must not already key
their table, and the requester-side inserts must use a request id and a
track alias that are not already taken (the receiver-side handlers check
the alias themselves; nothing in the code checks the request ids, which is
what the counterexample exploits). -/
def opFresh (s : MoqtSession) : TableOp → Prop
  | .recvSubscribe rid _ _ _ _ => dictContains s.subscriptions rid = false
  | .recvPublish rid _ _ _ _ => dictContains s.publications rid = false
  | .subscribeSuccess rid ta _ _ =>
      dictContains s.subscriptions rid = false ∧
      dictContains s.track_alias_map ta = false
  | .publishSuccess rid ta _ _ =>
      dictContains s.publications rid = false ∧
      dictContains s.track_alias_map ta = false
  | _ => True

theorem tableOp_preserves_goodState (s : MoqtSession) (op : TableOp)
    (hg : goodState s) (hf : opFresh s op) :
    goodState (applyTableOp s op) := by
  cases op with
  | recvSubscribe rid ta ns name accept =>
    unfold applyTableOp MoqtSession.handle_subscribe
    by_cases hdup : dictContains s.track_alias_map ta
    · simpa [hdup] using hg
    · by_cases hrej : accept = some false
      · simpa [hdup, hrej] using hg
      · have hta : dictContains s.track_alias_map ta = false :=
          Bool.not_eq_true _ ▸ (by simpa using hdup)
        simpa [hta, hrej] using goodState_insert_subs s rid ta ns name hg hf hta
  | recvPublish rid ta ns name accept =>
    unfold applyTableOp MoqtSession.handle_publish
    by_cases hdup : dictContains s.track_alias_map ta
    · simpa [hdup] using hg
    · by_cases hrej : accept = some false
      · simpa [hdup, hrej] using hg
      · have hta : dictContains s.track_alias_map ta = false :=
          Bool.not_eq_true _ ▸ (by simpa using hdup)
        simpa [hta, hrej] using goodState_insert_pubs s rid ta ns name hg hf hta
  | recvUnsubscribe rid =>
    show goodState (s.handle_unsubscribe rid)
    unfold MoqtSession.handle_unsubscribe
    cases hget : dictGet s.subscriptions rid with
    | none => exact hg
    | some ti => exact goodState_remove_subs s rid ti hget hg
  | localUnsubscribe rid =>
    show goodState (s.handle_unsubscribe rid)
    unfold MoqtSession.handle_unsubscribe
    cases hget : dictGet s.subscriptions rid with
    | none => exact hg
    | some ti => exact goodState_remove_subs s rid ti hget hg
  | sendPublishDone rid sc reason =>
    show goodState (match dictGet s.publications rid with
      | some track_info =>
          { s with publications := dictPop s.publications rid,
                   track_alias_map := dictPop s.track_alias_map
                     track_info.track_alias }
      | none => s)
    cases hget : dictGet s.publications rid with
    | none => exact hg
    | some ti => exact goodState_remove_pubs s rid ti hget hg
  | subscribeSuccess rid ta ns name =>
    unfold applyTableOp MoqtSession.record_subscription
    exact goodState_insert_subs s rid ta ns name hg hf.1 hf.2
  | publishSuccess rid ta ns name =>
    unfold applyTableOp MoqtSession.record_publication
    exact goodState_insert_pubs s rid ta ns name hg hf.1 hf.2

/-- Freshness along a whole operation sequence. -/
def FreshOps (s : MoqtSession) : List TableOp → Prop
  | [] => True
  | op :: ops => opFresh s op ∧ FreshOps (applyTableOp s op) ops

/-- C9 amended: from any state satisfying the inductive invariant (for
instance a fresh session), every sequence of insert/remove operations in
which inserted entries carry fresh request ids (and the requester-side
inserts also fresh aliases) preserves the invariant, so the alias index
holds an alias iff a live TrackInfo owns it.  Without the freshness
condition the invariant fails (see the counterexample): the handlers check
for duplicate aliases but not for duplicate request ids, and an overwrite
of a table entry strands its alias in the index. -/
theorem C9_alias_invariant_amended (s0 : MoqtSession) (ops : List TableOp)
    (hg : goodState s0) (hfresh : FreshOps s0 ops) :
    goodState (runTableOps s0 ops) ∧ aliasInvariant (runTableOps s0 ops) := by
  induction ops generalizing s0 with
  | nil =>
    exact ⟨hg, goodState_aliasInvariant s0 hg⟩
  | cons op ops ih =>
    obtain ⟨hf, hfs⟩ := hfresh
    exact ih (applyTableOp s0 op) (tableOp_preserves_goodState s0 op hg hf) hfs

/-- Witness for the amended C9: a fresh server session accepting one
SUBSCRIBE, one PUBLISH, then removing the subscription keeps the
invariant. -/
theorem C9_alias_invariant_amended_witness :
    goodState (MoqtSession.init Role.server 100) ∧
    FreshOps (MoqtSession.init Role.server 100)
      [TableOp.recvSubscribe 2 5 ⟨[]⟩ [] none,
       TableOp.recvPublish 4 6 ⟨[]⟩ [] none,
       TableOp.recvUnsubscribe 2] ∧
    aliasInvariant (runTableOps (MoqtSession.init Role.server 100)
      [TableOp.recvSubscribe 2 5 ⟨[]⟩ [] none,
       TableOp.recvPublish 4 6 ⟨[]⟩ [] none,
       TableOp.recvUnsubscribe 2]) := by
  have hg : goodState (MoqtSession.init Role.server 100) := by
    refine ⟨by simp [MoqtSession.init], by simp [MoqtSession.init],
      by simp [MoqtSession.init], ?_⟩
    intro a r
    simp [MoqtSession.init]
  have hfresh : FreshOps (MoqtSession.init Role.server 100)
      [TableOp.recvSubscribe 2 5 ⟨[]⟩ [] none,
       TableOp.recvPublish 4 6 ⟨[]⟩ [] none,
       TableOp.recvUnsubscribe 2] := by
    refine ⟨rfl, rfl, trivial, trivial⟩
  exact ⟨hg, hfresh,
    (C9_alias_invariant_amended (MoqtSession.init Role.server 100) _ hg hfresh).2⟩

/- ## Data-stream codec (src/moqt/data_stream.py) -/

/-- Valid `ObjectStatus` codes. -/
def OBJECT_STATUS_VALUES : List Nat := [0x0, 0x1, 0x3, 0x4]

/-- `ObjectExtensions.encode` inner loop over `self.headers.items()`
(the dict is modelled as an insertion-ordered association list with
distinct keys). -/
def ext_headers_encode (headers : List (Nat × List Nat)) :
    Except PyError (List Nat) :=
  match headers with
  | [] => .ok []
  | (header_type, value) :: rest => do
      let tb ← encode_varint header_type
      if header_type % 2 = 1 then
        let lb ← encode_varint value.length
        let restb ← ext_headers_encode rest
        .ok (tb ++ lb ++ value ++ restb)
      else
        let restb ← ext_headers_encode rest
        .ok (tb ++ value ++ restb)

/-- `ObjectExtensions.encode`: nothing but a zero varint for an empty
mapping, otherwise a varint byte length followed by the concatenated
(type, [length], value) triples. -/
def ObjectExtensions.encode (headers : List (Nat × List Nat)) :
    Except PyError (List Nat) :=
  if headers = [] then encode_varint 0
  else do
    let headers_data ← ext_headers_encode headers
    let lb ← encode_varint headers_data.length
    .ok (lb ++ headers_data)

theorem decode_varint_consumed_pos (data : List Nat) (off v c : Nat)
    (h : decode_varint data off = .ok (v, c)) : 0 < c := by
  simp only [decode_varint] at h
  repeat' split at h
  all_goals simp only [Except.ok.injEq, Prod.mk.injEq, reduceCtorEq] at h
  all_goals omega

/-- The `while current_offset < end_offset` loop of
`ObjectExtensions.decode`; the measure is the remaining byte budget. -/
def decode_ext_loop (data : List Nat) (end_offset : Nat) (current : Nat) :
    Except PyError (List (Nat × List Nat) × Nat) :=
  if hlt : current < end_offset then
    match hv : decode_varint data current with
    | .error e => .error e
    | .ok (header_type, consumed) =>
      if header_type % 2 = 1 then
        match decode_varint data (current + consumed) with
        | .error e => .error e
        | .ok (value_length, c2) =>
          let value := pySlice data (current + consumed + c2)
            (current + consumed + c2 + value_length)
          match decode_ext_loop data end_offset
            (current + consumed + c2 + value_length) with
          | .error e => .error e
          | .ok (headers, final) =>
            .ok ((header_type, value) :: headers, final)
      else
        match decode_varint data (current + consumed) with
        | .error e => .error e
        | .ok (_, c2) =>
          let value := pySlice data (current + consumed) (current + consumed + c2)
          match decode_ext_loop data end_offset (current + consumed + c2) with
          | .error e => .error e
          | .ok (headers, final) =>
            .ok ((header_type, value) :: headers, final)
  else
    .ok ([], current)
termination_by end_offset - current
decreasing_by
  · have := decode_varint_consumed_pos data current header_type consumed hv
    omega
  · have := decode_varint_consumed_pos data current header_type consumed hv
    omega

/-- `ObjectExtensions.decode`: total byte length, then the header loop;
consumed count is the final offset minus the start. -/
def ObjectExtensions.decode (data : List Nat) (offset : Nat) :
    Except PyError (List (Nat × List Nat) × Nat) := do
  let (length, consumed) ← decode_varint data offset
  let (headers, final) ← decode_ext_loop data (offset + consumed + length)
    (offset + consumed)
  .ok (headers, final - offset)

/-- The member codes of the `DatagramType` enum, in declaration order. -/
def DATAGRAM_TYPES : List Nat :=
  [0x00, 0x01, 0x02, 0x03, 0x04, 0x05, 0x06, 0x07,
   0x20, 0x21, 0x24, 0x25,
   0x08, 0x09, 0x0A, 0x0B, 0x0C, 0x0D, 0x0E, 0x0F,
   0x28, 0x29, 0x2C, 0x2D]

/-- `DatagramType.has_object_id`: membership blacklist from the source. -/
def DatagramType.has_object_id (v : Nat) : Bool :=
  ! [0x04, 0x05, 0x06, 0x07, 0x24, 0x25, 0x0C, 0x0D, 0x0E, 0x0F,
     0x2C, 0x2D].contains v

/-- `DatagramType.has_extensions`: `(value & 0x01) == 0x01`. -/
def DatagramType.has_extensions (v : Nat) : Bool := (v &&& 0x01) == 0x01

/-- `DatagramType.has_priority`: `value < 0x08 or (0x20 <= value <= 0x25)`. -/
def DatagramType.has_priority (v : Nat) : Bool :=
  decide (v < 0x08) || (decide (0x20 ≤ v) && decide (v ≤ 0x25))

/-- `DatagramType.is_end_of_group`: membership whitelist from the source. -/
def DatagramType.is_end_of_group (v : Nat) : Bool :=
  [0x02, 0x03, 0x06, 0x07, 0x0A, 0x0B, 0x0E, 0x0F].contains v

/-- `DatagramType.has_status`: membership whitelist from the source. -/
def DatagramType.has_status (v : Nat) : Bool :=
  [0x20, 0x21, 0x24, 0x25, 0x28, 0x29, 0x2C, 0x2D].contains v

/-- C8: on every valid datagram type code, the five feature predicates of
`DatagramType` coincide with the bit-layout characterisation: extensions
iff bit 0 is set; object id iff the code is outside
0x04-0x07, 0x0C-0x0F, 0x24-0x25, 0x2C-0x2D; priority iff the code is
outside 0x08-0x0F and 0x28-0x2D; status iff the code is in 0x20-0x2D;
end-of-group exactly on 0x02, 0x03, 0x06, 0x07, 0x0A, 0x0B, 0x0E, 0x0F. -/
theorem C8_datagram_type_predicates (v : Nat) (hv : v ∈ DATAGRAM_TYPES) :
    (DatagramType.has_extensions v = true ↔ v % 2 = 1) ∧
    (DatagramType.has_object_id v = true ↔
      ¬ ((0x04 ≤ v ∧ v ≤ 0x07) ∨ (0x0C ≤ v ∧ v ≤ 0x0F) ∨
         (0x24 ≤ v ∧ v ≤ 0x25) ∨ (0x2C ≤ v ∧ v ≤ 0x2D))) ∧
    (DatagramType.has_priority v = true ↔
      ¬ ((0x08 ≤ v ∧ v ≤ 0x0F) ∨ (0x28 ≤ v ∧ v ≤ 0x2D))) ∧
    (DatagramType.has_status v = true ↔ (0x20 ≤ v ∧ v ≤ 0x2D)) ∧
    (DatagramType.is_end_of_group v = true ↔
      v ∈ [0x02, 0x03, 0x06, 0x07, 0x0A, 0x0B, 0x0E, 0x0F]) := by
  fin_cases hv <;> decide

theorem C8_datagram_type_predicates_witness :
    (0x21 : Nat) ∈ DATAGRAM_TYPES ∧
    ((DatagramType.has_extensions 0x21 = true ↔ (0x21 : Nat) % 2 = 1) ∧
    (DatagramType.has_object_id 0x21 = true ↔
      ¬ ((0x04 ≤ (0x21 : Nat) ∧ (0x21 : Nat) ≤ 0x07) ∨
         (0x0C ≤ (0x21 : Nat) ∧ (0x21 : Nat) ≤ 0x0F) ∨
         (0x24 ≤ (0x21 : Nat) ∧ (0x21 : Nat) ≤ 0x25) ∨
         (0x2C ≤ (0x21 : Nat) ∧ (0x21 : Nat) ≤ 0x2D))) ∧
    (DatagramType.has_priority 0x21 = true ↔
      ¬ ((0x08 ≤ (0x21 : Nat) ∧ (0x21 : Nat) ≤ 0x0F) ∨
         (0x28 ≤ (0x21 : Nat) ∧ (0x21 : Nat) ≤ 0x2D))) ∧
    (DatagramType.has_status 0x21 = true ↔
      (0x20 ≤ (0x21 : Nat) ∧ (0x21 : Nat) ≤ 0x2D)) ∧
    (DatagramType.is_end_of_group 0x21 = true ↔
      (0x21 : Nat) ∈ [0x02, 0x03, 0x06, 0x07, 0x0A, 0x0B, 0x0E, 0x0F])) :=
  ⟨by decide, C8_datagram_type_predicates 0x21 (by decide)⟩

/-- Canonical bytes of one extension header (type, optional length, value). -/
def extHeaderB (p : Nat × List Nat) : List Nat :=
  vbytes p.1 ++ ((if p.1 % 2 = 1 then vbytes p.2.length else []) ++ p.2)

/-- Canonical bytes of an extension-header sequence. -/
def extHeadersB : List (Nat × List Nat) → List Nat
  | [] => []
  | p :: hs => extHeaderB p ++ extHeadersB hs

/-- Canonical bytes of `ObjectExtensions.encode`. -/
def ObjectExtensions.encB (headers : List (Nat × List Nat)) : List Nat :=
  if headers = [] then vbytes 0
  else vbytes (extHeadersB headers).length ++ extHeadersB headers

/-- Validity of one extension header: encodable type; odd types carry bytes
of encodable length, even types carry a canonically encoded varint (the
decoder keeps the raw varint bytes, so only canonical values round trip). -/
def extHeaderValidB (p : Nat × List Nat) : Bool :=
  if p.1 % 2 = 1 then
    decide (p.1 < 2 ^ 62) && decide (p.2.length < 2 ^ 62)
  else
    decide (p.1 < 2 ^ 62) &&
      (match decode_varint p.2 0 with
       | .ok (w, _) => decide (w < 2 ^ 62) && (vbytes w == p.2)
       | .error _ => false)

/-- Validity of an extension mapping: every header valid, distinct header
types (the source stores them in a dict), total length encodable. -/
def extValidB (headers : List (Nat × List Nat)) : Bool :=
  headers.all extHeaderValidB &&
    decide ((headers.map Prod.fst).Nodup) &&
    decide ((extHeadersB headers).length < 2 ^ 62)

theorem extHeaderValidB_odd (p : Nat × List Nat) (hodd : p.1 % 2 = 1)
    (h : extHeaderValidB p = true) : p.1 < 2 ^ 62 ∧ p.2.length < 2 ^ 62 := by
  unfold extHeaderValidB at h
  rw [if_pos hodd] at h
  simp only [Bool.and_eq_true, decide_eq_true_eq] at h
  exact h

theorem extHeaderValidB_even (p : Nat × List Nat) (hodd : ¬ p.1 % 2 = 1)
    (h : extHeaderValidB p = true) :
    p.1 < 2 ^ 62 ∧ ∃ w, w < 2 ^ 62 ∧ p.2 = vbytes w := by
  unfold extHeaderValidB at h
  rw [if_neg hodd] at h
  simp only [Bool.and_eq_true, decide_eq_true_eq] at h
  refine ⟨h.1, ?_⟩
  rcases hd : decode_varint p.2 0 with e | wc
  · rw [hd] at h
    simp at h
  · obtain ⟨w, c⟩ := wc
    rw [hd] at h
    simp only [Bool.and_eq_true, decide_eq_true_eq, beq_iff_eq] at h
    exact ⟨w, h.2.1, h.2.2.symm⟩

theorem extValidB_elim (headers : List (Nat × List Nat))
    (h : extValidB headers = true) :
    (∀ p ∈ headers, extHeaderValidB p = true) ∧
      (extHeadersB headers).length < 2 ^ 62 := by
  unfold extValidB at h
  simp only [Bool.and_eq_true, List.all_eq_true, decide_eq_true_eq] at h
  exact ⟨h.1.1, h.2⟩

theorem vbytes_pos (n : Nat) : 0 < (vbytes n).length := by
  rw [vbytes_length]
  split_ifs <;> norm_num

theorem extHeaderB_pos (p : Nat × List Nat) : 0 < (extHeaderB p).length := by
  unfold extHeaderB
  have := vbytes_pos p.1
  simp only [List.length_append]
  omega

/-- For valid headers the encode loop produces the canonical bytes. -/
theorem ext_headers_encode_eq (headers : List (Nat × List Nat))
    (hv : ∀ p ∈ headers, extHeaderValidB p = true) :
    ext_headers_encode headers = .ok (extHeadersB headers) := by
  induction headers with
  | nil => rfl
  | cons p hs ih =>
    obtain ⟨t, v⟩ := p
    have hp := hv (t, v) (by simp)
    unfold ext_headers_encode extHeadersB
    by_cases hodd : t % 2 = 1
    · obtain ⟨ht, hl⟩ := extHeaderValidB_odd (t, v) hodd hp
    
      rw [encode_varint_eq t ht]
      simp only [except_ok_bind]
      rw [if_pos hodd]
      rw [encode_varint_eq v.length hl]
      simp only [except_ok_bind]
      rw [ih (fun q hq => hv q (by simp [hq]))]
      simp only [except_ok_bind]
      simp [extHeaderB, hodd, List.append_assoc]
    · obtain ⟨ht, -⟩ := extHeaderValidB_even (t, v) hodd hp
      rw [encode_varint_eq t ht]
      simp only [except_ok_bind]
      rw [if_neg hodd]
      rw [ih (fun q hq => hv q (by simp [hq]))]
      simp only [except_ok_bind]
      simp [extHeaderB, hodd, List.append_assoc]

/-- For valid headers `ObjectExtensions.encode` produces the canonical
bytes. -/
theorem ObjectExtensions_encode_eq (headers : List (Nat × List Nat))
    (hv : extValidB headers = true) :
    ObjectExtensions.encode headers = .ok (ObjectExtensions.encB headers) := by
  obtain ⟨hall, hlen⟩ := extValidB_elim headers hv
  unfold ObjectExtensions.encode ObjectExtensions.encB
  by_cases hnil : headers = []
  · rw [if_pos hnil, if_pos hnil]
    exact encode_varint_eq 0 (by norm_num)
  · rw [if_neg hnil, if_neg hnil]
    rw [ext_headers_encode_eq headers hall]
    simp only [except_ok_bind]
    rw [encode_varint_eq _ hlen]
    simp only [except_ok_bind]

/-- Decoding an embedded canonical extension-header sequence recovers the
headers and stops exactly at the end offset. -/
theorem decode_ext_loop_at (headers : List (Nat × List Nat)) (pre rest : List Nat)
    (hv : ∀ p ∈ headers, extHeaderValidB p = true) :
    decode_ext_loop (pre ++ (extHeadersB headers ++ rest))
      (pre.length + (extHeadersB headers).length) pre.length
      = .ok (headers, pre.length + (extHeadersB headers).length) := by
  induction headers generalizing pre with
  | nil =>
    unfold decode_ext_loop
    simp [extHeadersB]
  | cons p hs ih =>
    obtain ⟨t, v⟩ := p
    have hp := hv (t, v) (by simp)
    have ihv : ∀ q ∈ hs, extHeaderValidB q = true := fun q hq => hv q (by simp [hq])
    by_cases hodd : t % 2 = 1
    · obtain ⟨ht, hl⟩ := extHeaderValidB_odd (t, v) hodd hp
      have hshape : extHeadersB ((t, v) :: hs) ++ rest
          = vbytes t ++ (vbytes v.length ++ (v ++ (extHeadersB hs ++ rest))) := by
        simp [extHeadersB, extHeaderB, hodd, List.append_assoc]
      have hlen1 : (extHeadersB ((t, v) :: hs)).length
          = (vbytes t).length + (vbytes v.length).length + v.length
            + (extHeadersB hs).length := by
        simp [extHeadersB, extHeaderB, hodd]
        try omega
      rw [hshape, hlen1]
      unfold decode_ext_loop
      rw [dif_pos (by have := vbytes_pos t; omega)]
      split
      · rename_i e heq
        rw [decode_varint_at pre (vbytes v.length ++ (v ++ (extHeadersB hs ++ rest)))
          t ht] at heq
        exact absurd heq (by simp)
      · rename_i htv consumed heq
        rw [decode_varint_at pre (vbytes v.length ++ (v ++ (extHeadersB hs ++ rest)))
          t ht] at heq
        have h12 : t = htv ∧ (vbytes t).length = consumed := by
          simpa using heq
        obtain ⟨h1, h2⟩ := h12
        subst h1
        subst h2
        rw [if_pos hodd]
        have hv2 := decode_varint_at (pre ++ vbytes t) (v ++ (extHeadersB hs ++ rest))
          v.length hl
        simp only [List.append_assoc, List.length_append] at hv2
        simp only [hv2]
        have hsl := pySlice_at (pre ++ (vbytes t ++ vbytes v.length)) v
          (extHeadersB hs ++ rest)
        simp only [List.append_assoc, List.length_append] at hsl
        simp only [← Nat.add_assoc] at hsl
        have hrec := ih (pre ++ (vbytes t ++ (vbytes v.length ++ v))) ihv
        simp only [List.append_assoc, List.length_append] at hrec
        simp only [← Nat.add_assoc] at hrec
        simp only [← Nat.add_assoc, hsl, hrec]
    · obtain ⟨ht, w, hw, hveq⟩ := extHeaderValidB_even (t, v) hodd hp
      have hveq2 : v = vbytes w := hveq
      have hshape : extHeadersB ((t, v) :: hs) ++ rest
          = vbytes t ++ (vbytes w ++ (extHeadersB hs ++ rest)) := by
        simp [extHeadersB, extHeaderB, hodd, hveq2, List.append_assoc]
      have hlen1 : (extHeadersB ((t, v) :: hs)).length
          = (vbytes t).length + (vbytes w).length + (extHeadersB hs).length := by
        simp [extHeadersB, extHeaderB, hodd, hveq2]
        try omega
      rw [hshape, hlen1]
      unfold decode_ext_loop
      rw [dif_pos (by have := vbytes_pos t; omega)]
      split
      · rename_i e heq
        rw [decode_varint_at pre (vbytes w ++ (extHeadersB hs ++ rest)) t ht] at heq
        exact absurd heq (by simp)
      · rename_i htv consumed heq
        rw [decode_varint_at pre (vbytes w ++ (extHeadersB hs ++ rest)) t ht] at heq
        have h12 : t = htv ∧ (vbytes t).length = consumed := by
          simpa using heq
        obtain ⟨h1, h2⟩ := h12
        subst h1
        subst h2
        rw [if_neg hodd]
        have hv2 := decode_varint_at (pre ++ vbytes t) (extHeadersB hs ++ rest) w hw
        simp only [List.append_assoc, List.length_append] at hv2
        simp only [hv2]
        have hsl := pySlice_at (pre ++ vbytes t) (vbytes w) (extHeadersB hs ++ rest)
        simp only [List.append_assoc, List.length_append] at hsl
        try simp only [← Nat.add_assoc] at hsl
        have hrec := ih (pre ++ (vbytes t ++ vbytes w)) ihv
        simp only [List.append_assoc, List.length_append] at hrec
        simp only [← Nat.add_assoc] at hrec
        simp only [← Nat.add_assoc, hsl, hrec]
        simp [hveq2]

/-- Decoding an embedded canonical extension block recovers the headers and
the block length. -/
theorem ObjectExtensions_decode_at (headers : List (Nat × List Nat))
    (pre rest : List Nat) (hv : extValidB headers = true) :
    ObjectExtensions.decode (pre ++ (ObjectExtensions.encB headers ++ rest))
        pre.length
      = .ok (headers, (ObjectExtensions.encB headers).length) := by
  obtain ⟨hall, hlen⟩ := extValidB_elim headers hv
  by_cases hnil : headers = []
  · subst hnil
    unfold ObjectExtensions.decode ObjectExtensions.encB
    simp only [reduceIte]
    rw [decode_varint_at pre rest 0 (by norm_num)]
    simp only [except_ok_bind]
    have h2 := decode_ext_loop_at [] (pre ++ vbytes 0) rest (by simp)
    simp only [extHeadersB, List.nil_append, List.append_assoc,
      List.length_append, List.length_nil, Nat.add_zero] at h2
    simp only [Nat.add_zero]
    rw [h2]
    simp only [except_ok_bind]
    simp
  · unfold ObjectExtensions.decode ObjectExtensions.encB
    rw [if_neg hnil]
    simp only [List.append_assoc]
    rw [decode_varint_at pre (extHeadersB headers ++ rest)
      (extHeadersB headers).length hlen]
    simp only [except_ok_bind]
    have h2 := decode_ext_loop_at headers
      (pre ++ vbytes (extHeadersB headers).length) rest hall
    simp only [List.append_assoc, List.length_append] at h2
    try simp only [← Nat.add_assoc] at h2
    rw [h2]
    simp only [except_ok_bind]
    simp [List.length_append]
    omega

/-- The member codes of the `SubgroupHeaderType` enum. -/
def SUBGROUP_HEADER_TYPES : List Nat :=
  [0x10, 0x11, 0x12, 0x13, 0x14, 0x15,
   0x18, 0x19, 0x1A, 0x1B, 0x1C, 0x1D,
   0x30, 0x31, 0x32, 0x33, 0x34, 0x35,
   0x38, 0x39, 0x3A, 0x3B, 0x3C, 0x3D]

/-- `SubgroupHeaderType.subgroup_id_mode`: low nibble decides how the
subgroup id is obtained. -/
def SubgroupHeaderType.subgroup_id_mode (v : Nat) : String :=
  let low_nibble := v &&& 0x0F
  if [0x00, 0x01, 0x08, 0x09].contains low_nibble then "zero"
  else if [0x02, 0x03, 0x0A, 0x0B].contains low_nibble then "first_object"
  else "present"

/-- `SubgroupHeaderType.has_extensions`: `(value & 0x01) == 0x01`. -/
def SubgroupHeaderType.has_extensions (v : Nat) : Bool := (v &&& 0x01) == 0x01

/-- `SubgroupHeaderType.has_priority`: `value < 0x30`. -/
def SubgroupHeaderType.has_priority (v : Nat) : Bool := decide (v < 0x30)

/-- `SubgroupHeaderType.contains_end_of_group`: low nibble at least 8. -/
def SubgroupHeaderType.contains_end_of_group (v : Nat) : Bool :=
  decide (v &&& 0x0F ≥ 0x08)

/-- `SubgroupHeader` (data_stream.py); the header type is kept as its code. -/
structure SubgroupHeader where
  header_type : Nat
  track_alias : Nat
  group_id : Nat
  subgroup_id : Option Nat
  publisher_priority : Option Nat
  deriving Repr, DecidableEq

/-- `SubgroupHeader.encode`: type, track alias, group id, subgroup id only
in "present" mode (required there), priority byte (`or 0`) when the type
carries priority. -/
def SubgroupHeader.encode (h : SubgroupHeader) : Except PyError (List Nat) := do
  let tb ← encode_varint h.header_type
  let ab ← encode_varint h.track_alias
  let gb ← encode_varint h.group_id
  let sb ←
    if SubgroupHeaderType.subgroup_id_mode h.header_type = "present" then
      match h.subgroup_id with
      | none => Except.error (.valueError "Subgroup ID required")
      | some sid => encode_varint sid
    else pure []
  let pb :=
    if SubgroupHeaderType.has_priority h.header_type then
      [h.publisher_priority.getD 0]
    else []
  .ok (tb ++ ab ++ gb ++ sb ++ pb)

/-- `decode_subgroup_header`: the enum construction validates the type code
before the remaining fields are read; "zero" mode forces subgroup id 0,
"first_object" leaves it unset, "present" reads a varint; the priority byte
is an unguarded index access in the source, modelled as `indexError` when
out of range. -/
def decode_subgroup_header (data : List Nat) (offset : Nat) :
    Except PyError (SubgroupHeader × Nat) := do
  let (header_type_val, c1) ← decode_varint data offset
  if SUBGROUP_HEADER_TYPES.contains header_type_val then
    let (track_alias, c2) ← decode_varint data (offset + c1)
    let (group_id, c3) ← decode_varint data (offset + c1 + c2)
    let (subgroup_id, c4) ←
      if SubgroupHeaderType.subgroup_id_mode header_type_val = "zero" then
        pure (some 0, 0)
      else if SubgroupHeaderType.subgroup_id_mode header_type_val = "present" then do
        let (sid, c) ← decode_varint data (offset + c1 + c2 + c3)
        pure (some sid, c)
      else pure ((none : Option Nat), 0)
    let (publisher_priority, c5) ←
      if SubgroupHeaderType.has_priority header_type_val then
        if data.length ≤ offset + c1 + c2 + c3 + c4 then
          Except.error (.indexError)
        else
          pure (some (data.getD (offset + c1 + c2 + c3 + c4) 0), 1)
      else pure ((none : Option Nat), 0)
    .ok ({ header_type := header_type_val, track_alias := track_alias,
           group_id := group_id, subgroup_id := subgroup_id,
           publisher_priority := publisher_priority },
         c1 + c2 + c3 + c4 + c5)
  else
    .error (.valueError ("invalid SubgroupHeaderType: "
      ++ toString header_type_val))

/-- `SubgroupObject` (data_stream.py). -/
structure SubgroupObject where
  object_id_delta : Nat
  extensions : Option (List (Nat × List Nat))
  payload_length : Nat
  object_status : Option Nat
  payload : List Nat
  deriving Repr, DecidableEq

/-- `SubgroupObject.encode`: delta, extensions (or a zero varint) when the
stream carries extensions, payload length, then either the status varint
(zero length and a status) or the payload bytes. -/
def SubgroupObject.encode (o : SubgroupObject) (extensions_present : Bool) :
    Except PyError (List Nat) := do
  let db ← encode_varint o.object_id_delta
  let eb ←
    if extensions_present then
      match o.extensions with
      | some ext => ObjectExtensions.encode ext
      | none => encode_varint 0
    else pure []
  let lb ← encode_varint o.payload_length
  let tb ←
    if o.payload_length = 0 then
      match o.object_status with
      | some st => encode_varint st
      | none => pure o.payload
    else pure o.payload
  .ok (db ++ eb ++ lb ++ tb)

/-- `decode_subgroup_object`: delta, extensions when present, payload
length; a zero payload length always reads a status varint (validated
against `ObjectStatus`), otherwise the payload bytes follow. -/
def decode_subgroup_object (data : List Nat) (extensions_present : Bool)
    (offset : Nat) : Except PyError (SubgroupObject × Nat) := do
  let (object_id_delta, c1) ← decode_varint data offset
  let (extensions, c2) ←
    if extensions_present then do
      let (ext, c) ← ObjectExtensions.decode data (offset + c1)
      pure (some ext, c)
    else pure ((none : Option (List (Nat × List Nat))), 0)
  let (payload_length, c3) ← decode_varint data (offset + c1 + c2)
  if payload_length = 0 then do
    let (status_val, c4) ← decode_varint data (offset + c1 + c2 + c3)
    if OBJECT_STATUS_VALUES.contains status_val then
      .ok ({ object_id_delta := object_id_delta, extensions := extensions,
             payload_length := payload_length,
             object_status := some status_val, payload := [] },
           c1 + c2 + c3 + c4)
    else
      .error (.valueError ("invalid ObjectStatus: " ++ toString status_val))
  else
    .ok ({ object_id_delta := object_id_delta, extensions := extensions,
           payload_length := payload_length, object_status := none,
           payload := pySlice data (offset + c1 + c2 + c3)
             (offset + c1 + c2 + c3 + payload_length) },
         c1 + c2 + c3 + payload_length)

/-- Validity of a subgroup header: a real type code, varint-range ids, and
the subgroup-id / priority fields exactly as the type's mode demands (the
decoder materialises subgroup id 0 in "zero" mode and a priority byte
whenever the type carries one, so only such headers round trip). -/
def SubgroupHeader.validB (h : SubgroupHeader) : Bool :=
  SUBGROUP_HEADER_TYPES.contains h.header_type &&
  decide (h.track_alias < 2 ^ 62) &&
  decide (h.group_id < 2 ^ 62) &&
  (if SubgroupHeaderType.subgroup_id_mode h.header_type = "zero" then
     h.subgroup_id == some 0
   else if SubgroupHeaderType.subgroup_id_mode h.header_type = "present" then
     match h.subgroup_id with
     | some sid => decide (sid < 2 ^ 62)
     | none => false
   else h.subgroup_id == none) &&
  (if SubgroupHeaderType.has_priority h.header_type then
     match h.publisher_priority with
     | some p => decide (p < 256)
     | none => false
   else h.publisher_priority == none)

/-- Canonical bytes of an encoded subgroup header. -/
def SubgroupHeader.encB (h : SubgroupHeader) : List Nat :=
  vbytes h.header_type ++
    (vbytes h.track_alias ++
      (vbytes h.group_id ++
        ((if SubgroupHeaderType.subgroup_id_mode h.header_type = "present" then
            vbytes (h.subgroup_id.getD 0)
          else []) ++
         (if SubgroupHeaderType.has_priority h.header_type then
            [h.publisher_priority.getD 0]
          else []))))

theorem subgroup_type_lt (v : Nat)
    (hv : SUBGROUP_HEADER_TYPES.contains v = true) : v < 2 ^ 62 := by
  simp [SUBGROUP_HEADER_TYPES] at hv
  omega

theorem SubgroupHeader_validB_elim (h : SubgroupHeader)
    (hv : h.validB = true) :
    SUBGROUP_HEADER_TYPES.contains h.header_type = true ∧
    h.track_alias < 2 ^ 62 ∧ h.group_id < 2 ^ 62 ∧
    (if SubgroupHeaderType.subgroup_id_mode h.header_type = "zero" then
       h.subgroup_id = some 0
     else if SubgroupHeaderType.subgroup_id_mode h.header_type = "present" then
       ∃ sid, sid < 2 ^ 62 ∧ h.subgroup_id = some sid
     else h.subgroup_id = none) ∧
    (if SubgroupHeaderType.has_priority h.header_type then
       ∃ p, p < 256 ∧ h.publisher_priority = some p
     else h.publisher_priority = none) := by
  unfold SubgroupHeader.validB at hv
  simp only [Bool.and_eq_true, decide_eq_true_eq] at hv
  obtain ⟨⟨⟨⟨hmem, hta⟩, hg⟩, hsb⟩, hpb⟩ := hv
  refine ⟨hmem, hta, hg, ?_, ?_⟩
  · split at hsb
    · rename_i hc
      rw [if_pos hc]
      exact beq_iff_eq.mp hsb
    · split at hsb
      · rename_i hc hc2
        rw [if_neg hc, if_pos hc2]
        cases hs : h.subgroup_id with
        | none => rw [hs] at hsb; exact absurd hsb (by simp)
        | some sid =>
          rw [hs] at hsb
          simp only [decide_eq_true_eq] at hsb
          exact ⟨sid, hsb, rfl⟩
      · rename_i hc hc2
        rw [if_neg hc, if_neg hc2]
        exact beq_iff_eq.mp hsb
  · split at hpb
    · rename_i hc
      rw [if_pos hc]
      cases hs : h.publisher_priority with
      | none => rw [hs] at hpb; exact absurd hpb (by simp)
      | some p =>
        rw [hs] at hpb
        simp only [decide_eq_true_eq] at hpb
        exact ⟨p, hpb, rfl⟩
    · rename_i hc
      rw [if_neg hc]
      exact beq_iff_eq.mp hpb

theorem except_pure_bind {ε α β : Type} (a : α) (f : α → Except ε β) :
    (pure a : Except ε α) >>= f = f a := rfl

/-- For valid headers `SubgroupHeader.encode` produces the canonical
bytes. -/
theorem SubgroupHeader_encode_eq (h : SubgroupHeader) (hv : h.validB = true) :
    h.encode = .ok h.encB := by
  obtain ⟨hmem, hta, hg, hsb, hpb⟩ := SubgroupHeader_validB_elim h hv
  have htlt := subgroup_type_lt h.header_type hmem
  unfold SubgroupHeader.encode SubgroupHeader.encB
  rw [encode_varint_eq h.header_type htlt]
  simp only [except_ok_bind]
  rw [encode_varint_eq h.track_alias hta]
  simp only [except_ok_bind]
  rw [encode_varint_eq h.group_id hg]
  simp only [except_ok_bind]
  by_cases hpres : SubgroupHeaderType.subgroup_id_mode h.header_type = "present"
  · have hz : ¬ SubgroupHeaderType.subgroup_id_mode h.header_type = "zero" := by
      rw [hpres]
      decide
    rw [if_neg hz, if_pos hpres] at hsb
    obtain ⟨sid, hslt, hseq⟩ := hsb
    rw [if_pos hpres, hseq]
    simp only [encode_varint_eq sid hslt, except_ok_bind]
    simp [List.append_assoc, hpres]
  · rw [if_neg hpres]
    simp only [except_pure_bind]
    simp [List.append_assoc, hpres]


/-- Decoding an embedded canonical subgroup header recovers the header and
its byte length. -/
theorem decode_subgroup_header_at (h : SubgroupHeader) (pre rest : List Nat)
    (hv : h.validB = true) :
    decode_subgroup_header (pre ++ (h.encB ++ rest)) pre.length
      = .ok (h, h.encB.length) := by
  obtain ⟨hmem, hta, hg, hsb, hpb⟩ := SubgroupHeader_validB_elim h hv
  have htlt := subgroup_type_lt h.header_type hmem
  obtain ⟨ht, ta, gid, sgid, pp⟩ := h
  simp only at hmem hta hg hsb hpb htlt
  unfold decode_subgroup_header SubgroupHeader.encB
  simp only [List.append_assoc]
  by_cases hzero : SubgroupHeaderType.subgroup_id_mode ht = "zero"
  all_goals try rw [if_pos hzero] at hsb
  case pos =>
    have hnp : ¬ SubgroupHeaderType.subgroup_id_mode ht = "present" := by
      rw [hzero]
      decide
    rw [if_neg hnp]
    simp only [List.nil_append]
    by_cases hpr : SubgroupHeaderType.has_priority ht = true
    case pos =>
      rw [if_pos hpr] at hpb ⊢
      obtain ⟨p, hplt, hpeq⟩ := hpb
      rw [hpeq]
      simp only [Option.getD_some]
      rw [decode_varint_at pre (vbytes ta ++ (vbytes gid ++ ([p] ++ rest))) ht htlt]
      simp only [except_ok_bind]
      rw [if_pos hmem]
      have h2 := decode_varint_at (pre ++ vbytes ht) (vbytes gid ++ ([p] ++ rest)) ta hta
      simp only [List.append_assoc, List.length_append] at h2
      try simp only [← Nat.add_assoc] at h2
      rw [h2]
      simp only [except_ok_bind]
      have h3 := decode_varint_at (pre ++ (vbytes ht ++ vbytes ta)) ([p] ++ rest) gid hg
      simp only [List.append_assoc, List.length_append] at h3
      try simp only [← Nat.add_assoc] at h3
      rw [h3]
      simp only [except_ok_bind]
      rw [if_pos hzero]
      simp only [except_pure_bind]
      rw [if_pos hpr]
      rw [if_neg (by simp only [List.length_append, List.length_cons,
        List.length_nil]; omega)]
      have hgd := getD_middle (pre ++ (vbytes ht ++ (vbytes ta ++ vbytes gid)))
        [p] rest 0 (by simp)
      simp only [List.append_assoc, List.length_append, Nat.add_zero] at hgd
      try simp only [← Nat.add_assoc] at hgd
      simp only [Nat.add_zero]
      rw [hgd]
      try simp only [except_pure_bind]
      simp [hsb, List.length_append]
      try omega
    case neg =>
      rw [if_neg hpr] at hpb ⊢
      simp only [List.nil_append, List.append_nil]
      rw [decode_varint_at pre (vbytes ta ++ (vbytes gid ++ rest)) ht htlt]
      simp only [except_ok_bind]
      rw [if_pos hmem]
      have h2 := decode_varint_at (pre ++ vbytes ht) (vbytes gid ++ rest) ta hta
      simp only [List.append_assoc, List.length_append] at h2
      try simp only [← Nat.add_assoc] at h2
      rw [h2]
      simp only [except_ok_bind]
      have h3 := decode_varint_at (pre ++ (vbytes ht ++ vbytes ta)) (rest) gid hg
      simp only [List.append_assoc, List.length_append] at h3
      try simp only [← Nat.add_assoc] at h3
      rw [h3]
      simp only [except_ok_bind]
      rw [if_pos hzero]
      simp only [except_pure_bind]
      rw [if_neg hpr]
      simp only [except_pure_bind, Nat.add_zero]
      simp [hsb, hpb, List.length_append]
      try omega
  case neg =>
    by_cases hpres : SubgroupHeaderType.subgroup_id_mode ht = "present"
    case pos =>
      rw [if_neg hzero, if_pos hpres] at hsb
      obtain ⟨sid, hslt, hseq⟩ := hsb
      rw [if_pos hpres, hseq]
      simp only [Option.getD_some]
      by_cases hpr : SubgroupHeaderType.has_priority ht = true
      case pos =>
        rw [if_pos hpr] at hpb ⊢
        obtain ⟨p, hplt, hpeq⟩ := hpb
        rw [hpeq]
        simp only [Option.getD_some]
        rw [decode_varint_at pre (vbytes ta ++ (vbytes gid ++ (vbytes sid ++ ([p] ++ rest)))) ht htlt]
        simp only [except_ok_bind]
        rw [if_pos hmem]
        have h2 := decode_varint_at (pre ++ vbytes ht) (vbytes gid ++ (vbytes sid ++ ([p] ++ rest))) ta hta
        simp only [List.append_assoc, List.length_append] at h2
        try simp only [← Nat.add_assoc] at h2
        rw [h2]
        simp only [except_ok_bind]
        have h3 := decode_varint_at (pre ++ (vbytes ht ++ vbytes ta)) (vbytes sid ++ ([p] ++ rest)) gid hg
        simp only [List.append_assoc, List.length_append] at h3
        try simp only [← Nat.add_assoc] at h3
        rw [h3]
        simp only [except_ok_bind]
        rw [if_neg hzero, if_pos hpres]
        have h4 := decode_varint_at
          (pre ++ (vbytes ht ++ (vbytes ta ++ vbytes gid))) ([p] ++ rest) sid hslt
        simp only [List.append_assoc, List.length_append] at h4
        try simp only [← Nat.add_assoc] at h4
        rw [h4]
        simp only [except_ok_bind, except_pure_bind]
        rw [if_pos hpr]
        rw [if_neg (by simp only [List.length_append, List.length_cons,
          List.length_nil]; omega)]
        have hgd := getD_middle
          (pre ++ (vbytes ht ++ (vbytes ta ++ (vbytes gid ++ vbytes sid))))
          [p] rest 0 (by simp)
        simp only [List.append_assoc, List.length_append, Nat.add_zero] at hgd
        try simp only [← Nat.add_assoc] at hgd
        rw [hgd]
        try simp only [except_pure_bind]
        simp [hseq, List.length_append]
        try omega
      case neg =>
        rw [if_neg hpr] at hpb ⊢
        simp only [List.nil_append, List.append_nil]
        rw [decode_varint_at pre (vbytes ta ++ (vbytes gid ++ (vbytes sid ++ rest))) ht htlt]
        simp only [except_ok_bind]
        rw [if_pos hmem]
        have h2 := decode_varint_at (pre ++ vbytes ht) (vbytes gid ++ (vbytes sid ++ rest)) ta hta
        simp only [List.append_assoc, List.length_append] at h2
        try simp only [← Nat.add_assoc] at h2
        rw [h2]
        simp only [except_ok_bind]
        have h3 := decode_varint_at (pre ++ (vbytes ht ++ vbytes ta)) (vbytes sid ++ rest) gid hg
        simp only [List.append_assoc, List.length_append] at h3
        try simp only [← Nat.add_assoc] at h3
        rw [h3]
        simp only [except_ok_bind]
        rw [if_neg hzero, if_pos hpres]
        have h4 := decode_varint_at
          (pre ++ (vbytes ht ++ (vbytes ta ++ vbytes gid))) rest sid hslt
        simp only [List.append_assoc, List.length_append] at h4
        try simp only [← Nat.add_assoc] at h4
        rw [h4]
        simp only [except_ok_bind, except_pure_bind]
        rw [if_neg hpr]
        simp only [except_pure_bind, Nat.add_zero]
        simp [hseq, hpb, List.length_append]
        try omega
    case neg =>
      rw [if_neg hzero, if_neg hpres] at hsb
      rw [if_neg hpres]
      simp only [List.nil_append]
      by_cases hpr : SubgroupHeaderType.has_priority ht = true
      case pos =>
        rw [if_pos hpr] at hpb ⊢
        obtain ⟨p, hplt, hpeq⟩ := hpb
        rw [hpeq]
        simp only [Option.getD_some]
        rw [decode_varint_at pre (vbytes ta ++ (vbytes gid ++ ([p] ++ rest))) ht htlt]
        simp only [except_ok_bind]
        rw [if_pos hmem]
        have h2 := decode_varint_at (pre ++ vbytes ht) (vbytes gid ++ ([p] ++ rest)) ta hta
        simp only [List.append_assoc, List.length_append] at h2
        try simp only [← Nat.add_assoc] at h2
        rw [h2]
        simp only [except_ok_bind]
        have h3 := decode_varint_at (pre ++ (vbytes ht ++ vbytes ta)) ([p] ++ rest) gid hg
        simp only [List.append_assoc, List.length_append] at h3
        try simp only [← Nat.add_assoc] at h3
        rw [h3]
        simp only [except_ok_bind]
        rw [if_neg hzero, if_neg hpres]
        simp only [except_pure_bind]
        rw [if_pos hpr]
        rw [if_neg (by simp only [List.length_append, List.length_cons,
          List.length_nil]; omega)]
        have hgd := getD_middle (pre ++ (vbytes ht ++ (vbytes ta ++ vbytes gid)))
          [p] rest 0 (by simp)
        simp only [List.append_assoc, List.length_append, Nat.add_zero] at hgd
        try simp only [← Nat.add_assoc] at hgd
        simp only [Nat.add_zero]
        rw [hgd]
        try simp only [except_pure_bind]
        simp [hsb, List.length_append]
        try omega
      case neg =>
        rw [if_neg hpr] at hpb ⊢
        simp only [List.nil_append, List.append_nil]
        rw [decode_varint_at pre (vbytes ta ++ (vbytes gid ++ rest)) ht htlt]
        simp only [except_ok_bind]
        rw [if_pos hmem]
        have h2 := decode_varint_at (pre ++ vbytes ht) (vbytes gid ++ rest) ta hta
        simp only [List.append_assoc, List.length_append] at h2
        try simp only [← Nat.add_assoc] at h2
        rw [h2]
        simp only [except_ok_bind]
        have h3 := decode_varint_at (pre ++ (vbytes ht ++ vbytes ta)) (rest) gid hg
        simp only [List.append_assoc, List.length_append] at h3
        try simp only [← Nat.add_assoc] at h3
        rw [h3]
        simp only [except_ok_bind]
        rw [if_neg hzero, if_neg hpres]
        simp only [except_pure_bind]
        rw [if_neg hpr]
        simp only [except_pure_bind, Nat.add_zero]
        simp [hsb, hpb, List.length_append]
        try omega

/-- Validity of a subgroup object for a stream with/without extensions:
encodable delta and length, an extensions mapping exactly when the stream
carries one, and either (zero length) a valid status with empty payload or
(positive length) no status and a payload of the stated length. -/
def SubgroupObject.validB (o : SubgroupObject) (extensions_present : Bool) :
    Bool :=
  decide (o.object_id_delta < 2 ^ 62) &&
  decide (o.payload_length < 2 ^ 62) &&
  (if extensions_present then
     match o.extensions with
     | some ext => extValidB ext
     | none => false
   else o.extensions == none) &&
  (if o.payload_length = 0 then
     match o.object_status with
     | some st => OBJECT_STATUS_VALUES.contains st && (o.payload == [])
     | none => false
   else (o.object_status == none) && (o.payload.length == o.payload_length))

/-- Canonical bytes of an encoded subgroup object. -/
def SubgroupObject.encB (o : SubgroupObject) (extensions_present : Bool) :
    List Nat :=
  vbytes o.object_id_delta ++
    ((if extensions_present then ObjectExtensions.encB (o.extensions.getD [])
      else []) ++
     (vbytes o.payload_length ++
      (if o.payload_length = 0 then vbytes (o.object_status.getD 0)
       else o.payload)))

theorem SubgroupObject_validB_elim (o : SubgroupObject)
    (extensions_present : Bool) (hv : o.validB extensions_present = true) :
    o.object_id_delta < 2 ^ 62 ∧ o.payload_length < 2 ^ 62 ∧
    (if extensions_present then
       ∃ ext, o.extensions = some ext ∧ extValidB ext = true
     else o.extensions = none) ∧
    (if o.payload_length = 0 then
       ∃ st, o.object_status = some st ∧
         OBJECT_STATUS_VALUES.contains st = true ∧ o.payload = []
     else o.object_status = none ∧ o.payload.length = o.payload_length) := by
  unfold SubgroupObject.validB at hv
  simp only [Bool.and_eq_true, decide_eq_true_eq] at hv
  obtain ⟨⟨⟨hd, hl⟩, hext⟩, htail⟩ := hv
  refine ⟨hd, hl, ?_, ?_⟩
  · cases extensions_present with
    | true =>
      rw [if_pos rfl] at hext ⊢
      cases he : o.extensions with
      | none => rw [he] at hext; exact absurd hext (by simp)
      | some ext => rw [he] at hext; exact ⟨ext, rfl, hext⟩
    | false =>
      rw [if_neg (by simp)] at hext ⊢
      exact beq_iff_eq.mp hext
  · by_cases hz : o.payload_length = 0
    · rw [if_pos hz] at htail ⊢
      cases hs : o.object_status with
      | none => rw [hs] at htail; exact absurd htail (by simp)
      | some st =>
        rw [hs] at htail
        simp only [Bool.and_eq_true, beq_iff_eq] at htail
        exact ⟨st, rfl, htail.1, htail.2⟩
    · rw [if_neg hz] at htail ⊢
      simp only [Bool.and_eq_true, beq_iff_eq] at htail
      exact htail

theorem object_status_lt (st : Nat)
    (hc : OBJECT_STATUS_VALUES.contains st = true) : st < 2 ^ 62 := by
  simp [OBJECT_STATUS_VALUES] at hc
  omega

/-- For valid objects `SubgroupObject.encode` produces the canonical
bytes. -/
theorem SubgroupObject_encode_eq (o : SubgroupObject)
    (extensions_present : Bool) (hv : o.validB extensions_present = true) :
    o.encode extensions_present = .ok (o.encB extensions_present) := by
  obtain ⟨hd, hl, hext, htail⟩ := SubgroupObject_validB_elim o
    extensions_present hv
  unfold SubgroupObject.encode SubgroupObject.encB
  rw [encode_varint_eq o.object_id_delta hd]
  simp only [except_ok_bind]
  cases extensions_present with
  | true =>
    rw [if_pos rfl] at hext
    obtain ⟨ext, hexteq, hextv⟩ := hext
    simp only [if_pos rfl, hexteq, Option.getD_some]
    rw [ObjectExtensions_encode_eq ext hextv]
    simp only [except_ok_bind]
    rw [encode_varint_eq o.payload_length hl]
    simp only [except_ok_bind]
    by_cases hz : o.payload_length = 0
    · rw [if_pos hz] at htail
      obtain ⟨st, hsteq, hstc, hpe⟩ := htail
      simp only [if_pos hz, hsteq, Option.getD_some]
      rw [encode_varint_eq st (object_status_lt st hstc)]
      simp only [except_ok_bind]
      simp [List.append_assoc]
    · rw [if_neg hz] at htail
      simp only [if_neg hz]
      try simp only [except_pure_bind]
      simp [List.append_assoc]
  | false =>
    rw [if_neg (by simp)] at hext
    simp only [Bool.false_eq_true, if_false]
    simp only [except_pure_bind]
    rw [encode_varint_eq o.payload_length hl]
    simp only [except_ok_bind]
    by_cases hz : o.payload_length = 0
    · rw [if_pos hz] at htail
      obtain ⟨st, hsteq, hstc, hpe⟩ := htail
      simp only [if_pos hz, hsteq, Option.getD_some]
      rw [encode_varint_eq st (object_status_lt st hstc)]
      simp only [except_ok_bind]
      simp [List.append_assoc]
    · rw [if_neg hz] at htail
      simp only [if_neg hz]
      try simp only [except_pure_bind]
      simp [List.append_assoc]

/-- Decoding an embedded canonical subgroup object recovers the object and
its byte length. -/
theorem decode_subgroup_object_at (o : SubgroupObject) (ep : Bool)
    (pre rest : List Nat) (hv : o.validB ep = true) :
    decode_subgroup_object (pre ++ (o.encB ep ++ rest)) ep pre.length
      = .ok (o, (o.encB ep).length) := by
  obtain ⟨hd, hl, hext, htail⟩ := SubgroupObject_validB_elim o ep hv
  obtain ⟨d, exts, pl, st, pay⟩ := o
  simp only at hd hl hext htail
  unfold decode_subgroup_object SubgroupObject.encB
  simp only [List.append_assoc]
  cases ep with
  | true =>
    rw [if_pos rfl] at hext
    obtain ⟨ext, hexteq, hextv⟩ := hext
    simp only [hexteq, Option.getD_some, reduceIte]
    rw [decode_varint_at pre
      (ObjectExtensions.encB ext ++
        (vbytes pl ++ ((if pl = 0 then vbytes (st.getD 0) else pay) ++ rest)))
      d hd]
    simp only [except_ok_bind]
    have h2 := ObjectExtensions_decode_at ext (pre ++ vbytes d)
      (vbytes pl ++ ((if pl = 0 then vbytes (st.getD 0) else pay) ++ rest)) hextv
    simp only [List.append_assoc, List.length_append] at h2
    try simp only [← Nat.add_assoc] at h2
    rw [h2]
    simp only [except_ok_bind, except_pure_bind]
    have h3 := decode_varint_at
      (pre ++ (vbytes d ++ ObjectExtensions.encB ext))
      ((if pl = 0 then vbytes (st.getD 0) else pay) ++ rest) pl hl
    simp only [List.append_assoc, List.length_append] at h3
    try simp only [← Nat.add_assoc] at h3
    rw [h3]
    simp only [except_ok_bind]
    by_cases hz : pl = 0
    · rw [if_pos hz] at htail
      obtain ⟨stv, hsteq, hstc, hpe⟩ := htail
      simp only [if_pos hz, hsteq, Option.getD_some]
      have h4 := decode_varint_at
        (pre ++ (vbytes d ++ (ObjectExtensions.encB ext ++ vbytes pl)))
        rest stv (object_status_lt stv hstc)
      simp only [List.append_assoc, List.length_append] at h4
      try simp only [← Nat.add_assoc] at h4
      rw [h4]
      simp only [except_ok_bind]
      rw [if_pos hstc]
      simp [hsteq, hpe, hz, List.length_append]
      try omega
    · rw [if_neg hz] at htail
      obtain ⟨hstn, hplen⟩ := htail
      simp only [if_neg hz]
      have h5 := pySlice_at
        (pre ++ (vbytes d ++ (ObjectExtensions.encB ext ++ vbytes pl))) pay rest
      simp only [List.append_assoc, List.length_append] at h5
      try simp only [← Nat.add_assoc] at h5
      rw [hplen] at h5
      rw [h5]
      simp [hstn, hz, hplen, List.length_append]
      try omega
  | false =>
    rw [if_neg (by simp)] at hext
    simp only [hext, Bool.false_eq_true, if_false, List.nil_append]
    rw [decode_varint_at pre
      (vbytes pl ++ ((if pl = 0 then vbytes (st.getD 0) else pay) ++ rest)) d hd]
    simp only [except_ok_bind, except_pure_bind, List.nil_append]
    have h3 := decode_varint_at (pre ++ vbytes d)
      ((if pl = 0 then vbytes (st.getD 0) else pay) ++ rest) pl hl
    simp only [List.append_assoc, List.length_append] at h3
    try simp only [← Nat.add_assoc] at h3
    simp only [Nat.add_zero]
    rw [h3]
    simp only [except_ok_bind]
    by_cases hz : pl = 0
    · rw [if_pos hz] at htail
      obtain ⟨stv, hsteq, hstc, hpe⟩ := htail
      simp only [if_pos hz, hsteq, Option.getD_some]
      have h4 := decode_varint_at (pre ++ (vbytes d ++ vbytes pl))
        rest stv (object_status_lt stv hstc)
      simp only [List.append_assoc, List.length_append] at h4
      try simp only [← Nat.add_assoc] at h4
      rw [h4]
      simp only [except_ok_bind]
      rw [if_pos hstc]
      simp [hsteq, hpe, hz, List.length_append]
      try omega
    · rw [if_neg hz] at htail
      obtain ⟨hstn, hplen⟩ := htail
      simp only [if_neg hz]
      have h5 := pySlice_at (pre ++ (vbytes d ++ vbytes pl)) pay rest
      simp only [List.append_assoc, List.length_append] at h5
      try simp only [← Nat.add_assoc] at h5
      rw [hplen] at h5
      rw [h5]
      simp [hstn, hz, hplen, List.length_append]
      try omega

/-- Concatenated canonical bytes of a sequence of subgroup objects. -/
def subgroup_objects_encB (os : List SubgroupObject) (ep : Bool) : List Nat :=
  match os with
  | [] => []
  | o :: rest => o.encB ep ++ subgroup_objects_encB rest ep

/-- Replay loop: decode `n` consecutive subgroup objects, threading the
offset, as a consumer of a subgroup stream does. -/
def decode_subgroup_objects_loop (data : List Nat) (ep : Bool) (offset : Nat) :
    Nat → Except PyError (List SubgroupObject × Nat)
  | 0 => .ok ([], 0)
  | n + 1 => do
      let (o, c) ← decode_subgroup_object data ep offset
      let (os, total) ← decode_subgroup_objects_loop data ep (offset + c) n
      .ok (o :: os, c + total)

/-- Replay of a whole subgroup stream: header first, then the objects, with
the extensions flag taken from the decoded header type. -/
def decode_subgroup_stream (data : List Nat) (count : Nat) :
    Except PyError (SubgroupHeader × List SubgroupObject × Nat) := do
  let (h, c) ← decode_subgroup_header data 0
  let (os, total) ← decode_subgroup_objects_loop data
    (SubgroupHeaderType.has_extensions h.header_type) c count
  .ok (h, os, c + total)

theorem decode_subgroup_objects_loop_at (os : List SubgroupObject) (ep : Bool)
    (pre rest : List Nat) (hos : ∀ o ∈ os, o.validB ep = true) :
    decode_subgroup_objects_loop (pre ++ (subgroup_objects_encB os ep ++ rest))
        ep pre.length os.length
      = .ok (os, (subgroup_objects_encB os ep).length) := by
  induction os generalizing pre with
  | nil =>
    simp [decode_subgroup_objects_loop, subgroup_objects_encB]
  | cons o os ih =>
    have hshape : subgroup_objects_encB (o :: os) ep ++ rest
        = o.encB ep ++ (subgroup_objects_encB os ep ++ rest) := by
      simp [subgroup_objects_encB, List.append_assoc]
    rw [show (o :: os).length = os.length + 1 from rfl, hshape]
    unfold decode_subgroup_objects_loop
    rw [decode_subgroup_object_at o ep pre (subgroup_objects_encB os ep ++ rest)
      (hos o (by simp))]
    simp only [except_ok_bind]
    have h2 := ih (pre ++ o.encB ep) (fun q hq => hos q (by simp [hq]))
    simp only [List.append_assoc, List.length_append] at h2
    rw [h2]
    simp only [except_ok_bind]
    simp [subgroup_objects_encB, List.length_append]

/-- Modelled from the spec: deltas-to-absolute-ids accumulation after the
first object; each object's absolute id is the prior object's id plus one
plus the delta. -/
def absoluteIdsFrom (prior : Nat) : List Nat → List Nat
  | [] => []
  | d :: ds => (prior + 1 + d) :: absoluteIdsFrom (prior + 1 + d) ds

/-- Modelled from the spec: absolute object ids of a subgroup stream from
the per-object deltas; the first object's id is its delta. -/
def absoluteObjectIds : List Nat → List Nat
  | [] => []
  | d :: ds => d :: absoluteIdsFrom d ds

/-- Deltas that serialise a strictly increasing id sequence (inverse of the
accumulation rule, after the first id). -/
def deltasFrom (prior : Nat) : List Nat → List Nat
  | [] => []
  | i :: rest => (i - prior - 1) :: deltasFrom i rest

/-- Deltas that serialise a strictly increasing id sequence. -/
def deltasOfIds : List Nat → List Nat
  | [] => []
  | i :: rest => i :: deltasFrom i rest

theorem absoluteIdsFrom_deltasFrom (ids : List Nat) (prior : Nat)
    (hchain : List.Chain' (fun a b => a < b) (prior :: ids)) :
    absoluteIdsFrom prior (deltasFrom prior ids) = ids := by
  induction ids generalizing prior with
  | nil => rfl
  | cons i rest ih =>
    rw [List.chain'_cons] at hchain
    obtain ⟨hlt, hchain2⟩ := hchain
    unfold deltasFrom absoluteIdsFrom
    have he : prior + 1 + (i - prior - 1) = i := by omega
    rw [he]
    rw [ih i hchain2]

/-- C6: a valid subgroup header followed by any sequence of valid subgroup
objects round trips: the encoders produce the canonical bytes, replaying
the concatenation through `decode_subgroup_header` and repeated
`decode_subgroup_object` recovers the header and every object with total
consumed equal to the encoded length, and (modelled from the spec, the
repository keeps only deltas) the absolute-object-id accumulation rule
(first id = first delta, id = prior id + 1 + delta) reconstructs any
strictly increasing id sequence from its deltas; deltas 0, 0, 1 give ids
0, 1, 3. -/
theorem C6_subgroup_stream_roundtrip (h : SubgroupHeader)
    (os : List SubgroupObject) (hh : h.validB = true)
    (hos : ∀ o ∈ os,
      o.validB (SubgroupHeaderType.has_extensions h.header_type) = true) :
    h.encode = .ok h.encB ∧
    (∀ o ∈ os, o.encode (SubgroupHeaderType.has_extensions h.header_type)
        = .ok (o.encB (SubgroupHeaderType.has_extensions h.header_type))) ∧
    decode_subgroup_stream
        (h.encB ++ subgroup_objects_encB os
          (SubgroupHeaderType.has_extensions h.header_type)) os.length
      = .ok (h, os,
          (h.encB ++ subgroup_objects_encB os
            (SubgroupHeaderType.has_extensions h.header_type)).length) ∧
    (∀ ids : List Nat, List.Chain' (fun a b => a < b) ids →
      absoluteObjectIds (deltasOfIds ids) = ids) ∧
    absoluteObjectIds [0, 0, 1] = [0, 1, 3] := by
  refine ⟨SubgroupHeader_encode_eq h hh,
    fun o ho => SubgroupObject_encode_eq o _ (hos o ho), ?_, ?_, by decide⟩
  · unfold decode_subgroup_stream
    have h1 := decode_subgroup_header_at h []
      (subgroup_objects_encB os (SubgroupHeaderType.has_extensions h.header_type))
      hh
    simp only [List.nil_append, List.length_nil] at h1
    rw [h1]
    simp only [except_ok_bind]
    have h2 := decode_subgroup_objects_loop_at os
      (SubgroupHeaderType.has_extensions h.header_type) h.encB [] hos
    simp only [List.append_nil] at h2
    rw [h2]
    simp only [except_ok_bind]
    simp [List.length_append]
  · intro ids hch
    cases ids with
    | nil => rfl
    | cons i rest =>
      simp only [deltasOfIds, absoluteObjectIds]
      rw [absoluteIdsFrom_deltasFrom rest i hch]

/-- Witness header: type 0x14 (subgroup id present, no extensions,
priority present). -/
def c6Header : SubgroupHeader :=
  { header_type := 0x14, track_alias := 1, group_id := 2,
    subgroup_id := some 7, publisher_priority := some 9 }

/-- Witness objects: one payload object and one status-only object. -/
def c6Objects : List SubgroupObject :=
  [{ object_id_delta := 5, extensions := none, payload_length := 2,
     object_status := none, payload := [0xAA, 0xBB] },
   { object_id_delta := 0, extensions := none, payload_length := 0,
     object_status := some 3, payload := [] }]

theorem C6_subgroup_stream_roundtrip_witness :
    c6Header.validB = true ∧
    (c6Objects.all fun o => o.validB
      (SubgroupHeaderType.has_extensions c6Header.header_type)) = true ∧
    decode_subgroup_stream
        (c6Header.encB ++ subgroup_objects_encB c6Objects
          (SubgroupHeaderType.has_extensions c6Header.header_type))
        c6Objects.length
      = .ok (c6Header, c6Objects,
          (c6Header.encB ++ subgroup_objects_encB c6Objects
            (SubgroupHeaderType.has_extensions c6Header.header_type)).length) ∧
    absoluteObjectIds [0, 0, 1] = [0, 1, 3] := by
  have h := C6_subgroup_stream_roundtrip c6Header c6Objects (by decide)
    (by intro o ho; fin_cases ho <;> decide)
  exact ⟨by decide, by decide, h.2.2.1, h.2.2.2.2⟩

/-- `FetchObject` (data_stream.py). -/
structure FetchObject where
  serialization_flags : Nat
  group_id : Nat
  subgroup_id : Nat
  object_id : Nat
  publisher_priority : Option Nat
  extensions : Option (List (Nat × List Nat))
  payload_length : Nat
  object_status : Option Nat
  payload : List Nat
  deriving Repr, DecidableEq

/-- `decode_fetch_object`: a flags byte (an unguarded index access in the
source, modelled as `indexError`), then per-flag fields; absent fields are
taken from the prior-object running state (object id resumes at prior plus
one) and are rejected on the first object of the stream. Flag bits follow
`FetchSerializationFlags`: bits 0-1 subgroup mode, 0x04 object id, 0x08
group id, 0x10 priority, 0x20 extensions. -/
def decode_fetch_object (data : List Nat) (first_object : Bool) (offset : Nat)
    (prior_group_id prior_subgroup_id prior_object_id prior_priority : Nat) :
    Except PyError (FetchObject × Nat) :=
  if data.length ≤ offset then .error .indexError
  else
    let serialization_flags := data.getD offset 0
    (if serialization_flags &&& 0x08 ≠ 0 then
       decode_varint data (offset + 1)
     else if first_object then
       Except.error (.valueError "first object without Group ID")
     else Except.ok (prior_group_id, 0)) >>= fun (group_id, c1) =>
    (if serialization_flags &&& 0x03 = 0 then Except.ok (0, 0)
     else if serialization_flags &&& 0x03 = 1 then
       if first_object then
         Except.error (.valueError "first object refers to prior Subgroup ID")
       else Except.ok (prior_subgroup_id, 0)
     else if serialization_flags &&& 0x03 = 2 then
       if first_object then
         Except.error
           (.valueError "first object refers to prior Subgroup ID + 1")
       else Except.ok (prior_subgroup_id + 1, 0)
     else decode_varint data (offset + 1 + c1)) >>= fun (subgroup_id, c2) =>
    (if serialization_flags &&& 0x04 ≠ 0 then
       decode_varint data (offset + 1 + c1 + c2)
     else if first_object then
       Except.error (.valueError "first object without Object ID")
     else Except.ok (prior_object_id + 1, 0)) >>= fun (object_id, c3) =>
    (if serialization_flags &&& 0x10 ≠ 0 then
       if data.length ≤ offset + 1 + c1 + c2 + c3 then
         Except.error .indexError
       else Except.ok (data.getD (offset + 1 + c1 + c2 + c3) 0, 1)
     else if first_object then
       Except.error (.valueError "first object without Priority")
     else Except.ok (prior_priority, 0)) >>= fun (publisher_priority, c4) =>
    (if serialization_flags &&& 0x20 ≠ 0 then
       ObjectExtensions.decode data (offset + 1 + c1 + c2 + c3 + c4) >>=
         fun (ext, c) => Except.ok (some ext, c)
     else
       Except.ok ((none : Option (List (Nat × List Nat))), 0)) >>=
      fun (extensions, c5) =>
    decode_varint data (offset + 1 + c1 + c2 + c3 + c4 + c5) >>=
      fun (payload_length, c6) =>
    if payload_length = 0 then
      decode_varint data (offset + 1 + c1 + c2 + c3 + c4 + c5 + c6) >>=
        fun (status_val, c7) =>
      if OBJECT_STATUS_VALUES.contains status_val then
        .ok ({ serialization_flags := serialization_flags,
               group_id := group_id, subgroup_id := subgroup_id,
               object_id := object_id,
               publisher_priority := some publisher_priority,
               extensions := extensions, payload_length := payload_length,
               object_status := some status_val, payload := [] },
             1 + c1 + c2 + c3 + c4 + c5 + c6 + c7)
      else
        .error (.valueError ("invalid ObjectStatus: " ++ toString status_val))
    else
      .ok ({ serialization_flags := serialization_flags,
             group_id := group_id, subgroup_id := subgroup_id,
             object_id := object_id,
             publisher_priority := some publisher_priority,
             extensions := extensions, payload_length := payload_length,
             object_status := none,
             payload := pySlice data (offset + 1 + c1 + c2 + c3 + c4 + c5 + c6)
               (offset + 1 + c1 + c2 + c3 + c4 + c5 + c6 + payload_length) },
           1 + c1 + c2 + c3 + c4 + c5 + c6 + payload_length)

/-- C7 counterexample: flags 0x18 (group and priority present, object id
absent) after a prior object with id 5; the decoder resumes the object id
at 6 = prior + 1, not at the prior object's id 5 as the claim states. -/
theorem C7_fetch_object_counterexample :
    decode_fetch_object [0x18, 0x07, 0x80, 0x01, 0x61] false 0 3 0 5 0
      = .ok ({ serialization_flags := 0x18, group_id := 7, subgroup_id := 0,
               object_id := 6, publisher_priority := some 128,
               extensions := none, payload_length := 1, object_status := none,
               payload := [0x61] }, 5) ∧ (6 : Nat) ≠ 5 :=
  ⟨rfl, by decide⟩

theorem except_bind_ok {ε α β : Type} (x : Except ε α) (f : α → Except ε β)
    (b : β) (h : x >>= f = .ok b) : ∃ a, x = .ok a ∧ f a = .ok b := by
  cases x with
  | error e => exact absurd h (by simp [Bind.bind, Except.bind])
  | ok a => exact ⟨a, rfl, h⟩

/-- C7 (amended): on the first fetch object a successful decode forces the
group-id, object-id, and priority presence bits (their absence raises); on
a non-first object every field absent per the flags comes from the decoder
running state, with the object id resuming at the prior object's id plus
one (not at the prior id itself as claimed), the subgroup id per bits 0-1
(0 = zero, 1 = prior, 2 = prior + 1), and priority from the prior value. -/
theorem C7_fetch_object_amended :
    (∀ data off pg psg po pp o n,
      decode_fetch_object data true off pg psg po pp = .ok (o, n) →
        (data.getD off 0) &&& 0x08 ≠ 0 ∧ (data.getD off 0) &&& 0x04 ≠ 0 ∧
        (data.getD off 0) &&& 0x10 ≠ 0) ∧
    (∀ data off pg psg po pp o n,
      decode_fetch_object data false off pg psg po pp = .ok (o, n) →
        o.serialization_flags = data.getD off 0 ∧
        ((data.getD off 0) &&& 0x08 = 0 → o.group_id = pg) ∧
        ((data.getD off 0) &&& 0x04 = 0 → o.object_id = po + 1) ∧
        ((data.getD off 0) &&& 0x10 = 0 → o.publisher_priority = some pp) ∧
        ((data.getD off 0) &&& 0x03 = 0 → o.subgroup_id = 0) ∧
        ((data.getD off 0) &&& 0x03 = 1 → o.subgroup_id = psg) ∧
        ((data.getD off 0) &&& 0x03 = 2 → o.subgroup_id = psg + 1)) := by
  constructor
  · intro data off pg psg po pp o n h
    simp only [decode_fetch_object] at h
    by_cases hlen : data.length ≤ off
    · rw [if_pos hlen] at h
      exact absurd h (by simp)
    rw [if_neg hlen] at h
    obtain ⟨⟨g1, c1⟩, hg, h⟩ := except_bind_ok _ _ _ h
    obtain ⟨⟨sg, c2⟩, hs, h⟩ := except_bind_ok _ _ _ h
    obtain ⟨⟨oid, c3⟩, ho2, h⟩ := except_bind_ok _ _ _ h
    obtain ⟨⟨prio, c4⟩, hp, h⟩ := except_bind_ok _ _ _ h
    refine ⟨?_, ?_, ?_⟩
    · intro hbit
      rw [if_neg (fun hc => hc hbit)] at hg
      simp at hg
    · intro hbit
      rw [if_neg (fun hc => hc hbit)] at ho2
      simp at ho2
    · intro hbit
      rw [if_neg (fun hc => hc hbit)] at hp
      simp at hp
  · intro data off pg psg po pp o n h
    simp only [decode_fetch_object] at h
    by_cases hlen : data.length ≤ off
    · rw [if_pos hlen] at h
      exact absurd h (by simp)
    rw [if_neg hlen] at h
    obtain ⟨⟨g1, c1⟩, hg, h⟩ := except_bind_ok _ _ _ h
    obtain ⟨⟨sg, c2⟩, hs, h⟩ := except_bind_ok _ _ _ h
    obtain ⟨⟨oid, c3⟩, ho2, h⟩ := except_bind_ok _ _ _ h
    obtain ⟨⟨prio, c4⟩, hp, h⟩ := except_bind_ok _ _ _ h
    obtain ⟨⟨exts, c5⟩, he, h⟩ := except_bind_ok _ _ _ h
    obtain ⟨⟨pl, c6⟩, hl, h⟩ := except_bind_ok _ _ _ h
    have hofields : o.serialization_flags = data.getD off 0 ∧ o.group_id = g1 ∧
        o.subgroup_id = sg ∧ o.object_id = oid ∧
        o.publisher_priority = some prio := by
      by_cases hpl : pl = 0
      · rw [if_pos hpl] at h
        obtain ⟨⟨stv, c7⟩, hst, h⟩ := except_bind_ok _ _ _ h
        by_cases hc : OBJECT_STATUS_VALUES.contains stv = true
        · rw [if_pos hc] at h
          have h2 : _ = o := congrArg Prod.fst (Except.ok.inj h)
          rw [← h2]
          simp
        · rw [if_neg hc] at h
          exact absurd h (by simp)
      · rw [if_neg hpl] at h
        have h2 : _ = o := congrArg Prod.fst (Except.ok.inj h)
        rw [← h2]
        simp
    obtain ⟨hflags, hgid, hsgid, hoid, hprio⟩ := hofields
    refine ⟨hflags, ?_, ?_, ?_, ?_, ?_, ?_⟩
    · intro hbit
      rw [if_neg (fun hc => hc hbit)] at hg
      simp only [Bool.false_eq_true, if_false, pure, Except.pure,
        Except.ok.injEq, Prod.mk.injEq] at hg
      rw [hgid, ← hg.1]
    · intro hbit
      rw [if_neg (fun hc => hc hbit)] at ho2
      simp only [Bool.false_eq_true, if_false, pure, Except.pure,
        Except.ok.injEq, Prod.mk.injEq] at ho2
      rw [hoid, ← ho2.1]
    · intro hbit
      rw [if_neg (fun hc => hc hbit)] at hp
      simp only [Bool.false_eq_true, if_false, pure, Except.pure,
        Except.ok.injEq, Prod.mk.injEq] at hp
      rw [hprio, ← hp.1]
    · intro hbit
      rw [if_pos hbit] at hs
      simp only [pure, Except.pure, Except.ok.injEq, Prod.mk.injEq] at hs
      rw [hsgid, ← hs.1]
    · intro hbit
      rw [if_neg (by omega), if_pos hbit] at hs
      simp only [Bool.false_eq_true, if_false, pure, Except.pure,
        Except.ok.injEq, Prod.mk.injEq] at hs
      rw [hsgid, ← hs.1]
    · intro hbit
      rw [if_neg (by omega), if_neg (by omega), if_pos hbit] at hs
      simp only [Bool.false_eq_true, if_false, pure, Except.pure,
        Except.ok.injEq, Prod.mk.injEq] at hs
      rw [hsgid, ← hs.1]

/-- The fetch object decoded by the C7 concrete run. -/
def c7Obj : FetchObject :=
  { serialization_flags := 0x18, group_id := 7, subgroup_id := 0,
    object_id := 6, publisher_priority := some 128, extensions := none,
    payload_length := 1, object_status := none, payload := [0x61] }

theorem C7_fetch_object_amended_witness :
    decode_fetch_object [0x18, 0x07, 0x80, 0x01, 0x61] false 0 3 0 5 0
      = .ok (c7Obj, 5) ∧
    (([0x18, 0x07, 0x80, 0x01, 0x61].getD 0 0) &&& 0x04 = 0 →
      c7Obj.object_id = 5 + 1) ∧
    (([0x18, 0x07, 0x80, 0x01, 0x61].getD 0 0) &&& 0x03 = 0 →
      c7Obj.subgroup_id = 0) :=
  ⟨rfl,
   (C7_fetch_object_amended.2 [0x18, 0x07, 0x80, 0x01, 0x61] 0 3 0 5 0
      c7Obj 5 rfl).2.2.1,
   (C7_fetch_object_amended.2 [0x18, 0x07, 0x80, 0x01, 0x61] 0 3 0 5 0
      c7Obj 5 rfl).2.2.2.2.1⟩
